import Mathlib

/-!
# Hardware renderer base (`GPU_HW`, src/core/gpu_hw.h)

A shallow embedding of the batching / VRAM-tracking base class of the hardware
renderers.  Pointers into the mapped vertex storage are element addresses
(natural numbers, one unit per `BatchVertex`); a pointer difference is an
integer and `static_cast<u32>` reduces it modulo `2^32`.  Calls of the pure
virtual backend methods are recorded in a trace carried by the state.
-/

/-- The value of `static_cast<u32>(i)` for an integer `i`. -/
def u32 (i : Int) : Nat := (i % 4294967296).toNat

/-- The value of a `u32` expression whose exact value is the natural number `n`. -/
def wrap32 (n : Nat) : Nat := n % 4294967296

/-- The value of a converted-to-`u16` expression whose exact value is `n`. -/
def u16 (n : Nat) : Nat := n % 65536

/-! ## Binary32 arithmetic

A finite `float` is the rational number it denotes.  Every operation computes
the exact result and rounds it to the nearest binary32 value, ties to even; no
operation of the header comes near the overflow threshold `2^128`. -/

namespace F32

/-- The integer nearest to `t`, the even one of the two when `t` lies halfway. -/
def roundHalfEven (t : ℚ) : ℤ :=
  let f := ⌊t⌋
  if t - f < 1 / 2 then f
  else if 1 / 2 < t - f then f + 1
  else if f % 2 = 0 then f
  else f + 1

/-- The binary32 value nearest to `q`: a multiple of `2^(e - 23)` where `e` is
the exponent of `q`, not below the least normal exponent `-126`. -/
def nearest (q : ℚ) : ℚ :=
  if q = 0 then 0
  else
    let e := max (Int.log 2 |q|) (-126)
    (roundHalfEven (q / 2 ^ (e - 23)) : ℚ) * 2 ^ (e - 23)

/-- The conversion `static_cast<float>(n)` of an integer. -/
def ofInt (n : Int) : ℚ := nearest n

/-- The `float` product `a * b`. -/
def mul (a b : ℚ) : ℚ := nearest (a * b)

/-- The `float` quotient `a / b`. -/
def div (a b : ℚ) : ℚ := nearest (a / b)

end F32

namespace Common

/-- Modelled from the spec: `Common::Rectangle<u32>` is declared in
common/rectangle.h, which is not among the sources.  The spec calls the dirty
rectangle "an optionally-empty axis-aligned rectangle over the VRAM coordinate
space"; the bounds are half open, `left <= x < right` and `top <= y < bottom`. -/
structure Rectangle where
  left : Nat
  top : Nat
  right : Nat
  bottom : Nat
deriving DecidableEq, Repr

namespace Rectangle

/-- Modelled from the spec: `Rectangle::Set`, the assignment of the four bounds. -/
def Set (_r : Rectangle) (left top right bottom : Nat) : Rectangle :=
  ⟨left, top, right, bottom⟩

/-- Modelled from the spec: `Rectangle::SetInvalid`, "cleared to empty": the
lower bounds take the largest `u32` and the upper bounds the smallest, so that
including a rectangle afterwards yields that rectangle. -/
def SetInvalid (r : Rectangle) : Rectangle :=
  r.Set 4294967295 4294967295 0 0

/-- Modelled from the spec: `Rectangle::FromExtents`, the rectangle with origin
`(x, y)` and the given width and height. -/
def FromExtents (x y width height : Nat) : Rectangle :=
  ⟨x, y, x + width, y + height⟩

/-- Modelled from the spec: `Rectangle::Contains`, whether the pixel `(x, y)`
lies in the rectangle. -/
def Contains (r : Rectangle) (x y : Nat) : Bool :=
  decide (r.left ≤ x) && decide (x < r.right) && decide (r.top ≤ y) && decide (y < r.bottom)

/-- Modelled from the spec: `Rectangle::Intersects`, the test that neither
rectangle lies wholly to one side of the other; two rectangles that share a
pixel pass it. -/
def Intersects (r rhs : Rectangle) : Bool :=
  !(decide (rhs.right ≤ r.left) || decide (r.right ≤ rhs.left) ||
    decide (rhs.bottom ≤ r.top) || decide (r.bottom ≤ rhs.top))

/-- Modelled from the spec: `Rectangle::Include`, the "set-union" by which the
dirty rectangle grows: the smallest rectangle holding both. -/
def Include (r rhs : Rectangle) : Rectangle :=
  ⟨min r.left rhs.left, min r.top rhs.top, max r.right rhs.right, max r.bottom rhs.bottom⟩

end Rectangle

end Common

namespace GPU

/-- Modelled from the spec: the VRAM extent, "fixed-size 2D array of 16-bit
pixels (1024×512)"; the enumerator lives in gpu.h, not among the sources. -/
def VRAM_WIDTH : Nat := 1024

/-- Modelled from the spec: see `VRAM_WIDTH`. -/
def VRAM_HEIGHT : Nat := 512

/-- Modelled from the spec: bit depth of a texture, the second factor of
"texture mode {disabled, raw, blended} × bit depth" (gpu.h is absent). -/
inductive TextureDepth
  | Palette4Bit
  | Palette8Bit
  | Direct16Bit
deriving DecidableEq, Repr

/-- Modelled from the spec: `GPU::TextureMode`, "texture mode {disabled, raw,
blended} × bit depth"; the enum is declared in gpu.h, which is absent.  The
header under study only names the enumerator `Disabled`. -/
inductive TextureMode
  | Blended (depth : TextureDepth)
  | Raw (depth : TextureDepth)
  | Disabled
deriving DecidableEq, Repr

/-- Modelled from the spec: `GPU::TransparencyMode`, "average, additive,
subtractive, quarter-additive" plus the `Disabled` value the header compares
against; the enum is declared in gpu.h, which is absent. -/
inductive TransparencyMode
  | HalfBackgroundPlusHalfForeground
  | BackgroundPlusForeground
  | BackgroundMinusForeground
  | BackgroundPlusQuarterForeground
  | Disabled
deriving DecidableEq, Repr

end GPU

namespace GPU_HW

open GPU

/-- The `enum class BatchPrimitive : u8`. -/
inductive BatchPrimitive
  | Lines
  | Triangles
deriving DecidableEq, Repr

/-- The `enum class BatchRenderMode : u8`. -/
inductive BatchRenderMode
  | TransparencyDisabled
  | TransparentAndOpaque
  | OnlyOpaque
  | OnlyTransparent
deriving DecidableEq, Repr

/-- The `enum class InterlacedRenderMode : u8`. -/
inductive InterlacedRenderMode
  | None
  | InterleavedFields
  | SeparateFields
deriving DecidableEq, Repr

/-- The `struct BatchVertex`; a `float` member holds the rational value of the
float. -/
structure BatchVertex where
  x : Int
  y : Int
  z : Int
  px : ℚ
  py : ℚ
  pz : ℚ
  color : Nat
  texpage : Nat
  u : Nat
  v : Nat
deriving DecidableEq

/-- The seven-argument method `BatchVertex::Set`. -/
def BatchVertex.Set (_vtx : BatchVertex) (x_ y_ z_ : Int) (color_ texpage_ u_ v_ : Nat) :
    BatchVertex where
  x := x_
  y := y_
  z := z_
  color := color_
  texpage := texpage_
  u := u_
  v := v_
  px := F32.ofInt x_
  py := F32.ofInt y_
  pz := 1

/-- The six-argument overload of `BatchVertex::Set`, which takes the texture
coordinates packed in one `u16`; the two `int` expressions are converted to the
`u16` parameters of the seven-argument method. -/
def BatchVertex.SetPacked (vtx : BatchVertex) (x_ y_ z_ : Int)
    (color_ texpage_ packed_texcoord : Nat) : BatchVertex :=
  vtx.Set x_ y_ z_ color_ texpage_ (u16 (packed_texcoord &&& 0xFF)) (u16 (packed_texcoord >>> 8))

/-- The `struct BatchConfig`. -/
structure BatchConfig where
  primitive : BatchPrimitive
  texture_mode : TextureMode
  transparency_mode : TransparencyMode
  dithering : Bool
  interlacing : Bool
  set_mask_while_drawing : Bool
  check_mask_before_draw : Bool
deriving DecidableEq, Repr

/-- The method `BatchConfig::NeedsTwoPassRendering`. -/
def BatchConfig.NeedsTwoPassRendering (c : BatchConfig) : Bool :=
  c.transparency_mode == TransparencyMode.BackgroundMinusForeground &&
    c.texture_mode != TextureMode.Disabled

/-- The method `BatchConfig::GetRenderMode`. -/
def BatchConfig.GetRenderMode (c : BatchConfig) : BatchRenderMode :=
  if c.transparency_mode == TransparencyMode.Disabled then BatchRenderMode.TransparencyDisabled
  else BatchRenderMode.TransparentAndOpaque

/-- The `struct RendererStats`. -/
structure RendererStats where
  num_batches : Nat
  num_vram_read_texture_updates : Nat
  num_uniform_buffer_updates : Nat
deriving DecidableEq, Repr

/-- Modelled from the spec: the bits of the status register `m_GPUSTAT` that
the operations below consult, "mask-write/mask-test flags" among them; the
register belongs to the base class `GPU`, declared in gpu.h, which is absent. -/
structure GPUSTAT where
  vertical_resolution : Bool
  set_mask_while_drawing : Bool
  check_mask_before_draw : Bool
deriving DecidableEq, Repr

/-- One call of a pure virtual backend method of `GPU_HW`, as recorded in the
trace of the state. -/
inductive BackendCall
  | UpdateVRAMReadTexture
  | UpdateDepthBufferFromMaskBit
  | SetScissorFromDrawingArea
  | MapBatchVertexPointer (required_vertices : Nat)
  | UnmapBatchVertexPointer (used_vertices : Nat)
  | UploadUniformBuffer (uniforms_size : Nat)
  | DrawBatchVertices (render_mode : BatchRenderMode) (base_vertex : Nat) (num_vertices : Nat)
deriving DecidableEq, Repr

end GPU_HW

open GPU GPU_HW in
/-- The data members of `class GPU_HW` that the operations below touch.

* `vertex_memory` is the storage the three batch pointers point into, indexed
  by element address.
* `vram_texture` is the hardware-resident VRAM image owned by the backend, and
  `backend_calls` the trace of backend method calls, oldest first.
* `backend_draw` is what `DrawBatchVertices` of the backend variant in use
  does to the hardware-resident image, given the render mode, the batch
  configuration and the committed vertices.
* `texture_page_changed` is the flag of `m_draw_mode` that
  `SetTexturePageChanged()` raises (`m_draw_mode` belongs to the base class
  `GPU`, in gpu.h); `m_GPUSTAT` is inherited from `GPU` as well.
* `interlaced_display_enabled` is what `IsInterlacedDisplayEnabled()` of the
  base class `GPU` returns in this state; its definition is in gpu.h. -/
structure GPU_HW where
  m_GPUSTAT : GPU_HW.GPUSTAT
  interlaced_display_enabled : Bool
  m_vram_shadow : Nat → Nat
  m_batch_start_vertex_ptr : Nat
  m_batch_end_vertex_ptr : Nat
  m_batch_current_vertex_ptr : Nat
  m_batch_base_vertex : Nat
  m_current_depth : Int
  m_batch : GPU_HW.BatchConfig
  m_vram_dirty_rect : Common.Rectangle
  m_renderer_stats : GPU_HW.RendererStats
  m_batch_ubo_dirty : Bool
  texture_page_changed : Bool
  vertex_memory : Nat → GPU_HW.BatchVertex
  vram_texture : Nat → Nat
  backend_calls : List GPU_HW.BackendCall
  backend_draw : GPU_HW.BatchRenderMode → GPU_HW.BatchConfig → List GPU_HW.BatchVertex →
    (Nat → Nat) → (Nat → Nat)

namespace GPU_HW

open GPU

/-- The method `IsFlushed`. -/
def IsFlushed (s : GPU_HW) : Bool :=
  s.m_batch_current_vertex_ptr == s.m_batch_start_vertex_ptr

/-- The method `GetBatchVertexSpace`. -/
def GetBatchVertexSpace (s : GPU_HW) : Nat :=
  u32 ((s.m_batch_end_vertex_ptr : Int) - (s.m_batch_current_vertex_ptr : Int))

/-- The method `GetBatchVertexCount`. -/
def GetBatchVertexCount (s : GPU_HW) : Nat :=
  u32 ((s.m_batch_current_vertex_ptr : Int) - (s.m_batch_start_vertex_ptr : Int))

/-- The vertex at index `i` of the current batch, `m_batch_start_vertex_ptr[i]`. -/
def BatchVertexAt (s : GPU_HW) (i : Nat) : BatchVertex :=
  s.vertex_memory (s.m_batch_start_vertex_ptr + i)

/-- The method `AddVertex`: the `memcpy` to `m_batch_current_vertex_ptr`, then
the increment of that pointer. -/
def AddVertex (s : GPU_HW) (v : BatchVertex) : GPU_HW :=
  { s with
    vertex_memory := Function.update s.vertex_memory s.m_batch_current_vertex_ptr v
    m_batch_current_vertex_ptr := s.m_batch_current_vertex_ptr + 1 }

/-- The method template `AddNewVertex`, for the arguments of the seven-argument
`Set`: the vertex under `m_batch_current_vertex_ptr` is set in place, then the
pointer is incremented. -/
def AddNewVertex (s : GPU_HW) (x_ y_ z_ : Int) (color_ texpage_ u_ v_ : Nat) : GPU_HW :=
  { s with
    vertex_memory :=
      Function.update s.vertex_memory s.m_batch_current_vertex_ptr
        ((s.vertex_memory s.m_batch_current_vertex_ptr).Set x_ y_ z_ color_ texpage_ u_ v_)
    m_batch_current_vertex_ptr := s.m_batch_current_vertex_ptr + 1 }

/-- The function `RGBA8ToFloat`, on a `u32` colour. -/
def RGBA8ToFloat (rgba : Nat) : ℚ × ℚ × ℚ × ℚ :=
  (F32.mul (F32.ofInt (rgba &&& 0xFF : Nat)) (F32.div 1 255),
   F32.mul (F32.ofInt ((rgba >>> 8) &&& 0xFF : Nat)) (F32.div 1 255),
   F32.mul (F32.ofInt ((rgba >>> 16) &&& 0xFF : Nat)) (F32.div 1 255),
   F32.mul (F32.ofInt (rgba >>> 24 : Nat)) (F32.div 1 255))

/-- The method `GetCurrentNormalizedVertexDepth`. -/
def GetCurrentNormalizedVertexDepth (s : GPU_HW) : ℚ :=
  F32.div (F32.ofInt s.m_current_depth) 65535

/-- The method `GetInterlacedRenderMode`. -/
def GetInterlacedRenderMode (s : GPU_HW) : InterlacedRenderMode :=
  if s.interlaced_display_enabled then
    if s.m_GPUSTAT.vertical_resolution then InterlacedRenderMode.InterleavedFields
    else InterlacedRenderMode.SeparateFields
  else InterlacedRenderMode.None

/-- The state a freshly constructed object has by the default member
initialisers of the header: null batch pointers, zeroed batch configuration and
statistics, an empty dirty rectangle, `m_batch_ubo_dirty = true`; memory and
images are zeroed and the backend draws nothing. -/
def initial : GPU_HW where
  m_GPUSTAT := ⟨false, false, false⟩
  interlaced_display_enabled := false
  m_vram_shadow := fun _ => 0
  m_batch_start_vertex_ptr := 0
  m_batch_end_vertex_ptr := 0
  m_batch_current_vertex_ptr := 0
  m_batch_base_vertex := 0
  m_current_depth := 0
  m_batch := ⟨BatchPrimitive.Lines, TextureMode.Blended TextureDepth.Palette4Bit,
    TransparencyMode.HalfBackgroundPlusHalfForeground, false, false, false, false⟩
  m_vram_dirty_rect := Common.Rectangle.SetInvalid ⟨0, 0, 0, 0⟩
  m_renderer_stats := ⟨0, 0, 0⟩
  m_batch_ubo_dirty := true
  texture_page_changed := false
  vertex_memory := fun _ => ⟨0, 0, 0, 0, 0, 0, 0, 0, 0, 0⟩
  vram_texture := fun _ => 0
  backend_calls := []
  backend_draw := fun _ _ _ image => image

/-! ## Dirty rectangle -/

/-- The method `SetFullVRAMDirtyRectangle`. -/
def SetFullVRAMDirtyRectangle (s : GPU_HW) : GPU_HW :=
  { s with
    m_vram_dirty_rect := s.m_vram_dirty_rect.Set 0 0 VRAM_WIDTH VRAM_HEIGHT
    texture_page_changed := true }

/-- The method `ClearVRAMDirtyRectangle`. -/
def ClearVRAMDirtyRectangle (s : GPU_HW) : GPU_HW :=
  { s with m_vram_dirty_rect := s.m_vram_dirty_rect.SetInvalid }

/-- Modelled from the spec: `IncludeVRAMDityRectangle` is declared in the header
and defined in gpu_hw.cpp, which is absent.  The dirty rectangle "monotonically
grows (set-union) on every hardware-side write". -/
def IncludeVRAMDityRectangle (s : GPU_HW) (rect : Common.Rectangle) : GPU_HW :=
  { s with m_vram_dirty_rect := s.m_vram_dirty_rect.Include rect }

/-- Modelled from the spec: `GetVRAMTransferBounds` is declared in the header
("computes the area affected by a VRAM transfer, including wrap-around of X")
and defined in gpu_hw.cpp, which is absent.  The origin is "taken modulo the
fixed VRAM extent"; a transfer that runs over an edge affects the whole extent
along that axis. -/
def GetVRAMTransferBounds (x y width height : Nat) : Common.Rectangle :=
  let rc := Common.Rectangle.FromExtents (x % VRAM_WIDTH) (y % VRAM_HEIGHT) width height
  let rc := if VRAM_WIDTH < rc.right then { rc with left := 0, right := VRAM_WIDTH } else rc
  if VRAM_HEIGHT < rc.bottom then { rc with top := 0, bottom := VRAM_HEIGHT } else rc

/-! ## Sizes -/

/-- The `sizeof` of a struct whose members have the given sizes, each member
aligned to its own size and the whole to the largest member. -/
def structSize (members : List Nat) : Nat :=
  let last := members.foldl (fun offset size => (offset + size - 1) / size * size + size) 0
  let alignment := members.foldl max 1
  (last + alignment - 1) / alignment * alignment

/-- The value of `sizeof(BatchVertex)`: three `s32`, three `float`, two `u32`, two `u16`. -/
def sizeof_BatchVertex : Nat := structSize [4, 4, 4, 4, 4, 4, 4, 4, 2, 2]

/-- The value of `sizeof(BatchUBOData)`: six `u32` and two `float`. -/
def sizeof_BatchUBOData : Nat := structSize [4, 4, 4, 4, 4, 4, 4, 4]

/-- The value of `sizeof(VRAMFillUBOData)`. -/
def sizeof_VRAMFillUBOData : Nat := structSize [4, 4, 4, 4, 4]

/-- The value of `sizeof(VRAMWriteUBOData)`. -/
def sizeof_VRAMWriteUBOData : Nat := structSize [4, 4, 4, 4, 4, 4, 4, 4, 4]

/-- The value of `sizeof(VRAMCopyUBOData)`. -/
def sizeof_VRAMCopyUBOData : Nat := structSize [4, 4, 4, 4, 4, 4, 4, 4, 4, 4]

/-- The enumerator `VERTEX_BUFFER_SIZE`. -/
def VERTEX_BUFFER_SIZE : Nat := 1 * 1024 * 1024

/-- The enumerator `MAX_BATCH_VERTEX_COUNTER_IDS`. -/
def MAX_BATCH_VERTEX_COUNTER_IDS : Nat := 65536 - 2

/-- The enumerator `MAX_VERTICES_FOR_RECTANGLE`, in `u32` arithmetic.  The four
enumerators it is computed from are declared in gpu.h, which is absent, and are
parameters here. -/
def MAX_VERTICES_FOR_RECTANGLE
    (MAX_PRIMITIVE_WIDTH MAX_PRIMITIVE_HEIGHT TEXTURE_PAGE_WIDTH TEXTURE_PAGE_HEIGHT : Nat) : Nat :=
  wrap32 (6 *
    wrap32 (wrap32 (MAX_PRIMITIVE_WIDTH + u32 ((TEXTURE_PAGE_WIDTH : Int) - 1)) /
      TEXTURE_PAGE_WIDTH + 1) *
    wrap32 (wrap32 (MAX_PRIMITIVE_HEIGHT + u32 ((TEXTURE_PAGE_HEIGHT : Int) - 1)) /
      TEXTURE_PAGE_HEIGHT + 1))

/-- The enumerator `MIN_BATCH_VERTEX_COUNT`. -/
def MIN_BATCH_VERTEX_COUNT : Nat := 6

/-- The enumerator `MAX_BATCH_VERTEX_COUNT`. -/
def MAX_BATCH_VERTEX_COUNT : Nat := VERTEX_BUFFER_SIZE / sizeof_BatchVertex

/-- Modelled from the spec: the kinds of primitive of one command, "3 vertices
per triangle, 2 per line, or up to a bounded maximum (derived from tiling a
rectangle across texture-page boundaries) for axis-aligned rectangle fills". -/
inductive PrimitiveKind
  | Triangle
  | Line
  | Rectangle
deriving DecidableEq, Repr

/-- Modelled from the spec: the capacity requested for one primitive; the
routine `EnsureVertexBufferSpaceForCurrentCommand` is only declared in the
header. -/
def RequiredVertices
    (MAX_PRIMITIVE_WIDTH MAX_PRIMITIVE_HEIGHT TEXTURE_PAGE_WIDTH TEXTURE_PAGE_HEIGHT : Nat) :
    PrimitiveKind → Nat
  | PrimitiveKind.Triangle => 3
  | PrimitiveKind.Line => 2
  | PrimitiveKind.Rectangle =>
    MAX_VERTICES_FOR_RECTANGLE MAX_PRIMITIVE_WIDTH MAX_PRIMITIVE_HEIGHT TEXTURE_PAGE_WIDTH
      TEXTURE_PAGE_HEIGHT

/-! ## Batch flushing -/

/-- The vertices of the current batch, `m_batch_start_vertex_ptr[0 .. count)`. -/
def BatchVertices (s : GPU_HW) : List BatchVertex :=
  (List.range (GetBatchVertexCount s)).map (BatchVertexAt s)

/-- Whether a backend call is a draw submission (`DrawBatchVertices`). -/
def BackendCall.isDraw : BackendCall → Bool
  | BackendCall.DrawBatchVertices _ _ _ => true
  | _ => false

/-- The draw submissions recorded so far, oldest first. -/
def DrawCalls (s : GPU_HW) : List BackendCall :=
  s.backend_calls.filter BackendCall.isDraw

/-- Modelled from the spec: `FlushRender` is declared in the header and defined
in gpu_hw.cpp, which is absent.  "If the buffer is non-empty, maps/unmaps
backend storage, uploads the active Batch Configuration's uniform block, issues
the draw, resets the buffer to empty; no-op if already flushed"; a two-pass
batch is drawn as "opaque-only and transparent-only submissions", and the
counters advance "on batch flush ... uniform upload". -/
def FlushRender (s : GPU_HW) : GPU_HW :=
  if IsFlushed s then s
  else
    let vertex_count := GetBatchVertexCount s
    let vertices := BatchVertices s
    let two_pass := s.m_batch.NeedsTwoPassRendering
    { s with
      backend_calls := s.backend_calls ++
        [BackendCall.MapBatchVertexPointer vertex_count,
         BackendCall.UnmapBatchVertexPointer vertex_count,
         BackendCall.UploadUniformBuffer sizeof_BatchUBOData] ++
        (if two_pass then
          [BackendCall.DrawBatchVertices BatchRenderMode.OnlyOpaque s.m_batch_base_vertex
             vertex_count,
           BackendCall.DrawBatchVertices BatchRenderMode.OnlyTransparent s.m_batch_base_vertex
             vertex_count]
         else
          [BackendCall.DrawBatchVertices s.m_batch.GetRenderMode s.m_batch_base_vertex
             vertex_count])
      vram_texture :=
        if two_pass then
          s.backend_draw BatchRenderMode.OnlyTransparent s.m_batch vertices
            (s.backend_draw BatchRenderMode.OnlyOpaque s.m_batch vertices s.vram_texture)
        else s.backend_draw s.m_batch.GetRenderMode s.m_batch vertices s.vram_texture
      m_renderer_stats :=
        { s.m_renderer_stats with
          num_batches := s.m_renderer_stats.num_batches + 1
          num_uniform_buffer_updates := s.m_renderer_stats.num_uniform_buffer_updates + 1 }
      m_batch_current_vertex_ptr := s.m_batch_start_vertex_ptr }

/-! ## VRAM transfers -/

/-- The index of the pixel `(x, y)` in a VRAM image, row after row. -/
def VRAMIndex (x y : Nat) : Nat := y * VRAM_WIDTH + x

/-- Modelled from the spec: the "shader-driven backend pass" of a transfer to
the region with origin `(x, y)` and the given size: every pixel of the image
whose offset from the origin, "taken modulo the fixed VRAM extent", is inside
the region takes `value column row`; the others keep their content. -/
def TransferPass (x y width height : Nat) (value : Nat → Nat → Nat) (image : Nat → Nat) :
    Nat → Nat :=
  fun p =>
    let column := (p % VRAM_WIDTH + VRAM_WIDTH - x % VRAM_WIDTH) % VRAM_WIDTH
    let row := (p / VRAM_WIDTH + VRAM_HEIGHT - y % VRAM_HEIGHT) % VRAM_HEIGHT
    if p < VRAM_WIDTH * VRAM_HEIGHT ∧ column < width ∧ row < height then value column row
    else image p

/-- Modelled from the spec: the mask bit of a 16-bit VRAM pixel, "a per-pixel
write-protect/priority flag"; the pixel format belongs to gpu.h, which is
absent, and keeps the flag in the top bit of the pixel. -/
def MASK_BIT : Nat := 0x8000

/-- The uniform block `struct VRAMWriteUBOData`. -/
structure VRAMWriteUBOData where
  u_dst_x : Nat
  u_dst_y : Nat
  u_end_x : Nat
  u_end_y : Nat
  u_width : Nat
  u_height : Nat
  u_buffer_base_offset : Nat
  u_mask_or_bits : Nat
  u_depth_value : ℚ

/-- The uniform block `struct VRAMCopyUBOData`. -/
structure VRAMCopyUBOData where
  u_src_x : Nat
  u_src_y : Nat
  u_dst_x : Nat
  u_dst_y : Nat
  u_end_x : Nat
  u_end_y : Nat
  u_width : Nat
  u_height : Nat
  u_set_mask_bit : Nat
  u_depth_value : ℚ

/-- Modelled from the spec: `GetVRAMWriteUBOData` is declared in the header and
defined in gpu_hw.cpp, which is absent.  The uniform block of a write holds
"region bounds, buffer offsets, mask-or bits, depth-ordinal for mask-bit
emulation": the bounds "taken modulo the fixed VRAM extent", the mask bit as
mask-or bits when the mask-write flag is set, and the current depth ordinal. -/
def GetVRAMWriteUBOData (s : GPU_HW) (x y width height buffer_offset : Nat) : VRAMWriteUBOData where
  u_dst_x := x % VRAM_WIDTH
  u_dst_y := y % VRAM_HEIGHT
  u_end_x := (x + width) % VRAM_WIDTH
  u_end_y := (y + height) % VRAM_HEIGHT
  u_width := width
  u_height := height
  u_buffer_base_offset := buffer_offset
  u_mask_or_bits := if s.m_GPUSTAT.set_mask_while_drawing then MASK_BIT else 0
  u_depth_value := GetCurrentNormalizedVertexDepth s

/-- Modelled from the spec: `GetVRAMCopyUBOData` is declared in the header and
defined in gpu_hw.cpp, which is absent; the uniform block of a copy, with the
mask-write flag and the current depth ordinal. -/
def GetVRAMCopyUBOData (s : GPU_HW) (src_x src_y dst_x dst_y width height : Nat) :
    VRAMCopyUBOData where
  u_src_x := src_x % VRAM_WIDTH
  u_src_y := src_y % VRAM_HEIGHT
  u_dst_x := dst_x % VRAM_WIDTH
  u_dst_y := dst_y % VRAM_HEIGHT
  u_end_x := (dst_x + width) % VRAM_WIDTH
  u_end_y := (dst_y + height) % VRAM_HEIGHT
  u_width := width
  u_height := height
  u_set_mask_bit := if s.m_GPUSTAT.set_mask_while_drawing then 1 else 0
  u_depth_value := GetCurrentNormalizedVertexDepth s

/-- Modelled from the spec: the backend pass of a write or a copy under mask-bit
emulation.  The mask bit is "a per-pixel write-protect/priority flag emulated
via a synthetic depth value": with the mask-test flag set, a pixel of the image
whose mask bit is set keeps its content (the depth test of the backend, absent,
is the means to that end); every other pixel of the region takes its value with
the mask-or bits set. -/
def MaskedTransferPass (check_mask : Bool) (mask_or_bits x y width height : Nat)
    (value : Nat → Nat → Nat) (image : Nat → Nat) : Nat → Nat :=
  fun p =>
    if check_mask = true ∧ image p &&& MASK_BIT ≠ 0 then image p
    else TransferPass x y width height (fun column row => value column row ||| mask_or_bits) image p

/-- Modelled from the spec: `UseVRAMCopyShader` is declared in the header
("returns true if the VRAM copy shader should be used (oversized copies,
masking)") and defined in gpu_hw.cpp, which is absent.  The copy "must fall
back to an alternate, texel-safe backend path when source and destination
overlap or either region is oversized/masked".  A region is oversized when, at
the coordinates given, it extends past the VRAM extent; that covers every region
that runs over an edge once its origin is taken modulo the extent, and two
regions that are not oversized overlap exactly when their rectangles do. -/
def UseVRAMCopyShader (s : GPU_HW) (src_x src_y dst_x dst_y width height : Nat) : Bool :=
  s.m_GPUSTAT.set_mask_while_drawing || s.m_GPUSTAT.check_mask_before_draw ||
    decide (VRAM_WIDTH < src_x + width) ||
    decide (VRAM_HEIGHT < src_y + height) ||
    decide (VRAM_WIDTH < dst_x + width) ||
    decide (VRAM_HEIGHT < dst_y + height) ||
    (Common.Rectangle.FromExtents src_x src_y width height).Intersects
      (Common.Rectangle.FromExtents dst_x dst_y width height)

/-- Modelled from the spec: `FillVRAM` (defined in gpu_hw.cpp and the backends,
absent): "issues a shader-driven backend pass using a dedicated uniform block
... and unconditionally unions the destination rectangle into the dirty
rectangle"; a later read "returns that color at every texel". -/
def FillVRAM (s : GPU_HW) (x y width height color : Nat) : GPU_HW :=
  IncludeVRAMDityRectangle
    { s with
      backend_calls := s.backend_calls ++ [BackendCall.UploadUniformBuffer sizeof_VRAMFillUBOData]
      m_renderer_stats :=
        { s.m_renderer_stats with
          num_uniform_buffer_updates := s.m_renderer_stats.num_uniform_buffer_updates + 1 }
      vram_texture := TransferPass x y width height (fun _ _ => color) s.vram_texture }
    (GetVRAMTransferBounds x y width height)

/-- Modelled from the spec: `UpdateVRAM` (defined in gpu_hw.cpp and the
backends, absent), the `write(rect, pixel_data)` of the spec: a backend pass
with the uniform block of the write that stores the records of `data`, row
after row, with the mask-or bits set and the write-protected pixels kept, and
the union of the destination into the dirty rectangle. -/
def UpdateVRAM (s : GPU_HW) (x y width height : Nat) (data : List Nat) : GPU_HW :=
  let uniforms := GetVRAMWriteUBOData s x y width height 0
  IncludeVRAMDityRectangle
    { s with
      backend_calls := s.backend_calls ++ [BackendCall.UploadUniformBuffer sizeof_VRAMWriteUBOData]
      m_renderer_stats :=
        { s.m_renderer_stats with
          num_uniform_buffer_updates := s.m_renderer_stats.num_uniform_buffer_updates + 1 }
      vram_texture :=
        MaskedTransferPass s.m_GPUSTAT.check_mask_before_draw uniforms.u_mask_or_bits
          x y width height (fun column row => data.getD (row * width + column) 0)
          s.vram_texture }
    (GetVRAMTransferBounds x y width height)

/-- Modelled from the spec: `CopyVRAM` (defined in gpu_hw.cpp and the backends,
absent).  Either path "produces the same result as reading the source first
into a temporary and writing it to the destination"; the texel-safe path is the
one with the uniform block, and the one every masked copy takes. -/
def CopyVRAM (s : GPU_HW) (src_x src_y dst_x dst_y width height : Nat) : GPU_HW :=
  let shader := UseVRAMCopyShader s src_x src_y dst_x dst_y width height
  let uniforms := GetVRAMCopyUBOData s src_x src_y dst_x dst_y width height
  IncludeVRAMDityRectangle
    { s with
      backend_calls := s.backend_calls ++
        (if shader then [BackendCall.UploadUniformBuffer sizeof_VRAMCopyUBOData] else [])
      m_renderer_stats :=
        { s.m_renderer_stats with
          num_uniform_buffer_updates :=
            s.m_renderer_stats.num_uniform_buffer_updates + (if shader then 1 else 0) }
      vram_texture :=
        MaskedTransferPass s.m_GPUSTAT.check_mask_before_draw
          (if uniforms.u_set_mask_bit = 0 then 0 else MASK_BIT) dst_x dst_y width height
          (fun column row =>
            s.vram_texture
              (VRAMIndex ((src_x + column) % VRAM_WIDTH) ((src_y + row) % VRAM_HEIGHT)))
          s.vram_texture }
    (GetVRAMTransferBounds dst_x dst_y width height)

/-- Modelled from the spec: the `read(rect)` of the spec (`ReadVRAM`, defined in
the backends, absent): "flushes the Batch Accumulator, and if `rect` intersects
the dirty rectangle, synchronizes the hardware-resident image into the shadow
buffer for at least the dirty region, then clears the dirty rectangle; returns
the requested sub-rectangle from the shadow buffer", row after row. -/
def ReadVRAM (s : GPU_HW) (x y width height : Nat) : GPU_HW × List Nat :=
  let s := FlushRender s
  let s :=
    if s.m_vram_dirty_rect.Intersects (GetVRAMTransferBounds x y width height) then
      ClearVRAMDirtyRectangle
        { s with
          m_vram_shadow := fun p =>
            if s.m_vram_dirty_rect.Contains (p % VRAM_WIDTH) (p / VRAM_WIDTH) then s.vram_texture p
            else s.m_vram_shadow p
          m_renderer_stats :=
            { s.m_renderer_stats with
              num_vram_read_texture_updates :=
                s.m_renderer_stats.num_vram_read_texture_updates + 1 } }
    else s
  (s, (List.range (width * height)).map fun i =>
    s.m_vram_shadow (VRAMIndex ((x + i % width) % VRAM_WIDTH) ((y + i / width) % VRAM_HEIGHT)))

/-- One hardware-side write to VRAM, with its arguments. -/
inductive VRAMWrite
  | Fill (x y width height color : Nat)
  | Update (x y width height : Nat) (data : List Nat)
  | Copy (src_x src_y dst_x dst_y width height : Nat)

/-- The state after a hardware-side write. -/
def VRAMWrite.apply (s : GPU_HW) : VRAMWrite → GPU_HW
  | VRAMWrite.Fill x y width height color => FillVRAM s x y width height color
  | VRAMWrite.Update x y width height data => UpdateVRAM s x y width height data
  | VRAMWrite.Copy src_x src_y dst_x dst_y width height =>
    CopyVRAM s src_x src_y dst_x dst_y width height

/-- The destination rectangle of a hardware-side write. -/
def VRAMWrite.destination : VRAMWrite → Common.Rectangle
  | VRAMWrite.Fill x y width height _ => GetVRAMTransferBounds x y width height
  | VRAMWrite.Update x y width height _ => GetVRAMTransferBounds x y width height
  | VRAMWrite.Copy _ _ dst_x dst_y width height => GetVRAMTransferBounds dst_x dst_y width height

end GPU_HW

/-! ## Rectangle tiling -/

namespace GPU_HW

/-- Modelled from the spec: the pieces of a run of `extent` texels that starts
on a texture-page boundary, cut at every page boundary: whole pages, then the
rest.  `fuel` bounds the number of pieces; `extent` itself is always enough. -/
def cutAligned (page : Nat) : Nat → Nat → List Nat
  | 0, _ => []
  | fuel + 1, extent =>
    if extent = 0 then []
    else min extent page :: cutAligned page fuel (extent - min extent page)

/-- Modelled from the spec: the pieces of one axis of a rectangle whose first
texel has texture coordinate `start` inside a page, "tiling a rectangle across
texture-page boundaries": the first piece ends at the next page boundary, the
others start on one.  The routine that tiles rectangles (`LoadVertices`) is only
declared in the header. -/
def cutAxis (page start extent : Nat) : List Nat :=
  if extent = 0 then []
  else
    min extent (page - start) ::
      cutAligned page (extent - min extent (page - start)) (extent - min extent (page - start))

/-- Modelled from the spec: the tiles of a rectangle of the given size whose
first texel has texture coordinates `(u0, v0)`: one tile, with its width and
height, for every piece of a row and piece of a column. -/
def RectangleTiles (TEXTURE_PAGE_WIDTH TEXTURE_PAGE_HEIGHT u0 v0 width height : Nat) :
    List (Nat × Nat) :=
  List.product (cutAxis TEXTURE_PAGE_HEIGHT v0 height) (cutAxis TEXTURE_PAGE_WIDTH u0 width)

/-- Modelled from the spec: the vertices of a tiled rectangle, two triangles a
tile. -/
def RectangleVertexCount (TEXTURE_PAGE_WIDTH TEXTURE_PAGE_HEIGHT u0 v0 width height : Nat) : Nat :=
  6 * (RectangleTiles TEXTURE_PAGE_WIDTH TEXTURE_PAGE_HEIGHT u0 v0 width height).length

end GPU_HW

/-! ## Concrete states used in the examples below -/

namespace GPU_HW

/-- A state with a mapped storage of ten vertices at element address 100, three
of them written. -/
def smallBatch : GPU_HW :=
  { initial with
    m_batch_start_vertex_ptr := 100
    m_batch_current_vertex_ptr := 103
    m_batch_end_vertex_ptr := 110 }

/-- The same storage of ten vertices with none written. -/
def emptyBatch : GPU_HW :=
  { initial with
    m_batch_start_vertex_ptr := 100
    m_batch_current_vertex_ptr := 100
    m_batch_end_vertex_ptr := 110 }

/-- A fresh renderer with the mask-write flag set. -/
def maskWriteState : GPU_HW :=
  { initial with m_GPUSTAT := ⟨false, true, false⟩ }

/-- A renderer with the mask-test flag set whose hardware image has the mask
bit, and nothing else, set in every pixel. -/
def maskTestState : GPU_HW :=
  { initial with m_GPUSTAT := ⟨false, false, true⟩, vram_texture := fun _ => MASK_BIT }

/-- A vertex at `(1, 2)` with depth ordinal 3. -/
def sampleVertex : BatchVertex := ⟨1, 2, 3, 1, 2, 1, 255, 0, 4, 5⟩

end GPU_HW

/-! ## Android host interface (android/app/src/cpp/android_host_interface.cpp) -/

namespace HostInterface

/-- Modelled from the spec: the setting `GPURenderer`, "chosen backend variant";
the enum is declared in core/types.h, which is absent.  The source names the
enumerators `HardwareVulkan` and `HardwareOpenGL`; `Other` stands for every
other value of the setting. -/
inductive GPURenderer
  | HardwareVulkan
  | HardwareOpenGL
  | Other (value : Nat)
deriving DecidableEq, Repr

/-- The two classes of display the Android interface creates,
`FrontendCommon::VulkanHostDisplay` and `FrontendCommon::OpenGLHostDisplay`. -/
inductive DisplayClass
  | VulkanHostDisplay
  | OpenGLHostDisplay
deriving DecidableEq, Repr

/-- The members of `WindowInfo` the Android interface fills in; its `type` is
always `WindowInfo::Type::Android`.  A window handle is an address. -/
structure WindowInfo where
  window_handle : Nat
  surface_width : Int
  surface_height : Int
deriving DecidableEq, Repr

/-- The calls the two routines below make outside the class, in order:
on the display, `ReportError` (with the message "Failed to acquire host
display."), and `ImGui::NewFrame`. -/
inductive HostCall
  | CreateRenderDevice (display : DisplayClass) (wi : WindowInfo) (debug_device : Bool)
  | InitializeRenderDevice (display : DisplayClass) (debug_device : Bool)
  | ReportError
  | ImGuiNewFrame
  | ResizeRenderWindow (width height : Int)
  | ChangeRenderWindow (wi : WindowInfo)
deriving DecidableEq, Repr

/-- Whether a call hands a new window size or surface to the display. -/
def HostCall.isResize : HostCall → Bool
  | HostCall.ResizeRenderWindow _ _ => true
  | HostCall.ChangeRenderWindow _ => true
  | _ => false

/-- What the world outside the class answers: the size of a native window and
whether the two device routines of a display succeed.  These are defined in
the Android NDK and in frontend-common, not in this repository's sources. -/
structure Environment where
  ANativeWindow_getWidth : Nat → Int
  ANativeWindow_getHeight : Nat → Int
  CreateRenderDevice : DisplayClass → WindowInfo → Bool → Bool
  InitializeRenderDevice : DisplayClass → Bool → Bool

end HostInterface

open HostInterface in
/-- The members of `AndroidHostInterface` that `AcquireHostDisplay` and
`SurfaceChanged` read or write: the surface, the display (null or an object of
one of the two classes), the two settings consulted, the renderer of the running
system (null when no system runs) and the trace of outside calls, oldest
first. -/
structure AndroidHostInterface where
  m_surface : Nat
  m_display : Option DisplayClass
  gpu_renderer : GPURenderer
  gpu_use_debug_device : Bool
  m_system_gpu : Option GPU_HW
  calls : List HostCall

namespace AndroidHostInterface

open HostInterface

/-- The class of display that the `switch` of `AcquireHostDisplay` creates. -/
def displayClassFor : GPURenderer → DisplayClass
  | GPURenderer.HardwareVulkan => DisplayClass.VulkanHostDisplay
  | _ => DisplayClass.OpenGLHostDisplay

/-- The `WindowInfo` that `AcquireHostDisplay` fills in for the current surface. -/
def acquireWindowInfo (env : Environment) (s : AndroidHostInterface) : WindowInfo :=
  ⟨s.m_surface, env.ANativeWindow_getWidth s.m_surface, env.ANativeWindow_getHeight s.m_surface⟩

/-- The method `AcquireHostDisplay`; the second component is the value returned.
`InitializeRenderDevice` is called only when `CreateRenderDevice` succeeded. -/
def AcquireHostDisplay (env : Environment) (s : AndroidHostInterface) :
    AndroidHostInterface × Bool :=
  let wi := acquireWindowInfo env s
  let display := displayClassFor s.gpu_renderer
  let create_call := HostCall.CreateRenderDevice display wi s.gpu_use_debug_device
  let init_call := HostCall.InitializeRenderDevice display s.gpu_use_debug_device
  if env.CreateRenderDevice display wi s.gpu_use_debug_device = false then
    ({ s with calls := s.calls ++ [create_call, HostCall.ReportError] }, false)
  else if env.InitializeRenderDevice display s.gpu_use_debug_device = false then
    ({ s with calls := s.calls ++ [create_call, init_call, HostCall.ReportError] }, false)
  else
    ({ s with
       m_display := some display
       calls := s.calls ++ [create_call, init_call, HostCall.ImGuiNewFrame] }, true)

/-- The method `SurfaceChanged`. -/
def SurfaceChanged (s : AndroidHostInterface) (surface : Nat) (_format : Int)
    (width height : Int) : AndroidHostInterface :=
  if s.m_surface = surface then
    if s.m_display.isSome then
      { s with calls := s.calls ++ [HostCall.ResizeRenderWindow width height] }
    else s
  else
    let s := { s with m_surface := surface }
    if s.m_display.isSome then
      { s with calls := s.calls ++ [HostCall.ChangeRenderWindow ⟨surface, width, height⟩] }
    else s

/-- An interface with a running system whose renderer holds a batch of three
unflushed vertices, an OpenGL display and the surface at address 4096. -/
def withPendingBatch : AndroidHostInterface where
  m_surface := 4096
  m_display := some DisplayClass.OpenGLHostDisplay
  gpu_renderer := GPURenderer.HardwareOpenGL
  gpu_use_debug_device := false
  m_system_gpu := some GPU_HW.smallBatch
  calls := []

/-- An interface before the display is acquired, set to the Vulkan renderer. -/
def beforeAcquire : AndroidHostInterface where
  m_surface := 4096
  m_display := none
  gpu_renderer := GPURenderer.HardwareVulkan
  gpu_use_debug_device := false
  m_system_gpu := none
  calls := []

/-- An environment whose windows are 640×480, in which every device creation
succeeds and the initialisation succeeds for OpenGL only. -/
def sampleEnvironment : Environment where
  ANativeWindow_getWidth := fun _ => 640
  ANativeWindow_getHeight := fun _ => 480
  CreateRenderDevice := fun _ _ _ => true
  InitializeRenderDevice := fun display _ => display == DisplayClass.OpenGLHostDisplay

end AndroidHostInterface

/-! ## Memory card (src/pse/memory_card.cpp) -/

namespace MemoryCard

/-- Modelled from the spec: the enumerator `SECTOR_SIZE` is declared in
memory_card.h, which is absent; a sector of the card holds 128 bytes. -/
def SECTOR_SIZE : Nat := 128

/-- Modelled from the spec: the enumerator `DATA_SIZE`, the length of `m_data`,
declared in memory_card.h, which is absent; the card holds 1024 sectors. -/
def DATA_SIZE : Nat := 1024 * 128

/-- The states of a transfer, `enum class State`; every one is named in
`Transfer`. -/
inductive State
  | Idle
  | ReadCardID1
  | ReadCardID2
  | ReadAddressMSB
  | ReadAddressLSB
  | ReadACK1
  | ReadACK2
  | ReadConfirmAddressMSB
  | ReadConfirmAddressLSB
  | ReadData
  | ReadChecksum
  | ReadEnd
  | WriteCardID1
  | WriteCardID2
  | WriteAddressMSB
  | WriteAddressLSB
  | WriteData
  | WriteChecksum
  | WriteACK1
  | WriteACK2
  | WriteEnd
deriving DecidableEq, Repr

/-- The ways a transfer can fail to return: the `Panic` of the command `0x53`,
and an index into `m_data` outside the array. -/
inductive Fault
  | Panic
  | OutOfRange
deriving DecidableEq, Repr

end MemoryCard

/-- The data members of `class MemoryCard`: `m_FLAG` holds the byte
`m_FLAG.bits`, `m_data` the byte at each index of the array. -/
structure MemoryCard where
  m_state : MemoryCard.State
  m_FLAG : Nat
  m_address : Nat
  m_sector_offset : Nat
  m_checksum : Nat
  m_last_byte : Nat
  m_data : Nat → Nat

namespace MemoryCard

/-- The method `ResetTransferState`. -/
def ResetTransferState (c : MemoryCard) : MemoryCard :=
  { c with m_state := State.Idle, m_address := 0, m_sector_offset := 0, m_checksum := 0,
           m_last_byte := 0 }

/-- The function `Truncate8`. -/
def Truncate8 (x : Nat) : Nat := x % 256

/-- The tail of `Transfer` for a state that has set the reply and the next
state: `m_last_byte = data_in; return ack;`. -/
def finish (c : MemoryCard) (data_in data_out : Nat) (ack : Bool) :
    Except Fault (MemoryCard × Nat × Bool) :=
  Except.ok ({ c with m_last_byte := data_in }, data_out, ack)

/-- The macro `FIXED_REPLY_STATE`. -/
def FIXED_REPLY_STATE (c : MemoryCard) (data_in reply : Nat) (ack_value : Bool)
    (next_state : State) : Except Fault (MemoryCard × Nat × Bool) :=
  finish { c with m_state := next_state } data_in reply ack_value

/-- The macro `ADDRESS_STATE_MSB`. -/
def ADDRESS_STATE_MSB (c : MemoryCard) (data_in : Nat) (next_state : State) :
    Except Fault (MemoryCard × Nat × Bool) :=
  finish
    { c with
      m_address := ((c.m_address &&& 0x00FF) ||| (data_in <<< 8)) &&& 0x3FF
      m_state := next_state }
    data_in 0x00 true

/-- The macro `ADDRESS_STATE_LSB`. -/
def ADDRESS_STATE_LSB (c : MemoryCard) (data_in : Nat) (next_state : State) :
    Except Fault (MemoryCard × Nat × Bool) :=
  finish
    { c with
      m_address := ((c.m_address &&& 0xFF00) ||| data_in) &&& 0x3FF
      m_sector_offset := 0
      m_state := next_state }
    data_in c.m_last_byte true

/-- The method `Transfer`: the new state, the byte stored through `data_out` and
the value returned.  `data_in` is a byte; `m_sector_offset` is a `u8`, whose
increment wraps at 256. -/
def Transfer (c : MemoryCard) (data_in : Nat) : Except Fault (MemoryCard × Nat × Bool) :=
  match c.m_state with
  | State.ReadCardID1 => FIXED_REPLY_STATE c data_in 0x5A true State.ReadCardID2
  | State.ReadCardID2 => FIXED_REPLY_STATE c data_in 0x5D true State.ReadAddressMSB
  | State.ReadAddressMSB => ADDRESS_STATE_MSB c data_in State.ReadAddressLSB
  | State.ReadAddressLSB => ADDRESS_STATE_LSB c data_in State.ReadACK1
  | State.ReadACK1 => FIXED_REPLY_STATE c data_in 0x5C true State.ReadACK2
  | State.ReadACK2 => FIXED_REPLY_STATE c data_in 0x5D true State.ReadConfirmAddressMSB
  | State.ReadConfirmAddressMSB =>
    FIXED_REPLY_STATE c data_in (Truncate8 (c.m_address >>> 8)) true State.ReadConfirmAddressLSB
  | State.ReadConfirmAddressLSB =>
    FIXED_REPLY_STATE c data_in (Truncate8 c.m_address) true State.ReadData
  | State.ReadData =>
    let index := c.m_address * SECTOR_SIZE + c.m_sector_offset
    if DATA_SIZE ≤ index then Except.error Fault.OutOfRange
    else
      let bits := c.m_data index
      let checksum :=
        if c.m_sector_offset = 0 then
          Truncate8 (c.m_address >>> 8) ^^^ Truncate8 c.m_address ^^^ bits
        else c.m_checksum ^^^ bits
      let offset := (c.m_sector_offset + 1) % 256
      if offset = SECTOR_SIZE then
        finish { c with m_checksum := checksum, m_state := State.ReadChecksum, m_sector_offset := 0 }
          data_in bits true
      else finish { c with m_checksum := checksum, m_sector_offset := offset } data_in bits true
  | State.ReadChecksum => FIXED_REPLY_STATE c data_in c.m_checksum true State.ReadEnd
  | State.ReadEnd => FIXED_REPLY_STATE c data_in 0x47 false State.Idle
  | State.WriteCardID1 => FIXED_REPLY_STATE c data_in 0x5A true State.WriteCardID2
  | State.WriteCardID2 => FIXED_REPLY_STATE c data_in 0x5D true State.WriteAddressMSB
  | State.WriteAddressMSB => ADDRESS_STATE_MSB c data_in State.WriteAddressLSB
  | State.WriteAddressLSB => ADDRESS_STATE_LSB c data_in State.WriteData
  | State.WriteData =>
    let index := c.m_address * SECTOR_SIZE + c.m_sector_offset
    if DATA_SIZE ≤ index then Except.error Fault.OutOfRange
    else
      let checksum :=
        if c.m_sector_offset = 0 then
          Truncate8 (c.m_address >>> 8) ^^^ Truncate8 c.m_address ^^^ data_in
        else c.m_checksum ^^^ data_in
      let data := Function.update c.m_data index data_in
      let offset := (c.m_sector_offset + 1) % 256
      if offset = SECTOR_SIZE then
        finish
          { c with
            m_checksum := checksum, m_data := data, m_state := State.WriteChecksum,
            m_sector_offset := 0 }
          data_in c.m_last_byte true
      else
        finish { c with m_checksum := checksum, m_data := data, m_sector_offset := offset }
          data_in c.m_last_byte true
  | State.WriteChecksum => FIXED_REPLY_STATE c data_in c.m_checksum true State.WriteACK1
  | State.WriteACK1 => FIXED_REPLY_STATE c data_in 0x5C true State.WriteACK2
  | State.WriteACK2 => FIXED_REPLY_STATE c data_in 0x5D true State.WriteEnd
  | State.WriteEnd => FIXED_REPLY_STATE c data_in 0x47 false State.Idle
  | State.Idle =>
    if data_in = 0x81 then finish c data_in 0xFF true
    else if data_in = 0x52 then finish { c with m_state := State.ReadCardID1 } data_in c.m_FLAG true
    else if data_in = 0x57 then finish { c with m_state := State.WriteCardID1 } data_in c.m_FLAG true
    else if data_in = 0x53 then Except.error Fault.Panic
    else finish c data_in c.m_FLAG false

/-- A run of transfers, one for each byte of the list: the final state of the
card and, for each transfer in order, the reply byte, the acknowledge and the
state the transfer left the card in. -/
def TransferAll : MemoryCard → List Nat → Except Fault (MemoryCard × List (Nat × Bool × State))
  | c, [] => Except.ok (c, [])
  | c, data_in :: rest =>
    match Transfer c data_in with
    | Except.error fault => Except.error fault
    | Except.ok (c₁, data_out, ack) =>
      match TransferAll c₁ rest with
      | Except.error fault => Except.error fault
      | Except.ok (c₂, replies) => Except.ok (c₂, (data_out, ack, c₁.m_state) :: replies)

/-- The bytes of sector `address` of a card, in order. -/
def sectorData (c : MemoryCard) (address : Nat) : List Nat :=
  (List.range SECTOR_SIZE).map fun i => c.m_data (address * SECTOR_SIZE + i)

/-- The bytewise exclusive or of the two address bytes and of the given data
bytes. -/
def sectorChecksum (address : Nat) (bytes : List Nat) : Nat :=
  bytes.foldl (· ^^^ ·) (Truncate8 (address >>> 8) ^^^ Truncate8 address)

/-- The card after `n` bytes, at least one, of the sector under `m_address`
were read from the state `ReadData` at offset 0, `last` being the byte sent in
the last of these transfers. -/
def readProgress (c : MemoryCard) (n last : Nat) : MemoryCard :=
  { c with
    m_checksum :=
      sectorChecksum c.m_address
        ((List.range n).map fun i => c.m_data (c.m_address * SECTOR_SIZE + i))
    m_last_byte := last
    m_state := if n = SECTOR_SIZE then State.ReadChecksum else State.ReadData
    m_sector_offset := if n = SECTOR_SIZE then 0 else n }

/-- The replies of the card to the first `n` transfers of the data of the sector
under `m_address`. -/
def readReplies (c : MemoryCard) (n : Nat) : List (Nat × Bool × State) :=
  (List.range n).map fun i =>
    (c.m_data (c.m_address * SECTOR_SIZE + i), true,
      if i + 1 = SECTOR_SIZE then State.ReadChecksum else State.ReadData)

/-- The card after the bytes `data`, at least one, were written to the sector
under `m_address` from the state `WriteData` at offset 0. -/
def writeProgress (c : MemoryCard) (data : List Nat) : MemoryCard :=
  { c with
    m_checksum := sectorChecksum c.m_address data
    m_data := fun i =>
      if c.m_address * SECTOR_SIZE ≤ i ∧ i < c.m_address * SECTOR_SIZE + data.length then
        data.getD (i - c.m_address * SECTOR_SIZE) 0
      else c.m_data i
    m_last_byte := data.getLastD 0
    m_state := if data.length = SECTOR_SIZE then State.WriteChecksum else State.WriteData
    m_sector_offset := if data.length = SECTOR_SIZE then 0 else data.length }

/-- The sector address selected by the address bytes `hi` and `lo`. -/
def sectorAddress (hi lo : Nat) : Nat := ((hi <<< 8) ||| lo) &&& 0x3FF

/-- The replies of a whole read transaction of the sector addressed by `hi` and
`lo`, with the state after each: the flag byte, the identifier `0x5A 0x5D`,
`0x00`, the high address byte echoed, the acknowledge `0x5C 0x5D`, the two bytes
of the sector address, the 128 bytes of the sector, their checksum and the end
byte `0x47`, the only one that is not acknowledged. -/
def readTransactionReplies (c : MemoryCard) (hi lo : Nat) : List (Nat × Bool × State) :=
  [(c.m_FLAG, true, State.ReadCardID1), (0x5A, true, State.ReadCardID2),
   (0x5D, true, State.ReadAddressMSB), (0x00, true, State.ReadAddressLSB),
   (hi, true, State.ReadACK1), (0x5C, true, State.ReadACK2),
   (0x5D, true, State.ReadConfirmAddressMSB),
   (sectorAddress hi lo >>> 8, true, State.ReadConfirmAddressLSB),
   (sectorAddress hi lo &&& 0xFF, true, State.ReadData)] ++
  ((List.range SECTOR_SIZE).map fun i =>
    (c.m_data (sectorAddress hi lo * SECTOR_SIZE + i), true,
      if i + 1 = SECTOR_SIZE then State.ReadChecksum else State.ReadData)) ++
  [(sectorChecksum (sectorAddress hi lo) (sectorData c (sectorAddress hi lo)), true,
     State.ReadEnd),
   (0x47, false, State.Idle)]

/-- The bytes sent in a read transaction of the sector addressed by `hi` and
`lo`: the command `0x52`, two bytes during which the card sends its
identifier, the address, and `rest` for the remaining transfers. -/
def readCommand (id₁ id₂ hi lo : Nat) (rest : List Nat) : List Nat :=
  [0x52, id₁, id₂, hi, lo] ++ rest

/-- The bytes sent in a write transaction: the command `0x57`, two identifier
bytes, the address, the data and `rest` for the remaining transfers. -/
def writeCommand (id₁ id₂ hi lo : Nat) (data rest : List Nat) : List Nat :=
  [0x57, id₁, id₂, hi, lo] ++ data ++ rest

/-- A card in the state of `ResetTransferState` whose byte at index `i` is
`i % 251`, with the flag byte `0x08`. -/
def sampleCard : MemoryCard where
  m_state := State.Idle
  m_FLAG := 0x08
  m_address := 0
  m_sector_offset := 0
  m_checksum := 0
  m_last_byte := 0
  m_data := fun i => i % 251

/-- The bounds of the address and of the offset within a sector under which
every index `m_address * SECTOR_SIZE + m_sector_offset` lies inside `m_data`. -/
def InBounds (c : MemoryCard) : Prop :=
  c.m_address ≤ 0x3FF ∧ c.m_sector_offset < SECTOR_SIZE

instance (c : MemoryCard) : Decidable (InBounds c) := by
  unfold InBounds
  infer_instance

/-- The member `no_write_yet` of the flag byte, a field of one bit.  The union
`FLAG` is declared in memory_card.h, which is absent; the position of the bit
is a parameter. -/
def no_write_yet (bit bits : Nat) : Bool := bits.testBit bit

/-- The constructor, as `Create` runs it: `m_FLAG.no_write_yet = true` on the
card `members` that the member initialisers of the absent memory_card.h leave. -/
def Create (bit : Nat) (members : MemoryCard) : MemoryCard :=
  { members with m_FLAG := members.m_FLAG ||| (1 <<< bit) }

end MemoryCard

/-! ## Lemmas -/

theorem u32_sub_of_le {a b : Nat} (h : b ≤ a) (hlt : a - b < 4294967296) :
    u32 ((a : Int) - (b : Int)) = a - b := by
  unfold u32
  omega

theorem u32_sub_eq_zero_iff {a b : Nat} (h : b ≤ a) (hlt : a - b < 4294967296) :
    u32 ((a : Int) - (b : Int)) = 0 ↔ a = b := by
  rw [u32_sub_of_le h hlt]
  omega

/-! ## Batch configuration -/

namespace GPU_HW

open GPU

/-- C1: `NeedsTwoPassRendering()` is true exactly when the transparency mode is
`BackgroundMinusForeground` and the texture mode is not `Disabled`, and its
value does not change when the primitive, dithering, interlacing and mask flags
are replaced by any others. -/
theorem NeedsTwoPassRendering_iff (c : BatchConfig) :
    (c.NeedsTwoPassRendering = true ↔
      c.transparency_mode = TransparencyMode.BackgroundMinusForeground ∧
        c.texture_mode ≠ TextureMode.Disabled) ∧
    (c.NeedsTwoPassRendering = false ↔
      ¬ (c.transparency_mode = TransparencyMode.BackgroundMinusForeground ∧
        c.texture_mode ≠ TextureMode.Disabled)) ∧
    ∀ (primitive : BatchPrimitive) (dithering interlacing mask_set mask_check : Bool),
      BatchConfig.NeedsTwoPassRendering
        ⟨primitive, c.texture_mode, c.transparency_mode, dithering, interlacing, mask_set,
          mask_check⟩ = c.NeedsTwoPassRendering := by
  refine ⟨?_, ?_, ?_⟩
  · simp [BatchConfig.NeedsTwoPassRendering]
  · simp [BatchConfig.NeedsTwoPassRendering]
  · intro _ _ _ _ _
    rfl

/-! ## Vertex buffer -/

theorem u32_count_of_capacity {start current limit : Nat} (hstart : start ≤ current)
    (hend : current ≤ limit) (hcap : limit - start ≤ MAX_BATCH_VERTEX_COUNT) :
    current - start < 4294967296 ∧ limit - current < 4294967296 := by
  have hmax : MAX_BATCH_VERTEX_COUNT = 29127 := by decide
  omega

/-- C2: for every vertex-buffer state, `start <= current <= end` in a storage
of at most `MAX_BATCH_VERTEX_COUNT` vertices (what `VERTEX_BUFFER_SIZE` holds),
`IsFlushed()` is true if and only if the buffer holds no vertices, that is
`current == start`, if and only if `GetBatchVertexCount() == 0`. -/
theorem IsFlushed_iff_count_zero (s : GPU_HW)
    (hstart : s.m_batch_start_vertex_ptr ≤ s.m_batch_current_vertex_ptr)
    (hend : s.m_batch_current_vertex_ptr ≤ s.m_batch_end_vertex_ptr)
    (hcap : s.m_batch_end_vertex_ptr - s.m_batch_start_vertex_ptr ≤ MAX_BATCH_VERTEX_COUNT) :
    (IsFlushed s = true ↔ s.m_batch_current_vertex_ptr = s.m_batch_start_vertex_ptr) ∧
    (IsFlushed s = true ↔ GetBatchVertexCount s = 0) ∧
    (IsFlushed s = true ↔ BatchVertices s = []) ∧
    GetBatchVertexCount s =
      s.m_batch_current_vertex_ptr - s.m_batch_start_vertex_ptr := by
  have hcount := (u32_count_of_capacity hstart hend hcap).1
  have hc : GetBatchVertexCount s =
      s.m_batch_current_vertex_ptr - s.m_batch_start_vertex_ptr :=
    u32_sub_of_le hstart hcount
  have hzero : IsFlushed s = true ↔ GetBatchVertexCount s = 0 := by
    unfold IsFlushed GetBatchVertexCount
    rw [u32_sub_eq_zero_iff hstart hcount]
    simp
  refine ⟨by simp [IsFlushed], hzero, ?_, hc⟩
  rw [hzero]
  simp [BatchVertices]

/-- C2 at a batch of three vertices in a storage of ten, which is not flushed,
and at the same storage with no vertex written, which is. -/
theorem IsFlushed_iff_count_zero_witness :
    (IsFlushed smallBatch = true ↔ GetBatchVertexCount smallBatch = 0) ∧
    IsFlushed smallBatch = false ∧ GetBatchVertexCount smallBatch = 3 ∧
    (IsFlushed emptyBatch = true ↔ GetBatchVertexCount emptyBatch = 0) ∧
    IsFlushed emptyBatch = true ∧ GetBatchVertexCount emptyBatch = 0 :=
  have h₁ := IsFlushed_iff_count_zero smallBatch (by decide) (by decide) (by decide)
  have h₂ := IsFlushed_iff_count_zero emptyBatch (by decide) (by decide) (by decide)
  ⟨h₁.2.1, by decide, h₁.2.2.2, h₂.2.1, by decide, h₂.2.2.2⟩

/-- C3: for every buffer state, `start <= current <= end` in a storage of at
most `MAX_BATCH_VERTEX_COUNT` vertices, with `GetBatchVertexSpace() >= 1`, and
every vertex `v`, `AddVertex(v)` stores `v` at index `GetBatchVertexCount()` of
the batch, increases `GetBatchVertexCount()` by exactly 1, decreases
`GetBatchVertexSpace()` by exactly 1, leaves every previously buffered vertex
and the start and end pointers unchanged, records no backend call (no flush, no
draw), changes neither the statistics nor the hardware image, keeps the write
cursor within the storage, and leaves `IsFlushed()` false. -/
theorem AddVertex_spec (s : GPU_HW) (v : BatchVertex)
    (hstart : s.m_batch_start_vertex_ptr ≤ s.m_batch_current_vertex_ptr)
    (hend : s.m_batch_current_vertex_ptr ≤ s.m_batch_end_vertex_ptr)
    (hcap : s.m_batch_end_vertex_ptr - s.m_batch_start_vertex_ptr ≤ MAX_BATCH_VERTEX_COUNT)
    (hspace : 1 ≤ GetBatchVertexSpace s) :
    BatchVertexAt (AddVertex s v) (GetBatchVertexCount s) = v ∧
    GetBatchVertexCount (AddVertex s v) = GetBatchVertexCount s + 1 ∧
    GetBatchVertexSpace (AddVertex s v) + 1 = GetBatchVertexSpace s ∧
    (∀ i, i < GetBatchVertexCount s → BatchVertexAt (AddVertex s v) i = BatchVertexAt s i) ∧
    (AddVertex s v).m_batch_start_vertex_ptr = s.m_batch_start_vertex_ptr ∧
    (AddVertex s v).m_batch_end_vertex_ptr = s.m_batch_end_vertex_ptr ∧
    (AddVertex s v).backend_calls = s.backend_calls ∧
    (AddVertex s v).m_renderer_stats = s.m_renderer_stats ∧
    (AddVertex s v).vram_texture = s.vram_texture ∧
    (AddVertex s v).m_batch_current_vertex_ptr ≤ (AddVertex s v).m_batch_end_vertex_ptr ∧
    IsFlushed (AddVertex s v) = false := by
  obtain ⟨hcount, hroom⟩ := u32_count_of_capacity hstart hend hcap
  have hc : GetBatchVertexCount s =
      s.m_batch_current_vertex_ptr - s.m_batch_start_vertex_ptr :=
    u32_sub_of_le hstart hcount
  have hsp : GetBatchVertexSpace s =
      s.m_batch_end_vertex_ptr - s.m_batch_current_vertex_ptr :=
    u32_sub_of_le hend hroom
  have hlt : s.m_batch_current_vertex_ptr < s.m_batch_end_vertex_ptr := by
    rw [hsp] at hspace
    omega
  have hmax : MAX_BATCH_VERTEX_COUNT = 29127 := by decide
  refine ⟨?_, ?_, ?_, ?_, rfl, rfl, rfl, rfl, rfl, ?_, ?_⟩
  · rw [hc]
    simp only [BatchVertexAt, AddVertex]
    rw [show s.m_batch_start_vertex_ptr +
        (s.m_batch_current_vertex_ptr - s.m_batch_start_vertex_ptr) =
        s.m_batch_current_vertex_ptr by omega]
    simp
  · rw [hc]
    simp only [GetBatchVertexCount, AddVertex, u32]
    omega
  · rw [hsp]
    simp only [GetBatchVertexSpace, AddVertex, u32]
    omega
  · intro i hi
    rw [hc] at hi
    simp only [BatchVertexAt, AddVertex]
    rw [Function.update_noteq (by omega)]
  · show s.m_batch_current_vertex_ptr + 1 ≤ s.m_batch_end_vertex_ptr
    omega
  · simp only [IsFlushed, AddVertex]
    rw [beq_eq_false_iff_ne]
    omega

/-- C3 at a batch of three vertices in a storage of ten. -/
theorem AddVertex_spec_witness :
    1 ≤ GetBatchVertexSpace smallBatch ∧
    BatchVertexAt (AddVertex smallBatch sampleVertex) (GetBatchVertexCount smallBatch) =
      sampleVertex ∧
    GetBatchVertexCount (AddVertex smallBatch sampleVertex) = GetBatchVertexCount smallBatch + 1 ∧
    IsFlushed (AddVertex smallBatch sampleVertex) = false :=
  have hspace : 1 ≤ GetBatchVertexSpace smallBatch := by
    simp [GetBatchVertexSpace, smallBatch, initial, u32]
  have h := AddVertex_spec smallBatch sampleVertex (by decide) (by decide) (by decide) hspace
  ⟨hspace, h.1, h.2.1, h.2.2.2.2.2.2.2.2.2.2⟩

end GPU_HW

namespace Common.Rectangle

theorem Contains_iff (r : Rectangle) (x y : Nat) :
    r.Contains x y = true ↔ r.left ≤ x ∧ x < r.right ∧ r.top ≤ y ∧ y < r.bottom := by
  simp [Contains, and_assoc]

theorem Contains_Include_left (r rhs : Rectangle) (x y : Nat) (h : r.Contains x y = true) :
    (r.Include rhs).Contains x y = true := by
  rw [Contains_iff] at *
  simp only [Include]
  omega

theorem Contains_Include_right (r rhs : Rectangle) (x y : Nat) (h : rhs.Contains x y = true) :
    (r.Include rhs).Contains x y = true := by
  rw [Contains_iff] at *
  simp only [Include]
  omega

end Common.Rectangle

namespace GPU_HW
open GPU

/-! ## VRAM round trip -/

theorem GetVRAMTransferBounds_of_fits {x y width height : Nat} (hw : 0 < width) (hh : 0 < height)
    (hx : x + width ≤ VRAM_WIDTH) (hy : y + height ≤ VRAM_HEIGHT) :
    GetVRAMTransferBounds x y width height = ⟨x, y, x + width, y + height⟩ := by
  simp only [VRAM_WIDTH, VRAM_HEIGHT] at hx hy
  have h1 : x % 1024 = x := Nat.mod_eq_of_lt (by omega)
  have h2 : y % 512 = y := Nat.mod_eq_of_lt (by omega)
  simp only [GetVRAMTransferBounds, Common.Rectangle.FromExtents, VRAM_WIDTH, VRAM_HEIGHT, h1, h2]
  rw [if_neg (by omega : ¬ 1024 < x + width)]
  dsimp only
  rw [if_neg (by omega : ¬ 512 < y + height)]

theorem TransferPass_inside {x y width height : Nat} (value : Nat → Nat → Nat) (image : Nat → Nat)
    {column row : Nat} (hc : column < width) (hr : row < height)
    (hx : x + width ≤ VRAM_WIDTH) (hy : y + height ≤ VRAM_HEIGHT) :
    TransferPass x y width height value image (VRAMIndex (x + column) (y + row)) =
      value column row := by
  simp only [VRAM_WIDTH, VRAM_HEIGHT] at hx hy
  simp only [TransferPass, VRAMIndex, VRAM_WIDTH, VRAM_HEIGHT]
  have e1 : (((y + row) * 1024 + (x + column)) % 1024 + 1024 - x % 1024) % 1024 = column := by
    omega
  have e2 : (((y + row) * 1024 + (x + column)) / 1024 + 512 - y % 512) % 512 = row := by
    omega
  rw [e1, e2, if_pos]
  refine ⟨by omega, hc, hr⟩

theorem FlushRender_of_IsFlushed {s : GPU_HW} (h : IsFlushed s = true) : FlushRender s = s := by
  unfold FlushRender
  rw [if_pos h]

theorem MaskedTransferPass_inside (check_mask : Bool) (mask_or_bits : Nat)
    {x y width height : Nat} (value : Nat → Nat → Nat) (image : Nat → Nat)
    {column row : Nat} (hc : column < width) (hr : row < height)
    (hx : x + width ≤ VRAM_WIDTH) (hy : y + height ≤ VRAM_HEIGHT) :
    MaskedTransferPass check_mask mask_or_bits x y width height value image
        (VRAMIndex (x + column) (y + row)) =
      if check_mask = true ∧ image (VRAMIndex (x + column) (y + row)) &&& MASK_BIT ≠ 0 then
        image (VRAMIndex (x + column) (y + row))
      else value column row ||| mask_or_bits := by
  unfold MaskedTransferPass
  rw [TransferPass_inside _ _ hc hr hx hy]

theorem ReadVRAM_UpdateVRAM_pixel (s : GPU_HW) (x y width height : Nat) (data : List Nat)
    (hflushed : IsFlushed s = true)
    (hx : x + width ≤ VRAM_WIDTH) (hy : y + height ≤ VRAM_HEIGHT)
    {column row : Nat} (hc : column < width) (hr : row < height) :
    (ReadVRAM (UpdateVRAM s x y width height data) x y width height).1.m_vram_shadow
        (VRAMIndex (x + column) (y + row)) =
      if s.m_GPUSTAT.check_mask_before_draw = true ∧
          s.vram_texture (VRAMIndex (x + column) (y + row)) &&& MASK_BIT ≠ 0 then
        s.vram_texture (VRAMIndex (x + column) (y + row))
      else
        data.getD (row * width + column) 0 |||
          (if s.m_GPUSTAT.set_mask_while_drawing then MASK_BIT else 0) := by
  have hfl : FlushRender (UpdateVRAM s x y width height data) =
      UpdateVRAM s x y width height data :=
    FlushRender_of_IsFlushed (by simpa [UpdateVRAM, IncludeVRAMDityRectangle, IsFlushed] using hflushed)
  have hw : 0 < width := by omega
  have hh : 0 < height := by omega
  have hxw : x + width ≤ 1024 := hx
  have hyh : y + height ≤ 512 := hy
  have hmod : VRAMIndex (x + column) (y + row) % VRAM_WIDTH = x + column := by
    simp only [VRAMIndex, VRAM_WIDTH]; omega
  have hdiv : VRAMIndex (x + column) (y + row) / VRAM_WIDTH = y + row := by
    simp only [VRAMIndex, VRAM_WIDTH]; omega
  have hB := GetVRAMTransferBounds_of_fits hw hh hx hy
  have hin : (Common.Rectangle.mk x y (x + width) (y + height)).Contains (x + column)
      (y + row) = true := by
    rw [Common.Rectangle.Contains_iff]
    show x ≤ x + column ∧ x + column < x + width ∧ y ≤ y + row ∧ y + row < y + height
    omega
  have hint : ((s.m_vram_dirty_rect.Include ⟨x, y, x + width, y + height⟩).Intersects
      ⟨x, y, x + width, y + height⟩) = true := by
    simp only [Common.Rectangle.Intersects, Common.Rectangle.Include]
    simp
    omega
  simp only [ReadVRAM, hfl]
  simp only [UpdateVRAM, IncludeVRAMDityRectangle, hB, hint, if_true, ClearVRAMDirtyRectangle,
    hmod, hdiv, Common.Rectangle.Contains_Include_right _ _ _ _ hin, GetVRAMWriteUBOData]
  rw [MaskedTransferPass_inside _ _ _ _ hc hr hx hy]

/-- What a read returns after a write of the same rectangle, with no batched
vertex pending: the records written with the mask-or bits set, but the old
content where the pixel was write-protected. -/
theorem ReadVRAM_UpdateVRAM_eq (s : GPU_HW) (x y width height : Nat) (data : List Nat)
    (hflushed : IsFlushed s = true)
    (hx : x + width ≤ VRAM_WIDTH) (hy : y + height ≤ VRAM_HEIGHT) :
    (ReadVRAM (UpdateVRAM s x y width height data) x y width height).2 =
      (List.range (width * height)).map fun i =>
        if s.m_GPUSTAT.check_mask_before_draw = true ∧
            s.vram_texture (VRAMIndex (x + i % width) (y + i / width)) &&& MASK_BIT ≠ 0 then
          s.vram_texture (VRAMIndex (x + i % width) (y + i / width))
        else data.getD i 0 ||| (if s.m_GPUSTAT.set_mask_while_drawing then MASK_BIT else 0) := by
  apply List.ext_getElem
  · simp [ReadVRAM]
  · intro i h1 h2
    have hi : i < width * height := by simpa using h2
    have hw : 0 < width := Nat.pos_of_ne_zero (by rintro rfl; simp at hi)
    have hc : i % width < width := Nat.mod_lt _ hw
    have hr : i / width < height := Nat.div_lt_of_lt_mul hi
    have hxw : x + width ≤ 1024 := hx
    have hyh : y + height ≤ 512 := hy
    have hpx : (x + i % width) % VRAM_WIDTH = x + i % width :=
      Nat.mod_eq_of_lt (by simp only [VRAM_WIDTH]; omega)
    have hpy : (y + i / width) % VRAM_HEIGHT = y + i / width :=
      Nat.mod_eq_of_lt (by simp only [VRAM_HEIGHT]; omega)
    have hpix := ReadVRAM_UpdateVRAM_pixel s x y width height data hflushed hx hy hc hr
    rw [Nat.div_add_mod'] at hpix
    simp only [List.getElem_map, List.getElem_range]
    rw [← hpix]
    simp only [ReadVRAM, List.getElem_map, List.getElem_range, hpx, hpy]

theorem ReadVRAM_backend_calls (s : GPU_HW) (x y width height : Nat) :
    (ReadVRAM s x y width height).1.backend_calls = (FlushRender s).backend_calls := by
  unfold ReadVRAM
  dsimp only
  split_ifs <;> rfl

theorem DrawCalls_FlushRender (s : GPU_HW) :
    DrawCalls (FlushRender s) =
      DrawCalls s ++
        (if IsFlushed s then []
         else if s.m_batch.NeedsTwoPassRendering then
          [BackendCall.DrawBatchVertices BatchRenderMode.OnlyOpaque s.m_batch_base_vertex
             (GetBatchVertexCount s),
           BackendCall.DrawBatchVertices BatchRenderMode.OnlyTransparent s.m_batch_base_vertex
             (GetBatchVertexCount s)]
         else
          [BackendCall.DrawBatchVertices s.m_batch.GetRenderMode s.m_batch_base_vertex
             (GetBatchVertexCount s)]) := by
  unfold FlushRender DrawCalls
  by_cases h : IsFlushed s = true
  · simp [h]
  · by_cases h2 : s.m_batch.NeedsTwoPassRendering = true <;>
      simp [h, h2, List.filter_append, List.filter_cons, BackendCall.isDraw]

/-- No draw is submitted between a write and the end of the read that follows
it exactly when no batched vertex is pending at the write. -/
theorem no_intervening_draw_iff (s : GPU_HW) (x y width height : Nat) (data : List Nat) :
    DrawCalls (ReadVRAM (UpdateVRAM s x y width height data) x y width height).1 = DrawCalls s ↔
      IsFlushed s = true := by
  have hcalls : DrawCalls (ReadVRAM (UpdateVRAM s x y width height data) x y width height).1 =
      DrawCalls (FlushRender (UpdateVRAM s x y width height data)) := by
    unfold DrawCalls
    rw [ReadVRAM_backend_calls]
  have hupd : DrawCalls (UpdateVRAM s x y width height data) = DrawCalls s := by
    simp [DrawCalls, UpdateVRAM, IncludeVRAMDityRectangle, List.filter_append, BackendCall.isDraw]
  have hfl : IsFlushed (UpdateVRAM s x y width height data) = IsFlushed s := rfl
  rw [hcalls, DrawCalls_FlushRender, hupd, hfl]
  by_cases h : IsFlushed s = true
  · simp [h]
  · by_cases h2 : (UpdateVRAM s x y width height data).m_batch.NeedsTwoPassRendering = true <;>
      simp [h, h2]

/-- C4, the claim as stated fails: for the rectangle `(3, 4, 2, 3)`, which does
not wrap, and six records, with no draw between the write and the end of the
read, the read after `UpdateVRAM` returns the records with the mask bit set when
the mask-write flag is set, and the old content of the write-protected pixels
when the mask-test flag is set; neither is the data written. -/
theorem UpdateVRAM_ReadVRAM_masked :
    3 + 2 ≤ VRAM_WIDTH ∧ 4 + 3 ≤ VRAM_HEIGHT ∧ [1, 2, 3, 4, 5, 6].length = 2 * 3 ∧
    DrawCalls (ReadVRAM (UpdateVRAM maskWriteState 3 4 2 3 [1, 2, 3, 4, 5, 6]) 3 4 2 3).1 =
      DrawCalls maskWriteState ∧
    (ReadVRAM (UpdateVRAM maskWriteState 3 4 2 3 [1, 2, 3, 4, 5, 6]) 3 4 2 3).2 =
      [0x8001, 0x8002, 0x8003, 0x8004, 0x8005, 0x8006] ∧
    (ReadVRAM (UpdateVRAM maskWriteState 3 4 2 3 [1, 2, 3, 4, 5, 6]) 3 4 2 3).2 ≠
      [1, 2, 3, 4, 5, 6] ∧
    DrawCalls (ReadVRAM (UpdateVRAM maskTestState 3 4 2 3 [1, 2, 3, 4, 5, 6]) 3 4 2 3).1 =
      DrawCalls maskTestState ∧
    (ReadVRAM (UpdateVRAM maskTestState 3 4 2 3 [1, 2, 3, 4, 5, 6]) 3 4 2 3).2 =
      [0x8000, 0x8000, 0x8000, 0x8000, 0x8000, 0x8000] ∧
    (ReadVRAM (UpdateVRAM maskTestState 3 4 2 3 [1, 2, 3, 4, 5, 6]) 3 4 2 3).2 ≠
      [1, 2, 3, 4, 5, 6] := by
  have hw := ReadVRAM_UpdateVRAM_eq maskWriteState 3 4 2 3 [1, 2, 3, 4, 5, 6] (by decide)
    (by decide) (by decide)
  have ht := ReadVRAM_UpdateVRAM_eq maskTestState 3 4 2 3 [1, 2, 3, 4, 5, 6] (by decide)
    (by decide) (by decide)
  have hw' : (ReadVRAM (UpdateVRAM maskWriteState 3 4 2 3 [1, 2, 3, 4, 5, 6]) 3 4 2 3).2 =
      [0x8001, 0x8002, 0x8003, 0x8004, 0x8005, 0x8006] := by
    rw [hw]
    decide
  have ht' : (ReadVRAM (UpdateVRAM maskTestState 3 4 2 3 [1, 2, 3, 4, 5, 6]) 3 4 2 3).2 =
      [0x8000, 0x8000, 0x8000, 0x8000, 0x8000, 0x8000] := by
    rw [ht]
    decide
  refine ⟨by decide, by decide, rfl,
    (no_intervening_draw_iff maskWriteState 3 4 2 3 [1, 2, 3, 4, 5, 6]).mpr (by decide), hw', ?_,
    (no_intervening_draw_iff maskTestState 3 4 2 3 [1, 2, 3, 4, 5, 6]).mpr (by decide), ht', ?_⟩
  · rw [hw']
    decide
  · rw [ht']
    decide

/-- C4, amended: round trip.  For every state, every rectangle that does not
wrap around the VRAM extent and every pixel array `data` of matching size, if no
draw is submitted between `UpdateVRAM(rect, data)` and the end of the read of
the same rectangle that follows it, the read returns, pixel by pixel, the record
of `data` with the mask bit set when the mask-write flag is set, except that
with the mask-test flag set a pixel whose mask bit was set keeps its content;
so with mask-bit handling disabled the read returns exactly `data`. -/
theorem UpdateVRAM_ReadVRAM_roundtrip (s : GPU_HW) (x y width height : Nat) (data : List Nat)
    (hnodraw :
      DrawCalls (ReadVRAM (UpdateVRAM s x y width height data) x y width height).1 = DrawCalls s)
    (hx : x + width ≤ VRAM_WIDTH) (hy : y + height ≤ VRAM_HEIGHT)
    (hlen : data.length = width * height) :
    (ReadVRAM (UpdateVRAM s x y width height data) x y width height).2 =
      ((List.range (width * height)).map fun i =>
        if s.m_GPUSTAT.check_mask_before_draw = true ∧
            s.vram_texture (VRAMIndex (x + i % width) (y + i / width)) &&& MASK_BIT ≠ 0 then
          s.vram_texture (VRAMIndex (x + i % width) (y + i / width))
        else data.getD i 0 ||| (if s.m_GPUSTAT.set_mask_while_drawing then MASK_BIT else 0)) ∧
    (s.m_GPUSTAT.set_mask_while_drawing = false → s.m_GPUSTAT.check_mask_before_draw = false →
      (ReadVRAM (UpdateVRAM s x y width height data) x y width height).2 = data) := by
  have hflushed : IsFlushed s = true := (no_intervening_draw_iff s x y width height data).mp hnodraw
  have heq := ReadVRAM_UpdateVRAM_eq s x y width height data hflushed hx hy
  refine ⟨heq, ?_⟩
  intro hset hcheck
  rw [heq]
  apply List.ext_getElem
  · simp [hlen]
  · intro i h1 h2
    simp [hset, hcheck, List.getElem?_eq_getElem h2]

/-- C4, amended, at the rectangle `(3, 4, 2, 3)` of a fresh renderer, whose
mask-bit handling is disabled. -/
theorem UpdateVRAM_ReadVRAM_roundtrip_witness :
    DrawCalls (ReadVRAM (UpdateVRAM initial 3 4 2 3 [1, 2, 3, 4, 5, 6]) 3 4 2 3).1 =
      DrawCalls initial ∧
    (ReadVRAM (UpdateVRAM initial 3 4 2 3 [1, 2, 3, 4, 5, 6]) 3 4 2 3).2 = [1, 2, 3, 4, 5, 6] :=
  have hnodraw :
      DrawCalls (ReadVRAM (UpdateVRAM initial 3 4 2 3 [1, 2, 3, 4, 5, 6]) 3 4 2 3).1 =
        DrawCalls initial :=
    (no_intervening_draw_iff initial 3 4 2 3 [1, 2, 3, 4, 5, 6]).mpr (by decide)
  ⟨hnodraw,
   (UpdateVRAM_ReadVRAM_roundtrip initial 3 4 2 3 [1, 2, 3, 4, 5, 6] hnodraw (by decide)
     (by decide) (by decide)).2 rfl rfl⟩

end GPU_HW

/-! ## Dirty rectangle -/

namespace GPU_HW

open GPU

theorem VRAMWrite_apply_dirty (s : GPU_HW) (w : VRAMWrite) :
    (w.apply s).m_vram_dirty_rect = s.m_vram_dirty_rect.Include w.destination := by
  cases w <;> rfl

theorem foldl_apply_dirty_mono (writes : List VRAMWrite) :
    ∀ (s : GPU_HW) (x y : Nat), s.m_vram_dirty_rect.Contains x y = true →
      (writes.foldl VRAMWrite.apply s).m_vram_dirty_rect.Contains x y = true := by
  induction writes with
  | nil => intro s x y h; exact h
  | cons w ws ih =>
    intro s x y h
    rw [List.foldl_cons]
    apply ih
    rw [VRAMWrite_apply_dirty]
    exact Common.Rectangle.Contains_Include_left _ _ _ _ h

theorem foldl_apply_dirty_destination (writes : List VRAMWrite) :
    ∀ (s : GPU_HW) (w : VRAMWrite), w ∈ writes → ∀ x y : Nat,
      w.destination.Contains x y = true →
      (writes.foldl VRAMWrite.apply s).m_vram_dirty_rect.Contains x y = true := by
  induction writes with
  | nil => intro s w hw; simp at hw
  | cons v vs ih =>
    intro s w hw x y h
    rw [List.foldl_cons]
    rcases List.mem_cons.mp hw with rfl | hmem
    · apply foldl_apply_dirty_mono
      rw [VRAMWrite_apply_dirty]
      exact Common.Rectangle.Contains_Include_right _ _ _ _ h
    · exact ih _ w hmem x y h

theorem TransferPass_changed (x y width height : Nat) (value : Nat → Nat → Nat)
    (image : Nat → Nat) (p : Nat) (h : TransferPass x y width height value image p ≠ image p) :
    (GetVRAMTransferBounds x y width height).Contains (p % VRAM_WIDTH) (p / VRAM_WIDTH) = true := by
  unfold TransferPass at h
  simp only [VRAM_WIDTH, VRAM_HEIGHT] at h
  by_cases hc : p < 1024 * 512 ∧ (p % 1024 + 1024 - x % 1024) % 1024 < width ∧
      (p / 1024 + 512 - y % 512) % 512 < height
  · obtain ⟨h1, h2, h3⟩ := hc
    clear h
    rw [Common.Rectangle.Contains_iff]
    simp only [GetVRAMTransferBounds, Common.Rectangle.FromExtents, VRAM_WIDTH, VRAM_HEIGHT]
    by_cases hxw : 1024 < x % 1024 + width <;> by_cases hyh : 512 < y % 512 + height <;>
      simp only [hxw, hyh, if_true, if_false] <;> omega
  · rw [if_neg hc] at h
    exact absurd rfl h

theorem MaskedTransferPass_changed (check_mask : Bool) (mask_or_bits x y width height : Nat)
    (value : Nat → Nat → Nat) (image : Nat → Nat) (p : Nat)
    (h : MaskedTransferPass check_mask mask_or_bits x y width height value image p ≠ image p) :
    (GetVRAMTransferBounds x y width height).Contains (p % VRAM_WIDTH) (p / VRAM_WIDTH) = true := by
  unfold MaskedTransferPass at h
  split_ifs at h with hprot
  · exact absurd rfl h
  · exact TransferPass_changed _ _ _ _ _ _ _ h

theorem VRAMWrite_apply_changed (s : GPU_HW) (w : VRAMWrite) (p : Nat)
    (h : (w.apply s).vram_texture p ≠ s.vram_texture p) :
    w.destination.Contains (p % VRAM_WIDTH) (p / VRAM_WIDTH) = true := by
  cases w with
  | Fill x y width height color =>
    simp only [VRAMWrite.apply, FillVRAM, IncludeVRAMDityRectangle] at h
    exact TransferPass_changed _ _ _ _ _ _ _ h
  | Update x y width height data =>
    simp only [VRAMWrite.apply, UpdateVRAM, IncludeVRAMDityRectangle] at h
    exact MaskedTransferPass_changed _ _ _ _ _ _ _ _ _ h
  | Copy src_x src_y dst_x dst_y width height =>
    simp only [VRAMWrite.apply, CopyVRAM, IncludeVRAMDityRectangle] at h
    exact MaskedTransferPass_changed _ _ _ _ _ _ _ _ _ h

theorem foldl_apply_changed (writes : List VRAMWrite) :
    ∀ (s : GPU_HW) (p : Nat), (writes.foldl VRAMWrite.apply s).vram_texture p ≠ s.vram_texture p →
      (writes.foldl VRAMWrite.apply s).m_vram_dirty_rect.Contains (p % VRAM_WIDTH)
        (p / VRAM_WIDTH) = true := by
  induction writes with
  | nil => intro s p h; exact absurd rfl h
  | cons w ws ih =>
    intro s p h
    rw [List.foldl_cons] at h ⊢
    by_cases hstep : (w.apply s).vram_texture p = s.vram_texture p
    · exact ih _ p (by rw [hstep]; exact h)
    · apply foldl_apply_dirty_mono
      rw [VRAMWrite_apply_dirty]
      exact Common.Rectangle.Contains_Include_right _ _ _ _ (VRAMWrite_apply_changed s w p hstep)

/-- C5: dirty-rectangle monotonicity.  `IncludeVRAMDityRectangle(rect)` leaves a
dirty rectangle that contains every pixel of the previous dirty rectangle and
of `rect`; so does each hardware-side write (fill, write, copy) with its
destination rectangle; and after every sequence of writes, from any state, the
dirty rectangle contains the previous dirty rectangle, the destination of every
write of the sequence, and every pixel of the hardware image that the sequence
has changed. -/
theorem dirty_rectangle_monotone (s : GPU_HW) (writes : List VRAMWrite) :
    (∀ (rect : Common.Rectangle) (x y : Nat),
      s.m_vram_dirty_rect.Contains x y = true ∨ rect.Contains x y = true →
      (IncludeVRAMDityRectangle s rect).m_vram_dirty_rect.Contains x y = true) ∧
    (∀ (w : VRAMWrite) (x y : Nat),
      s.m_vram_dirty_rect.Contains x y = true ∨ w.destination.Contains x y = true →
      (w.apply s).m_vram_dirty_rect.Contains x y = true) ∧
    (∀ x y : Nat, s.m_vram_dirty_rect.Contains x y = true →
      (writes.foldl VRAMWrite.apply s).m_vram_dirty_rect.Contains x y = true) ∧
    (∀ w ∈ writes, ∀ x y : Nat, w.destination.Contains x y = true →
      (writes.foldl VRAMWrite.apply s).m_vram_dirty_rect.Contains x y = true) ∧
    (∀ p : Nat, (writes.foldl VRAMWrite.apply s).vram_texture p ≠ s.vram_texture p →
      (writes.foldl VRAMWrite.apply s).m_vram_dirty_rect.Contains (p % VRAM_WIDTH)
        (p / VRAM_WIDTH) = true) := by
  refine ⟨?_, ?_, foldl_apply_dirty_mono writes s, foldl_apply_dirty_destination writes s,
    foldl_apply_changed writes s⟩
  · rintro rect x y (h | h)
    · exact Common.Rectangle.Contains_Include_left _ _ _ _ h
    · exact Common.Rectangle.Contains_Include_right _ _ _ _ h
  · rintro w x y (h | h)
    · rw [VRAMWrite_apply_dirty]
      exact Common.Rectangle.Contains_Include_left _ _ _ _ h
    · rw [VRAMWrite_apply_dirty]
      exact Common.Rectangle.Contains_Include_right _ _ _ _ h

/-- C6: after `SetFullVRAMDirtyRectangle()` the dirty rectangle is exactly
`(0, 0, VRAM_WIDTH, VRAM_HEIGHT) = (0, 0, 1024, 512)`, whatever it was before;
every rectangle inside the VRAM extent is contained in it, every such rectangle
that is not empty intersects it, and the texture page is marked as changed. -/
theorem SetFullVRAMDirtyRectangle_spec (s : GPU_HW) (r : Common.Rectangle)
    (hright : r.right ≤ VRAM_WIDTH) (hbottom : r.bottom ≤ VRAM_HEIGHT) :
    (SetFullVRAMDirtyRectangle s).m_vram_dirty_rect = ⟨0, 0, VRAM_WIDTH, VRAM_HEIGHT⟩ ∧
    (SetFullVRAMDirtyRectangle s).m_vram_dirty_rect = ⟨0, 0, 1024, 512⟩ ∧
    (∀ x y : Nat, r.Contains x y = true →
      (SetFullVRAMDirtyRectangle s).m_vram_dirty_rect.Contains x y = true) ∧
    (r.left < r.right → r.top < r.bottom →
      (SetFullVRAMDirtyRectangle s).m_vram_dirty_rect.Intersects r = true) ∧
    (SetFullVRAMDirtyRectangle s).texture_page_changed = true := by
  refine ⟨rfl, rfl, ?_, ?_, rfl⟩
  · intro x y h
    rw [Common.Rectangle.Contains_iff] at h ⊢
    show 0 ≤ x ∧ x < VRAM_WIDTH ∧ 0 ≤ y ∧ y < VRAM_HEIGHT
    omega
  · intro h1 h2
    simp only [VRAM_WIDTH, VRAM_HEIGHT] at hright hbottom
    simp only [SetFullVRAMDirtyRectangle, Common.Rectangle.Set, Common.Rectangle.Intersects,
      VRAM_WIDTH, VRAM_HEIGHT]
    simp
    omega

/-- C6 at the rectangle `(0, 0, 64, 64)`, from a state whose dirty rectangle is empty. -/
theorem SetFullVRAMDirtyRectangle_spec_witness :
    (SetFullVRAMDirtyRectangle initial).m_vram_dirty_rect = ⟨0, 0, 1024, 512⟩ ∧
    (SetFullVRAMDirtyRectangle initial).m_vram_dirty_rect.Intersects ⟨0, 0, 64, 64⟩ = true ∧
    (SetFullVRAMDirtyRectangle initial).texture_page_changed = true :=
  have h := SetFullVRAMDirtyRectangle_spec initial ⟨0, 0, 64, 64⟩ (by decide) (by decide)
  ⟨h.2.1, h.2.2.2.1 (by decide) (by decide), h.2.2.2.2⟩

/-- C7: after `ClearVRAMDirtyRectangle()` the dirty rectangle is invalid (its
upper bounds lie below its lower bounds), whatever it was before: it contains
no pixel and no rectangle intersects it. -/
theorem ClearVRAMDirtyRectangle_empty (s : GPU_HW) :
    (ClearVRAMDirtyRectangle s).m_vram_dirty_rect.right <
      (ClearVRAMDirtyRectangle s).m_vram_dirty_rect.left ∧
    (ClearVRAMDirtyRectangle s).m_vram_dirty_rect.bottom <
      (ClearVRAMDirtyRectangle s).m_vram_dirty_rect.top ∧
    (∀ x y : Nat, (ClearVRAMDirtyRectangle s).m_vram_dirty_rect.Contains x y = false) ∧
    (∀ r : Common.Rectangle, (ClearVRAMDirtyRectangle s).m_vram_dirty_rect.Intersects r = false) ∧
    (∀ r : Common.Rectangle, r.Intersects (ClearVRAMDirtyRectangle s).m_vram_dirty_rect = false) := by
  refine ⟨?_, ?_, ?_, ?_, ?_⟩
  · show (0 : Nat) < 4294967295
    decide
  · show (0 : Nat) < 4294967295
    decide
  · intro x y
    simp [ClearVRAMDirtyRectangle, Common.Rectangle.SetInvalid, Common.Rectangle.Set,
      Common.Rectangle.Contains]
  · intro r
    simp [ClearVRAMDirtyRectangle, Common.Rectangle.SetInvalid, Common.Rectangle.Set,
      Common.Rectangle.Intersects]
  · intro r
    simp [ClearVRAMDirtyRectangle, Common.Rectangle.SetInvalid, Common.Rectangle.Set,
      Common.Rectangle.Intersects]

end GPU_HW

/-! ## Vertex buffer capacity -/

namespace GPU_HW

open GPU

theorem sizeof_BatchVertex_eq : sizeof_BatchVertex = 36 := by decide

theorem MAX_BATCH_VERTEX_COUNT_eq : MAX_BATCH_VERTEX_COUNT = 29127 := by
  simp [MAX_BATCH_VERTEX_COUNT, VERTEX_BUFFER_SIZE, sizeof_BatchVertex_eq]

theorem pages_spanned_le (extent page pages : Nat) (hpage : 0 < page)
    (h : extent ≤ pages * page) :
    wrap32 (wrap32 (extent + u32 ((page : Int) - 1)) / page + 1) ≤ pages + 1 := by
  have hsum : wrap32 (extent + u32 ((page : Int) - 1)) < page * (pages + 1) := by
    have h1 : wrap32 (extent + u32 ((page : Int) - 1)) ≤ extent + (page - 1) := by
      unfold wrap32 u32
      omega
    have h2 : page * (pages + 1) = pages * page + page := by ring
    omega
  have hq : wrap32 (extent + u32 ((page : Int) - 1)) / page < pages + 1 :=
    Nat.div_lt_of_lt_mul hsum
  have hw : wrap32 (wrap32 (extent + u32 ((page : Int) - 1)) / page + 1) ≤
      wrap32 (extent + u32 ((page : Int) - 1)) / page + 1 := Nat.mod_le _ _
  omega

theorem MAX_VERTICES_FOR_RECTANGLE_le {mpw mph tpw tph : Nat}
    (hw : mpw ≤ VRAM_WIDTH) (hh : mph ≤ VRAM_HEIGHT) (htw : 16 ≤ tpw) (hth : 16 ≤ tph) :
    MAX_VERTICES_FOR_RECTANGLE mpw mph tpw tph ≤ 12870 := by
  simp only [VRAM_WIDTH, VRAM_HEIGHT] at hw hh
  have hc := pages_spanned_le mpw tpw 64 (by omega) (by omega)
  have hr := pages_spanned_le mph tph 32 (by omega) (by omega)
  unfold MAX_VERTICES_FOR_RECTANGLE
  calc wrap32 _ ≤ 6 * wrap32 (wrap32 (mpw + u32 ((tpw : Int) - 1)) / tpw + 1) *
        wrap32 (wrap32 (mph + u32 ((tph : Int) - 1)) / tph + 1) := Nat.mod_le _ _
    _ ≤ 6 * (64 + 1) * (32 + 1) := Nat.mul_le_mul (Nat.mul_le_mul_left 6 hc) hr
    _ = 12870 := by norm_num

/-- C8: the statically bounded maximum primitive size fits the vertex buffer.
`VERTEX_BUFFER_SIZE` is 1 MiB, `sizeof(BatchVertex)` is 36 and
`MAX_BATCH_VERTEX_COUNT` their quotient, 29127; `MIN_BATCH_VERTEX_COUNT` does
not exceed it; and for all values of the gpu.h enumerators with a maximum
primitive no larger than the VRAM extent and texture pages of at least 16
texels each way, `MAX_VERTICES_FOR_RECTANGLE`, hence the capacity request of
every kind of primitive, does not exceed `MAX_BATCH_VERTEX_COUNT`. -/
theorem primitive_fits_vertex_buffer
    (MAX_PRIMITIVE_WIDTH MAX_PRIMITIVE_HEIGHT TEXTURE_PAGE_WIDTH TEXTURE_PAGE_HEIGHT : Nat)
    (hwidth : MAX_PRIMITIVE_WIDTH ≤ VRAM_WIDTH) (hheight : MAX_PRIMITIVE_HEIGHT ≤ VRAM_HEIGHT)
    (hpagew : 16 ≤ TEXTURE_PAGE_WIDTH) (hpageh : 16 ≤ TEXTURE_PAGE_HEIGHT) :
    VERTEX_BUFFER_SIZE = 1048576 ∧ sizeof_BatchVertex = 36 ∧
    MAX_BATCH_VERTEX_COUNT = VERTEX_BUFFER_SIZE / sizeof_BatchVertex ∧
    MAX_VERTICES_FOR_RECTANGLE MAX_PRIMITIVE_WIDTH MAX_PRIMITIVE_HEIGHT TEXTURE_PAGE_WIDTH
      TEXTURE_PAGE_HEIGHT ≤ MAX_BATCH_VERTEX_COUNT ∧
    MIN_BATCH_VERTEX_COUNT ≤ MAX_BATCH_VERTEX_COUNT ∧
    ∀ kind : PrimitiveKind,
      RequiredVertices MAX_PRIMITIVE_WIDTH MAX_PRIMITIVE_HEIGHT TEXTURE_PAGE_WIDTH
        TEXTURE_PAGE_HEIGHT kind ≤ MAX_BATCH_VERTEX_COUNT := by
  have hrect := MAX_VERTICES_FOR_RECTANGLE_le hwidth hheight hpagew hpageh
  have hmax := MAX_BATCH_VERTEX_COUNT_eq
  refine ⟨by decide, sizeof_BatchVertex_eq, rfl, by omega, ?_, ?_⟩
  · rw [hmax]
    decide
  · intro kind
    cases kind
    · show 3 ≤ MAX_BATCH_VERTEX_COUNT
      omega
    · show 2 ≤ MAX_BATCH_VERTEX_COUNT
      omega
    · show MAX_VERTICES_FOR_RECTANGLE _ _ _ _ ≤ MAX_BATCH_VERTEX_COUNT
      omega

/-- C8 at the console's values: primitives of at most 1024×512 and texture pages
of 256×256, for which a rectangle needs at most 90 vertices. -/
theorem primitive_fits_vertex_buffer_witness :
    MAX_VERTICES_FOR_RECTANGLE 1024 512 256 256 = 90 ∧
    MAX_VERTICES_FOR_RECTANGLE 1024 512 256 256 ≤ MAX_BATCH_VERTEX_COUNT ∧
    MIN_BATCH_VERTEX_COUNT ≤ MAX_BATCH_VERTEX_COUNT :=
  have h := primitive_fits_vertex_buffer 1024 512 256 256 (by decide) (by decide) (by decide)
    (by decide)
  ⟨by simp [MAX_VERTICES_FOR_RECTANGLE, wrap32, u32], h.2.2.2.1, h.2.2.2.2.1⟩

end GPU_HW

/-! ## Flushing -/

namespace GPU_HW

open GPU

theorem IsFlushed_FlushRender (s : GPU_HW) : IsFlushed (FlushRender s) = true := by
  unfold FlushRender
  by_cases h : IsFlushed s = true
  · rw [if_pos h]
    exact h
  · rw [if_neg h]
    simp [IsFlushed]

/-- C9: `FlushRender()` is idempotent.  When `IsFlushed()` is true it returns
the state unchanged (no backend call, statistics, image or buffer change);
after any `FlushRender()` `IsFlushed()` is true; so a second flush right after
a first changes nothing. -/
theorem FlushRender_idempotent (s : GPU_HW) :
    (IsFlushed s = true → FlushRender s = s) ∧
    IsFlushed (FlushRender s) = true ∧
    FlushRender (FlushRender s) = FlushRender s :=
  ⟨FlushRender_of_IsFlushed, IsFlushed_FlushRender s,
    FlushRender_of_IsFlushed (IsFlushed_FlushRender s)⟩

/-- C9 at a flushed state and at a batch of three vertices, whose first flush
submits one draw of three vertices. -/
theorem FlushRender_idempotent_witness :
    IsFlushed initial = true ∧ FlushRender initial = initial ∧
    IsFlushed smallBatch = false ∧
    (FlushRender smallBatch).backend_calls =
      [BackendCall.MapBatchVertexPointer 3, BackendCall.UnmapBatchVertexPointer 3,
       BackendCall.UploadUniformBuffer 32,
       BackendCall.DrawBatchVertices BatchRenderMode.TransparentAndOpaque 0 3] ∧
    IsFlushed (FlushRender smallBatch) = true ∧
    FlushRender (FlushRender smallBatch) = FlushRender smallBatch :=
  ⟨by decide, (FlushRender_idempotent initial).1 (by decide), by decide,
   by simp [FlushRender, IsFlushed, GetBatchVertexCount, smallBatch, initial, u32,
     BatchConfig.NeedsTwoPassRendering, BatchConfig.GetRenderMode, sizeof_BatchUBOData,
     structSize],
   (FlushRender_idempotent smallBatch).2.1, (FlushRender_idempotent smallBatch).2.2⟩

/-! ## VRAM copy path -/

end GPU_HW

/-! ## Render mode -/

namespace GPU_HW

open GPU

/-- C14: `GetRenderMode()` returns `TransparencyDisabled` exactly when the
transparency mode is `Disabled` and `TransparentAndOpaque` exactly when it is
not; it never returns `OnlyOpaque` or `OnlyTransparent`; and whenever
`NeedsTwoPassRendering()` is true it returns `TransparentAndOpaque`. -/
theorem GetRenderMode_spec (c : BatchConfig) :
    (c.GetRenderMode = BatchRenderMode.TransparencyDisabled ↔
      c.transparency_mode = TransparencyMode.Disabled) ∧
    (c.GetRenderMode = BatchRenderMode.TransparentAndOpaque ↔
      c.transparency_mode ≠ TransparencyMode.Disabled) ∧
    c.GetRenderMode ≠ BatchRenderMode.OnlyOpaque ∧
    c.GetRenderMode ≠ BatchRenderMode.OnlyTransparent ∧
    (c.NeedsTwoPassRendering = true →
      c.GetRenderMode = BatchRenderMode.TransparentAndOpaque) := by
  rcases c with ⟨primitive, texture_mode, transparency_mode, d, i, ms, mc⟩
  cases transparency_mode <;>
    simp [BatchConfig.GetRenderMode, BatchConfig.NeedsTwoPassRendering]

/-- C14 at a textured subtractive batch, which needs two passes. -/
theorem GetRenderMode_spec_witness :
    BatchConfig.NeedsTwoPassRendering
      ⟨BatchPrimitive.Triangles, TextureMode.Raw TextureDepth.Direct16Bit,
        TransparencyMode.BackgroundMinusForeground, false, false, false, false⟩ = true ∧
    BatchConfig.GetRenderMode
      ⟨BatchPrimitive.Triangles, TextureMode.Raw TextureDepth.Direct16Bit,
        TransparencyMode.BackgroundMinusForeground, false, false, false, false⟩ =
      BatchRenderMode.TransparentAndOpaque :=
  ⟨by decide,
   (GetRenderMode_spec
      ⟨BatchPrimitive.Triangles, TextureMode.Raw TextureDepth.Direct16Bit,
        TransparencyMode.BackgroundMinusForeground, false, false, false, false⟩).2.2.2.2
    (by decide)⟩

/-! ## Vertex records -/

theorem unpack_texcoord {p : Nat} (hp : p < 65536) :
    u16 (p &&& 0xFF) = p % 256 ∧ u16 (p >>> 8) = p / 256 ∧
    (p % 256) ||| ((p / 256) <<< 8) = p := by
  have hand : p &&& 0xFF = p % 256 := Nat.and_pow_two_sub_one_eq_mod p 8
  have hshift : p >>> 8 = p / 256 := Nat.shiftRight_eq_div_pow p 8
  refine ⟨?_, ?_, ?_⟩
  · rw [hand]
    unfold u16
    omega
  · rw [hshift]
    unfold u16
    omega
  · have hor := Nat.mul_add_lt_is_or (i := 8) (b := p % 256) (by omega) (p / 256)
    rw [Nat.shiftLeft_eq, Nat.or_comm, Nat.mul_comm, ← hor]
    omega

/-- C15: for every 16-bit packed texture coordinate `p`, the six-argument `Set`
produces the vertex of the seven-argument `Set` with `u = p & 0xFF` and
`v = p >> 8`; these are at most 255 and `u | (v << 8) == p`; and `x`, `y`, `z`,
`color` and `texpage` are stored unchanged. -/
theorem SetPacked_spec (vtx : BatchVertex) (x y z : Int) (color texpage p : Nat)
    (hp : p < 65536) :
    vtx.SetPacked x y z color texpage p = vtx.Set x y z color texpage (p &&& 0xFF) (p >>> 8) ∧
    (vtx.SetPacked x y z color texpage p).u = p &&& 0xFF ∧
    (vtx.SetPacked x y z color texpage p).v = p >>> 8 ∧
    (vtx.SetPacked x y z color texpage p).u ≤ 255 ∧
    (vtx.SetPacked x y z color texpage p).v ≤ 255 ∧
    (vtx.SetPacked x y z color texpage p).u |||
      ((vtx.SetPacked x y z color texpage p).v <<< 8) = p ∧
    (vtx.SetPacked x y z color texpage p).x = x ∧
    (vtx.SetPacked x y z color texpage p).y = y ∧
    (vtx.SetPacked x y z color texpage p).z = z ∧
    (vtx.SetPacked x y z color texpage p).color = color ∧
    (vtx.SetPacked x y z color texpage p).texpage = texpage := by
  obtain ⟨hu, hv, hor⟩ := unpack_texcoord hp
  have hand : p &&& 0xFF = p % 256 := Nat.and_pow_two_sub_one_eq_mod p 8
  have hshift : p >>> 8 = p / 256 := Nat.shiftRight_eq_div_pow p 8
  have hu' : (vtx.SetPacked x y z color texpage p).u = p % 256 := hu
  have hv' : (vtx.SetPacked x y z color texpage p).v = p / 256 := hv
  refine ⟨?_, ?_, ?_, ?_, ?_, ?_, rfl, rfl, rfl, rfl, rfl⟩
  · unfold BatchVertex.SetPacked
    rw [hu, hv, hand, hshift]
  · rw [hu', hand]
  · rw [hv', hshift]
  · rw [hu']
    omega
  · rw [hv']
    omega
  · rw [hu', hv']
    exact hor

/-- C15 at the packed coordinate `0x1234`, which unpacks to `u = 0x34`,
`v = 0x12`. -/
theorem SetPacked_spec_witness :
    (sampleVertex.SetPacked 7 (-8) 9 255 3 0x1234).u = 0x34 ∧
    (sampleVertex.SetPacked 7 (-8) 9 255 3 0x1234).v = 0x12 ∧
    sampleVertex.SetPacked 7 (-8) 9 255 3 0x1234 = sampleVertex.Set 7 (-8) 9 255 3 0x34 0x12 :=
  have h := SetPacked_spec sampleVertex 7 (-8) 9 255 3 0x1234 (by decide)
  ⟨h.2.1, h.2.2.1, h.1⟩

/-! ## Interlacing -/

/-- C18: `GetInterlacedRenderMode()` returns `None` exactly when interlaced
display is not enabled; when it is enabled the result is `InterleavedFields` if
`GPUSTAT.vertical_resolution` is set and `SeparateFields` otherwise. -/
theorem GetInterlacedRenderMode_spec (s : GPU_HW) :
    (GetInterlacedRenderMode s = InterlacedRenderMode.None ↔
      s.interlaced_display_enabled = false) ∧
    (s.interlaced_display_enabled = true → s.m_GPUSTAT.vertical_resolution = true →
      GetInterlacedRenderMode s = InterlacedRenderMode.InterleavedFields) ∧
    (s.interlaced_display_enabled = true → s.m_GPUSTAT.vertical_resolution = false →
      GetInterlacedRenderMode s = InterlacedRenderMode.SeparateFields) := by
  unfold GetInterlacedRenderMode
  cases s.interlaced_display_enabled <;> cases s.m_GPUSTAT.vertical_resolution <;> simp

/-- C18 at the three cases: progressive display, interlaced at the low vertical
resolution, interlaced at the high one. -/
theorem GetInterlacedRenderMode_spec_witness :
    GetInterlacedRenderMode initial = InterlacedRenderMode.None ∧
    GetInterlacedRenderMode
      { initial with interlaced_display_enabled := true } =
        InterlacedRenderMode.SeparateFields ∧
    GetInterlacedRenderMode
      { initial with interlaced_display_enabled := true, m_GPUSTAT := ⟨true, false, false⟩ } =
        InterlacedRenderMode.InterleavedFields :=
  ⟨(GetInterlacedRenderMode_spec initial).1.mpr rfl,
   (GetInterlacedRenderMode_spec { initial with interlaced_display_enabled := true }).2.2 rfl rfl,
   (GetInterlacedRenderMode_spec
      { initial with interlaced_display_enabled := true,
                     m_GPUSTAT := ⟨true, false, false⟩ }).2.1 rfl rfl⟩

end GPU_HW

/-! ## Binary32 rounding -/

namespace F32

theorem roundHalfEven_le {t : ℚ} {k : ℤ} (h : t ≤ k) : roundHalfEven t ≤ k := by
  have hf : ⌊t⌋ ≤ k := by
    have := Int.floor_le t
    exact_mod_cast this.trans h
  unfold roundHalfEven
  dsimp only
  have hlt : 1 / 2 ≤ t - ⌊t⌋ → ⌊t⌋ + 1 ≤ k := by
    intro hh
    have h1 : ((⌊t⌋ : ℤ) : ℚ) < k := by linarith
    have h2 : ⌊t⌋ < k := by exact_mod_cast h1
    omega
  split_ifs with h1 h2 h3
  · exact hf
  · exact hlt (by linarith)
  · exact hf
  · exact hlt (by linarith)

theorem le_roundHalfEven {t : ℚ} {k : ℤ} (h : (k : ℚ) ≤ t) : k ≤ roundHalfEven t := by
  have hf : k ≤ ⌊t⌋ := Int.le_floor.mpr h
  unfold roundHalfEven
  dsimp only
  split_ifs <;> omega

theorem abs_roundHalfEven_sub_le (t : ℚ) : |(roundHalfEven t : ℚ) - t| ≤ 1 / 2 := by
  have h1 := Int.floor_le t
  have h2 := Int.lt_floor_add_one t
  unfold roundHalfEven
  dsimp only
  rw [abs_le]
  split_ifs with h3 h4 h5 <;> push_cast <;> constructor <;> linarith

theorem roundHalfEven_eq {t : ℚ} {k : ℤ} (h : |t - k| < 1 / 2) : roundHalfEven t = k := by
  rw [abs_lt] at h
  have hrt := abs_le.mp (abs_roundHalfEven_sub_le t)
  have h1 : ((roundHalfEven t : ℤ) : ℚ) < ((k + 1 : ℤ) : ℚ) := by push_cast; linarith
  have h2 : ((k - 1 : ℤ) : ℚ) < ((roundHalfEven t : ℤ) : ℚ) := by push_cast; linarith
  have h3 : roundHalfEven t < k + 1 := by exact_mod_cast h1
  have h4 : k - 1 < roundHalfEven t := by exact_mod_cast h2
  omega

theorem nearest_zero : nearest 0 = 0 := by
  simp [nearest]

theorem nearest_of_ne_zero {q : ℚ} (h : q ≠ 0) :
    nearest q = (roundHalfEven (q / 2 ^ (max (Int.log 2 |q|) (-126) - 23)) : ℚ) *
      2 ^ (max (Int.log 2 |q|) (-126) - 23) := by
  simp [nearest, h]

theorem log_eq_of_binade {x : ℚ} {e : ℤ} (hlo : (2 : ℚ) ^ e ≤ x) (hhi : x < 2 ^ (e + 1)) :
    Int.log 2 x = e := by
  have hx : 0 < x := lt_of_lt_of_le (by positivity) hlo
  have h1 : e ≤ Int.log 2 x := (Int.zpow_le_iff_le_log (by norm_num) hx).mp (by simpa using hlo)
  have h2 : Int.log 2 x < e + 1 :=
    (Int.lt_zpow_iff_log_lt (by norm_num) hx).mp (by simpa using hhi)
  omega

/-- In a normal binade the result is the multiple of the unit in the last place
nearest to `x`. -/
theorem nearest_eq_of_binade {x : ℚ} {e : ℤ} (hlo : (2 : ℚ) ^ e ≤ x) (hhi : x < 2 ^ (e + 1))
    (he : -126 ≤ e) :
    nearest x = (roundHalfEven (x / 2 ^ (e - 23)) : ℚ) * 2 ^ (e - 23) := by
  have hx : 0 < x := lt_of_lt_of_le (by positivity) hlo
  rw [nearest_of_ne_zero hx.ne', abs_of_pos hx, log_eq_of_binade hlo hhi, max_eq_left he]

theorem nearest_nonneg {x : ℚ} (h : 0 ≤ x) : 0 ≤ nearest x := by
  rcases eq_or_lt_of_le h with rfl | hx
  · rw [nearest_zero]
  · rw [nearest_of_ne_zero hx.ne']
    have hk : (0 : ℤ) ≤ roundHalfEven (x / 2 ^ (max (Int.log 2 |x|) (-126) - 23)) :=
      le_roundHalfEven (by push_cast; positivity)
    have : (0 : ℚ) ≤ (roundHalfEven (x / 2 ^ (max (Int.log 2 |x|) (-126) - 23)) : ℚ) := by
      exact_mod_cast hk
    positivity

/-- A value that does not exceed a multiple `k * 2^(-j)` of a power of two, `j`
a natural number, and is less than 1 does not round above that multiple. -/
theorem nearest_le_grid {x : ℚ} (hx : 0 < x) (hx1 : x ≤ 1) (k j : ℕ)
    (hj : j ≤ 23) (h : x ≤ (k : ℚ) * 2 ^ (-(j : ℤ))) :
    nearest x ≤ (k : ℚ) * 2 ^ (-(j : ℤ)) := by
  have hlog : Int.log 2 x < 1 :=
    (Int.lt_zpow_iff_log_lt (by norm_num) hx).mp (by norm_num; linarith)
  rw [nearest_of_ne_zero hx.ne', abs_of_pos hx]
  set e := max (Int.log 2 x) (-126) with he
  have he0 : e ≤ 0 := by omega
  obtain ⟨m, hm⟩ : ∃ m : ℕ, (m : ℤ) = 23 - e - j := ⟨(23 - e - j).toNat, by omega⟩
  have hgrid : (k : ℚ) * 2 ^ (-(j : ℤ)) = ((k * 2 ^ m : ℕ) : ℚ) * 2 ^ (e - 23) := by
    push_cast
    rw [mul_assoc, ← zpow_natCast, ← zpow_add₀ (by norm_num : (2 : ℚ) ≠ 0)]
    congr 2
    omega
  rw [hgrid] at h ⊢
  have hpos : (0 : ℚ) < 2 ^ (e - 23) := by positivity
  have hle : roundHalfEven (x / 2 ^ (e - 23)) ≤ ((k * 2 ^ m : ℕ) : ℤ) :=
    roundHalfEven_le (by rw [div_le_iff₀ hpos]; exact_mod_cast h)
  have hle' : (roundHalfEven (x / 2 ^ (e - 23)) : ℚ) ≤ ((k * 2 ^ m : ℕ) : ℚ) := by
    exact_mod_cast hle
  exact mul_le_mul_of_nonneg_right hle' hpos.le

theorem nearest_le_one {x : ℚ} (h0 : 0 ≤ x) (h1 : x ≤ 1) : nearest x ≤ 1 := by
  rcases eq_or_lt_of_le h0 with rfl | hx
  · rw [nearest_zero]; norm_num
  · have := nearest_le_grid hx h1 1 0 (by norm_num) (by simpa using h1)
    simpa using this

/-- The rounding error in a normal binade is at most half a unit in the last
place, hence at most `2^(-24)` times the value. -/
theorem abs_nearest_sub_le {x : ℚ} (hx : (2 : ℚ) ^ (-126 : ℤ) ≤ x) :
    |nearest x - x| ≤ x * 2 ^ (-24 : ℤ) := by
  have hpos : 0 < x := lt_of_lt_of_le (by positivity) hx
  have hlo := Int.zpow_log_le_self (b := 2) (by norm_num) hpos
  have hhi := Int.lt_zpow_succ_log_self (b := 2) (by norm_num) x
  have he : -126 ≤ Int.log 2 x :=
    (Int.zpow_le_iff_le_log (by norm_num) hpos).mp (by simpa using hx)
  rw [nearest_eq_of_binade (by simpa using hlo) (by simpa using hhi) he]
  set e := Int.log 2 x
  have hu : (0 : ℚ) < 2 ^ (e - 23) := by positivity
  have herr := abs_roundHalfEven_sub_le (x / 2 ^ (e - 23))
  have hsplit : (roundHalfEven (x / 2 ^ (e - 23)) : ℚ) * 2 ^ (e - 23) - x =
      ((roundHalfEven (x / 2 ^ (e - 23)) : ℚ) - x / 2 ^ (e - 23)) * 2 ^ (e - 23) := by
    field_simp
  rw [hsplit, abs_mul, abs_of_pos hu]
  have hhalf : (1 / 2 : ℚ) * 2 ^ (e - 23) = 2 ^ e * 2 ^ (-24 : ℤ) := by
    rw [show e - 23 = e + (-23) by ring, zpow_add₀ (by norm_num : (2 : ℚ) ≠ 0)]
    norm_num
    ring
  calc |(roundHalfEven (x / 2 ^ (e - 23)) : ℚ) - x / 2 ^ (e - 23)| * 2 ^ (e - 23)
      ≤ 1 / 2 * 2 ^ (e - 23) := mul_le_mul_of_nonneg_right herr hu.le
    _ = 2 ^ e * 2 ^ (-24 : ℤ) := hhalf
    _ ≤ x * 2 ^ (-24 : ℤ) := by
        apply mul_le_mul_of_nonneg_right _ (by positivity)
        simpa using hlo

end F32

namespace F32

/-- A multiple of the unit in the last place of its binade is a binary32 value. -/
theorem nearest_eq_self {x : ℚ} {e : ℤ} (hlo : (2 : ℚ) ^ e ≤ x) (hhi : x < 2 ^ (e + 1))
    (he : -126 ≤ e) (k : ℤ) (hk : x = (k : ℚ) * 2 ^ (e - 23)) : nearest x = x := by
  have hu : (0 : ℚ) < 2 ^ (e - 23) := by positivity
  rw [nearest_eq_of_binade hlo hhi he]
  have hq : x / 2 ^ (e - 23) = k := by rw [hk]; field_simp
  rw [hq, roundHalfEven_eq (k := k) (by simp), ← hk]

theorem nearest_natCast {n : ℕ} (h : n < 16777216) : nearest (n : ℚ) = n := by
  rcases Nat.eq_zero_or_pos n with rfl | hn
  · simpa using nearest_zero
  · have hpos : (0 : ℚ) < n := by exact_mod_cast hn
    have hlo := Int.zpow_log_le_self (b := 2) (by norm_num) hpos
    have hhi := Int.lt_zpow_succ_log_self (b := 2) (by norm_num) (n : ℚ)
    have h0 : 0 ≤ Int.log 2 (n : ℚ) :=
      (Int.zpow_le_iff_le_log (by norm_num) hpos).mp (by simpa using hn)
    have h24 : Int.log 2 (n : ℚ) < 24 :=
      (Int.lt_zpow_iff_log_lt (by norm_num) hpos).mp (by
        norm_num
        exact h)
    set e := Int.log 2 (n : ℚ)
    obtain ⟨m, hm⟩ : ∃ m : ℕ, (m : ℤ) = 23 - e := ⟨(23 - e).toNat, by omega⟩
    apply nearest_eq_self (by simpa using hlo) (by simpa using hhi) (by omega) ((n * 2 ^ m : ℕ) : ℤ)
    push_cast
    rw [mul_assoc, ← zpow_natCast, ← zpow_add₀ (by norm_num : (2 : ℚ) ≠ 0), hm]
    simp

theorem ofInt_natCast {n : ℕ} (h : n < 16777216) : ofInt (n : ℤ) = n := by
  unfold ofInt
  rw [Int.cast_natCast]
  exact nearest_natCast h

/-- The constant `1.0f / 255.0f`. -/
theorem div_one_255 : div 1 255 = 8421505 / 2147483648 := by
  unfold div
  rw [nearest_eq_of_binade (e := -8) (by norm_num) (by norm_num) (by norm_num),
    roundHalfEven_eq (k := 8421505) (by norm_num [abs_lt])]
  norm_num

/-- The value of `static_cast<float>(b) * (1.0f / 255.0f)` for a byte `b`: it
lies in `[0, 1]` and differs from `b / 255` by less than `2^(-23)`. -/
theorem unorm8_spec {b : ℕ} (hb : b ≤ 255) :
    0 ≤ mul (ofInt (b : ℤ)) (div 1 255) ∧ mul (ofInt (b : ℤ)) (div 1 255) ≤ 1 ∧
    |mul (ofInt (b : ℤ)) (div 1 255) - (b : ℚ) / 255| < 2 ^ (-23 : ℤ) := by
  rw [ofInt_natCast (by omega), div_one_255]
  unfold mul
  have hbq : (b : ℚ) ≤ 255 := by exact_mod_cast hb
  rcases Nat.eq_zero_or_pos b with rfl | hpos
  · simp [nearest_zero]
    norm_num
  rcases Nat.lt_or_ge b 255 with hlt | hge
  · have hb1 : (1 : ℚ) ≤ b := by exact_mod_cast hpos
    have hb254 : (b : ℚ) ≤ 254 := by exact_mod_cast (by omega : b ≤ 254)
    have hx0 : (0 : ℚ) < b * (8421505 / 2147483648) := by positivity
    have hx1 : (b : ℚ) * (8421505 / 2147483648) ≤ 1 := by linarith
    have hnorm : (2 : ℚ) ^ (-126 : ℤ) ≤ b * (8421505 / 2147483648) := by
      have : (2 : ℚ) ^ (-126 : ℤ) ≤ 8421505 / 2147483648 := by
        rw [zpow_neg, inv_le_comm₀ (by positivity) (by norm_num)]
        calc ((8421505 : ℚ) / 2147483648)⁻¹ ≤ 2 ^ (8 : ℕ) := by norm_num
          _ ≤ 2 ^ (126 : ℕ) := pow_le_pow_right₀ (by norm_num) (by norm_num)
          _ = 2 ^ (126 : ℤ) := by norm_cast
      nlinarith
    have herr := abs_le.mp (abs_nearest_sub_le hnorm)
    have h24 : (2 : ℚ) ^ (-24 : ℤ) = 1 / 16777216 := by norm_num [zpow_neg]
    have h23 : (2 : ℚ) ^ (-23 : ℤ) = 1 / 8388608 := by norm_num [zpow_neg]
    rw [h24] at herr
    refine ⟨nearest_nonneg hx0.le, nearest_le_one hx0.le hx1, ?_⟩
    rw [h23, abs_lt]
    constructor <;> nlinarith [herr.1, herr.2]
  · have hb255 : b = 255 := by omega
    subst hb255
    have hone : nearest ((255 : ℕ) * (8421505 / 2147483648) : ℚ) = 1 := by
      rw [nearest_eq_of_binade (e := 0) (by norm_num) (by norm_num) (by norm_num),
        roundHalfEven_eq (k := 8388608) (by norm_num [abs_lt])]
      norm_num
    rw [hone]
    norm_num

end F32

namespace F32

theorem unorm8_128 : mul (ofInt 128) (div 1 255) = 8421505 / 16777216 := by
  have h := ofInt_natCast (n := 128) (by norm_num)
  norm_num at h
  rw [h, div_one_255]
  unfold mul
  rw [nearest_eq_of_binade (e := -1) (by norm_num) (by norm_num) (by norm_num),
    roundHalfEven_eq (k := 8421505) (by norm_num [abs_lt])]
  norm_num

theorem two_zpow_neg_126_le {x : ℚ} (h : 1 / 65535 ≤ x) : (2 : ℚ) ^ (-126 : ℤ) ≤ x := by
  refine le_trans ?_ h
  rw [zpow_neg, inv_le_comm₀ (by positivity) (by norm_num)]
  calc ((1 : ℚ) / 65535)⁻¹ ≤ 2 ^ (16 : ℕ) := by norm_num
    _ ≤ 2 ^ (126 : ℕ) := pow_le_pow_right₀ (by norm_num) (by norm_num)
    _ = 2 ^ (126 : ℤ) := by norm_cast

/-- Quotients by 65535 of distinct ordinals up to 65535 stay distinct, in the
same order, after rounding. -/
theorem nearest_div_65535_lt {d₁ d₂ : ℕ} (h : d₁ < d₂) (h2 : d₂ ≤ 65535) :
    nearest ((d₁ : ℚ) / 65535) < nearest ((d₂ : ℚ) / 65535) := by
  have h24 : (2 : ℚ) ^ (-24 : ℤ) = 1 / 16777216 := by norm_num [zpow_neg]
  have hd : (d₁ : ℚ) + 1 ≤ d₂ := by exact_mod_cast h
  have hd2 : (d₂ : ℚ) ≤ 65535 := by exact_mod_cast h2
  have hd1 : (0 : ℚ) ≤ d₁ := by positivity
  have herr2 := abs_le.mp (abs_nearest_sub_le
    (two_zpow_neg_126_le (x := (d₂ : ℚ) / 65535) (by rw [div_le_div_iff_of_pos_right (by norm_num)]; linarith)))
  rw [h24] at herr2
  rcases Nat.eq_zero_or_pos d₁ with rfl | hpos
  · simp only [Nat.cast_zero, zero_div, nearest_zero]
    linarith [herr2.1]
  · have hp : (1 : ℚ) ≤ d₁ := by exact_mod_cast hpos
    have herr1 := abs_le.mp (abs_nearest_sub_le
      (two_zpow_neg_126_le (x := (d₁ : ℚ) / 65535)
        (by rw [div_le_div_iff_of_pos_right (by norm_num)]; exact hp)))
    rw [h24] at herr1
    linarith [herr1.2, herr2.1]

end F32

namespace GPU_HW

/-! ## Colour conversion -/

theorem rgba_bytes (rgba : ℕ) :
    rgba &&& 0xFF = rgba % 256 ∧ (rgba >>> 8) &&& 0xFF = rgba / 256 % 256 ∧
    (rgba >>> 16) &&& 0xFF = rgba / 65536 % 256 ∧ rgba >>> 24 = rgba / 16777216 ∧
    rgba % 256 ||| (rgba / 256 % 256) <<< 8 ||| (rgba / 65536 % 256) <<< 16 |||
      (rgba / 16777216) <<< 24 = rgba := by
  have h0 : rgba &&& 0xFF = rgba % 256 := Nat.and_pow_two_sub_one_eq_mod rgba 8
  have h1 : (rgba >>> 8) &&& 0xFF = rgba / 256 % 256 := by
    rw [Nat.shiftRight_eq_div_pow]
    exact Nat.and_pow_two_sub_one_eq_mod _ 8
  have h2 : (rgba >>> 16) &&& 0xFF = rgba / 65536 % 256 := by
    rw [Nat.shiftRight_eq_div_pow]
    exact Nat.and_pow_two_sub_one_eq_mod _ 8
  have h3 : rgba >>> 24 = rgba / 16777216 := Nat.shiftRight_eq_div_pow rgba 24
  refine ⟨h0, h1, h2, h3, ?_⟩
  have o1 := Nat.mul_add_lt_is_or (i := 8) (b := rgba % 256) (by omega) (rgba / 256 % 256)
  have o2 := Nat.mul_add_lt_is_or (i := 16) (b := 2 ^ 8 * (rgba / 256 % 256) + rgba % 256)
    (by omega) (rgba / 65536 % 256)
  have o3 := Nat.mul_add_lt_is_or (i := 24)
    (b := 2 ^ 16 * (rgba / 65536 % 256) + (2 ^ 8 * (rgba / 256 % 256) + rgba % 256))
    (by omega) (rgba / 16777216)
  rw [Nat.shiftLeft_eq, Nat.shiftLeft_eq, Nat.shiftLeft_eq,
    Nat.or_comm (rgba % 256), Nat.mul_comm _ (2 ^ 8), ← o1,
    Nat.or_comm _ (rgba / 65536 % 256 * 2 ^ 16), Nat.mul_comm _ (2 ^ 16), ← o2,
    Nat.or_comm _ (rgba / 16777216 * 2 ^ 24), Nat.mul_comm _ (2 ^ 24), ← o3]
  omega

/-- C16: for every 32-bit colour, `RGBA8ToFloat` returns the four bytes of
`rgba` (bits 0-7, 8-15, 16-23 and 24-31, which recombine to `rgba`), each
converted to `float` and multiplied by the `float` constant `1.0f / 255.0f`:
each component lies in `[0, 1]` and is within `2^(-23)` of the byte divided by
255.  For the fill colour `0x80808080` all four components are equal, the
binary32 value `8421505 / 2^24` next to `128 / 255`. -/
theorem RGBA8ToFloat_spec (rgba : ℕ) (h : rgba < 4294967296) :
    RGBA8ToFloat rgba =
      (F32.mul (F32.ofInt ((rgba % 256 : ℕ) : ℤ)) (F32.div 1 255),
       F32.mul (F32.ofInt ((rgba / 256 % 256 : ℕ) : ℤ)) (F32.div 1 255),
       F32.mul (F32.ofInt ((rgba / 65536 % 256 : ℕ) : ℤ)) (F32.div 1 255),
       F32.mul (F32.ofInt ((rgba / 16777216 : ℕ) : ℤ)) (F32.div 1 255)) ∧
    rgba % 256 ||| (rgba / 256 % 256) <<< 8 ||| (rgba / 65536 % 256) <<< 16 |||
      (rgba / 16777216) <<< 24 = rgba ∧
    (0 ≤ (RGBA8ToFloat rgba).1 ∧ (RGBA8ToFloat rgba).1 ≤ 1 ∧
      |(RGBA8ToFloat rgba).1 - ((rgba % 256 : ℕ) : ℚ) / 255| < 2 ^ (-23 : ℤ)) ∧
    (0 ≤ (RGBA8ToFloat rgba).2.1 ∧ (RGBA8ToFloat rgba).2.1 ≤ 1 ∧
      |(RGBA8ToFloat rgba).2.1 - ((rgba / 256 % 256 : ℕ) : ℚ) / 255| < 2 ^ (-23 : ℤ)) ∧
    (0 ≤ (RGBA8ToFloat rgba).2.2.1 ∧ (RGBA8ToFloat rgba).2.2.1 ≤ 1 ∧
      |(RGBA8ToFloat rgba).2.2.1 - ((rgba / 65536 % 256 : ℕ) : ℚ) / 255| < 2 ^ (-23 : ℤ)) ∧
    (0 ≤ (RGBA8ToFloat rgba).2.2.2 ∧ (RGBA8ToFloat rgba).2.2.2 ≤ 1 ∧
      |(RGBA8ToFloat rgba).2.2.2 - ((rgba / 16777216 : ℕ) : ℚ) / 255| < 2 ^ (-23 : ℤ)) ∧
    RGBA8ToFloat 0x80808080 =
      (8421505 / 16777216, 8421505 / 16777216, 8421505 / 16777216, 8421505 / 16777216) ∧
    |(8421505 / 16777216 : ℚ) - 128 / 255| < 2 ^ (-25 : ℤ) := by
  obtain ⟨h0, h1, h2, h3, hor⟩ := rgba_bytes rgba
  have heq : RGBA8ToFloat rgba =
      (F32.mul (F32.ofInt ((rgba % 256 : ℕ) : ℤ)) (F32.div 1 255),
       F32.mul (F32.ofInt ((rgba / 256 % 256 : ℕ) : ℤ)) (F32.div 1 255),
       F32.mul (F32.ofInt ((rgba / 65536 % 256 : ℕ) : ℤ)) (F32.div 1 255),
       F32.mul (F32.ofInt ((rgba / 16777216 : ℕ) : ℤ)) (F32.div 1 255)) := by
    unfold RGBA8ToFloat
    rw [h0, h1, h2, h3]
  refine ⟨heq, hor, ?_, ?_, ?_, ?_, ?_, ?_⟩
  · rw [heq]
    exact F32.unorm8_spec (by omega)
  · rw [heq]
    exact F32.unorm8_spec (by omega)
  · rw [heq]
    exact F32.unorm8_spec (by omega)
  · rw [heq]
    exact F32.unorm8_spec (by omega)
  · have e0 : (0x80808080 &&& 0xFF : ℕ) = 128 := by decide
    have e1 : ((0x80808080 >>> 8) &&& 0xFF : ℕ) = 128 := by decide
    have e2 : ((0x80808080 >>> 16) &&& 0xFF : ℕ) = 128 := by decide
    have e3 : (0x80808080 >>> 24 : ℕ) = 128 := by decide
    unfold RGBA8ToFloat
    rw [e0, e1, e2, e3]
    have hv : F32.mul (F32.ofInt ((128 : ℕ) : ℤ)) (F32.div 1 255) = 8421505 / 16777216 :=
      F32.unorm8_128
    rw [hv]
  · rw [abs_lt]
    norm_num [zpow_neg]

/-- C16 at opaque white, whose components are all exactly 1. -/
theorem RGBA8ToFloat_spec_witness :
    (RGBA8ToFloat 0xFFFFFFFF).1 ≤ 1 ∧ 0 ≤ (RGBA8ToFloat 0xFFFFFFFF).1 ∧
    RGBA8ToFloat 0x80808080 =
      (8421505 / 16777216, 8421505 / 16777216, 8421505 / 16777216, 8421505 / 16777216) :=
  have h := RGBA8ToFloat_spec 0xFFFFFFFF (by decide)
  ⟨h.2.2.1.2.1, h.2.2.1.1, h.2.2.2.2.2.2.1⟩

end GPU_HW

namespace GPU_HW

/-! ## Depth ordinal -/

theorem GetCurrentNormalizedVertexDepth_eq (s : GPU_HW) (n : ℕ) (hn : s.m_current_depth = n)
    (h : n ≤ 65535) : GetCurrentNormalizedVertexDepth s = F32.nearest ((n : ℚ) / 65535) := by
  unfold GetCurrentNormalizedVertexDepth F32.div
  rw [hn, F32.ofInt_natCast (by omega)]

/-- C17: `GetCurrentNormalizedVertexDepth()` returns the `float` quotient of
`m_current_depth` by 65535.  For a depth ordinal between 0 and 65535 it lies in
`[0, 1]`, within `2^(-24)` of the exact quotient; of two such ordinals the
smaller has the smaller exact quotient and the smaller `float` value; up to
`MAX_BATCH_VERTEX_COUNTER_IDS = 65534` the value stays below 1, and at 65535 it
is 1. -/
theorem GetCurrentNormalizedVertexDepth_spec (s t : GPU_HW)
    (hs0 : 0 ≤ s.m_current_depth) (hs1 : s.m_current_depth ≤ 65535)
    (ht0 : 0 ≤ t.m_current_depth) (ht1 : t.m_current_depth ≤ 65535) :
    GetCurrentNormalizedVertexDepth s = F32.div (F32.ofInt s.m_current_depth) 65535 ∧
    0 ≤ GetCurrentNormalizedVertexDepth s ∧ GetCurrentNormalizedVertexDepth s ≤ 1 ∧
    |GetCurrentNormalizedVertexDepth s - (s.m_current_depth : ℚ) / 65535| ≤ 2 ^ (-24 : ℤ) ∧
    (s.m_current_depth < t.m_current_depth →
      (s.m_current_depth : ℚ) / 65535 < (t.m_current_depth : ℚ) / 65535 ∧
      GetCurrentNormalizedVertexDepth s < GetCurrentNormalizedVertexDepth t) ∧
    (s.m_current_depth ≤ MAX_BATCH_VERTEX_COUNTER_IDS → GetCurrentNormalizedVertexDepth s < 1) ∧
    (s.m_current_depth = 65535 → GetCurrentNormalizedVertexDepth s = 1) ∧
    MAX_BATCH_VERTEX_COUNTER_IDS = 65534 := by
  obtain ⟨n, hn⟩ : ∃ n : ℕ, s.m_current_depth = n := ⟨s.m_current_depth.toNat, by omega⟩
  obtain ⟨m, hm⟩ : ∃ m : ℕ, t.m_current_depth = m := ⟨t.m_current_depth.toNat, by omega⟩
  have hn1 : n ≤ 65535 := by omega
  have hm1 : m ≤ 65535 := by omega
  have hnq : (n : ℚ) ≤ 65535 := by exact_mod_cast hn1
  have hn0 : (0 : ℚ) ≤ n := by positivity
  have hx0 : (0 : ℚ) ≤ (n : ℚ) / 65535 := by positivity
  have hx1 : (n : ℚ) / 65535 ≤ 1 := by rw [div_le_one (by norm_num)]; exact hnq
  have h24 : (2 : ℚ) ^ (-24 : ℤ) = 1 / 16777216 := by norm_num [zpow_neg]
  rw [GetCurrentNormalizedVertexDepth_eq s n hn hn1, GetCurrentNormalizedVertexDepth_eq t m hm hm1,
    hn, hm]
  refine ⟨?_, F32.nearest_nonneg hx0, F32.nearest_le_one hx0 hx1, ?_, ?_, ?_, ?_, rfl⟩
  · unfold F32.div
    rw [F32.ofInt_natCast (by omega)]
  · rw [Int.cast_natCast]
    rcases Nat.eq_zero_or_pos n with rfl | hpos
    · simp [F32.nearest_zero]
      norm_num
    · have hp : (1 : ℚ) ≤ n := by exact_mod_cast hpos
      have herr := F32.abs_nearest_sub_le
        (F32.two_zpow_neg_126_le (x := (n : ℚ) / 65535)
          (by rw [div_le_div_iff_of_pos_right (by norm_num)]; exact hp))
      refine herr.trans ?_
      rw [h24]
      nlinarith
  · intro hlt
    have hlt' : n < m := by exact_mod_cast hlt
    refine ⟨?_, F32.nearest_div_65535_lt hlt' hm1⟩
    rw [Int.cast_natCast, Int.cast_natCast, div_lt_div_iff_of_pos_right (by norm_num)]
    exact_mod_cast hlt'
  · intro hle
    have hle' : n ≤ 65534 := by
      have : (n : ℤ) ≤ 65534 := hle
      exact_mod_cast this
    have hq : (n : ℚ) ≤ 65534 := by exact_mod_cast hle'
    rcases Nat.eq_zero_or_pos n with rfl | hpos
    · simp [F32.nearest_zero]
    · have hp : (0 : ℚ) < (n : ℚ) / 65535 := by
        have : (0 : ℚ) < n := by exact_mod_cast hpos
        positivity
      have hgrid := F32.nearest_le_grid hp hx1 8388607 23 (by norm_num)
        (by
          rw [div_le_iff₀ (by norm_num)]
          norm_num [zpow_neg]
          linarith)
      refine lt_of_le_of_lt hgrid ?_
      norm_num [zpow_neg]
  · intro h65535
    have hn' : n = 65535 := by exact_mod_cast h65535
    subst hn'
    have h1 : ((65535 : ℕ) : ℚ) / 65535 = ((1 : ℕ) : ℚ) := by norm_num
    rw [h1, F32.nearest_natCast (by norm_num)]
    norm_num

/-- C17 at the ordinals 65533 and 65534 of two otherwise fresh renderers. -/
theorem GetCurrentNormalizedVertexDepth_spec_witness :
    GetCurrentNormalizedVertexDepth { initial with m_current_depth := 65533 } <
      GetCurrentNormalizedVertexDepth { initial with m_current_depth := 65534 } ∧
    GetCurrentNormalizedVertexDepth { initial with m_current_depth := 65533 } < 1 ∧
    0 ≤ GetCurrentNormalizedVertexDepth { initial with m_current_depth := 65533 } :=
  have h := GetCurrentNormalizedVertexDepth_spec { initial with m_current_depth := 65533 }
    { initial with m_current_depth := 65534 } (by decide) (by decide) (by decide) (by decide)
  ⟨(h.2.2.2.2.1 (by decide)).2, h.2.2.2.2.2.1 (by decide), h.2.1⟩

end GPU_HW

/-! ## Rectangle tiling -/

namespace GPU_HW

open GPU

theorem cutAligned_spec (page : ℕ) (hp : 0 < page) :
    ∀ fuel extent : ℕ, extent ≤ fuel →
      (cutAligned page fuel extent).length = (extent + (page - 1)) / page ∧
      (cutAligned page fuel extent).sum = extent ∧
      ∀ c ∈ cutAligned page fuel extent, 1 ≤ c ∧ c ≤ page := by
  intro fuel
  induction fuel with
  | zero =>
    intro extent h
    have h0 : extent = 0 := by omega
    subst h0
    refine ⟨?_, rfl, ?_⟩
    · simp only [cutAligned, List.length_nil, Nat.zero_add]
      exact (Nat.div_eq_of_lt (by omega)).symm
    · intro c hc
      simp [cutAligned] at hc
  | succ fuel ih =>
    intro extent h
    by_cases h0 : extent = 0
    · subst h0
      refine ⟨?_, by simp [cutAligned], ?_⟩
      · simp only [cutAligned, if_true, List.length_nil, Nat.zero_add]
        exact (Nat.div_eq_of_lt (by omega)).symm
      · intro c hc
        simp [cutAligned] at hc
    · obtain ⟨hl, hs, hm⟩ := ih (extent - min extent page) (by omega)
      simp only [cutAligned, if_neg h0, List.length_cons, List.sum_cons, List.mem_cons, hl, hs]
      refine ⟨?_, by omega, ?_⟩
      · rcases Nat.lt_or_ge page extent with hlt | hge
        · rw [Nat.min_eq_right hlt.le]
          have e : extent + (page - 1) = extent - page + (page - 1) + page := by omega
          rw [e, Nat.add_div_right _ hp]
        · rw [Nat.min_eq_left hge, Nat.sub_self, Nat.zero_add, Nat.div_eq_of_lt (by omega)]
          have e : extent + (page - 1) = extent - 1 + page := by omega
          rw [e, Nat.add_div_right _ hp, Nat.div_eq_of_lt (by omega)]
      · rintro c (rfl | hc)
        · omega
        · exact hm c hc

theorem cutAxis_spec {page start extent : ℕ} (hs : start < page) (he : 0 < extent) :
    (cutAxis page start extent).length =
      1 + (extent - min extent (page - start) + (page - 1)) / page ∧
    (cutAxis page start extent).sum = extent ∧
    ∀ c ∈ cutAxis page start extent, 1 ≤ c ∧ c ≤ page := by
  obtain ⟨hl, hsum, hm⟩ := cutAligned_spec page (by omega)
    (extent - min extent (page - start)) (extent - min extent (page - start)) le_rfl
  simp only [cutAxis, if_neg (by omega : ¬ extent = 0), List.length_cons, List.sum_cons,
    List.mem_cons, hl, hsum]
  refine ⟨by omega, by omega, ?_⟩
  rintro c (rfl | hc)
  · omega
  · exact hm c hc

/-- The pieces of one axis number at most the pages a run of the largest extent
can span, plus one. -/
theorem cutAxis_length_le {page start extent largest : ℕ} (hs : start < page) (he : 0 < extent)
    (hle : extent ≤ largest) :
    (cutAxis page start extent).length ≤ (largest + (page - 1)) / page + 1 := by
  rw [(cutAxis_spec hs he).1]
  have : (extent - min extent (page - start) + (page - 1)) / page ≤
      (largest + (page - 1)) / page := Nat.div_le_div_right (by omega)
  omega

/-- Within the VRAM extent the `u32` arithmetic of `MAX_VERTICES_FOR_RECTANGLE`
does not wrap. -/
theorem MAX_VERTICES_FOR_RECTANGLE_eq {mpw mph tpw tph : ℕ}
    (hw : mpw ≤ VRAM_WIDTH) (hh : mph ≤ VRAM_HEIGHT)
    (htw0 : 0 < tpw) (htw : tpw ≤ VRAM_WIDTH) (hth0 : 0 < tph) (hth : tph ≤ VRAM_HEIGHT) :
    MAX_VERTICES_FOR_RECTANGLE mpw mph tpw tph =
      6 * ((mpw + (tpw - 1)) / tpw + 1) * ((mph + (tph - 1)) / tph + 1) := by
  simp only [VRAM_WIDTH, VRAM_HEIGHT] at hw hh htw hth
  have hu : u32 ((tpw : ℤ) - 1) = tpw - 1 := by unfold u32; omega
  have hv : u32 ((tph : ℤ) - 1) = tph - 1 := by unfold u32; omega
  have hc : (mpw + (tpw - 1)) / tpw ≤ 2047 :=
    le_trans (Nat.div_le_self _ _) (by omega)
  have hr : (mph + (tph - 1)) / tph ≤ 1023 :=
    le_trans (Nat.div_le_self _ _) (by omega)
  have hprod : 6 * ((mpw + (tpw - 1)) / tpw + 1) * ((mph + (tph - 1)) / tph + 1) ≤
      6 * 2048 * 1024 :=
    Nat.mul_le_mul (Nat.mul_le_mul_left 6 (by omega)) (by omega)
  unfold MAX_VERTICES_FOR_RECTANGLE
  rw [hu, hv]
  have w1 : wrap32 (mpw + (tpw - 1)) = mpw + (tpw - 1) := Nat.mod_eq_of_lt (by omega)
  have w2 : wrap32 (mph + (tph - 1)) = mph + (tph - 1) := Nat.mod_eq_of_lt (by omega)
  rw [w1, w2]
  have w3 : wrap32 ((mpw + (tpw - 1)) / tpw + 1) = (mpw + (tpw - 1)) / tpw + 1 :=
    Nat.mod_eq_of_lt (by omega)
  have w4 : wrap32 ((mph + (tph - 1)) / tph + 1) = (mph + (tph - 1)) / tph + 1 :=
    Nat.mod_eq_of_lt (by omega)
  rw [w3, w4]
  exact Nat.mod_eq_of_lt (by omega)

/-- C13: the rectangle vertex bound is a true bound for page tiling.  For all
values of the gpu.h enumerators with pages and primitives no larger than the
VRAM extent, every rectangle with `1 <= width <= MAX_PRIMITIVE_WIDTH` and
`1 <= height <= MAX_PRIMITIVE_HEIGHT` and every starting texture coordinate
`(u0, v0)` inside a texture page: cutting at every page boundary gives pieces of
at least one texel and at most a page that add up to the width and to the
height; the tiles number at most
`(ceil(MAX_PRIMITIVE_WIDTH / TEXTURE_PAGE_WIDTH) + 1) *
(ceil(MAX_PRIMITIVE_HEIGHT / TEXTURE_PAGE_HEIGHT) + 1)`; and at 6 vertices a
tile the rectangle needs at most `MAX_VERTICES_FOR_RECTANGLE` vertices. -/
theorem rectangle_tiling_bound
    (MAX_PRIMITIVE_WIDTH MAX_PRIMITIVE_HEIGHT TEXTURE_PAGE_WIDTH TEXTURE_PAGE_HEIGHT : ℕ)
    (u0 v0 width height : ℕ)
    (hmw : MAX_PRIMITIVE_WIDTH ≤ VRAM_WIDTH) (hmh : MAX_PRIMITIVE_HEIGHT ≤ VRAM_HEIGHT)
    (hpw : TEXTURE_PAGE_WIDTH ≤ VRAM_WIDTH) (hph : TEXTURE_PAGE_HEIGHT ≤ VRAM_HEIGHT)
    (hw1 : 1 ≤ width) (hw : width ≤ MAX_PRIMITIVE_WIDTH)
    (hh1 : 1 ≤ height) (hh : height ≤ MAX_PRIMITIVE_HEIGHT)
    (hu : u0 < TEXTURE_PAGE_WIDTH) (hv : v0 < TEXTURE_PAGE_HEIGHT) :
    (cutAxis TEXTURE_PAGE_WIDTH u0 width).sum = width ∧
    (cutAxis TEXTURE_PAGE_HEIGHT v0 height).sum = height ∧
    (∀ tile ∈ RectangleTiles TEXTURE_PAGE_WIDTH TEXTURE_PAGE_HEIGHT u0 v0 width height,
      1 ≤ tile.1 ∧ tile.1 ≤ TEXTURE_PAGE_HEIGHT ∧ 1 ≤ tile.2 ∧ tile.2 ≤ TEXTURE_PAGE_WIDTH) ∧
    (RectangleTiles TEXTURE_PAGE_WIDTH TEXTURE_PAGE_HEIGHT u0 v0 width height).length ≤
      ((MAX_PRIMITIVE_WIDTH + (TEXTURE_PAGE_WIDTH - 1)) / TEXTURE_PAGE_WIDTH + 1) *
        ((MAX_PRIMITIVE_HEIGHT + (TEXTURE_PAGE_HEIGHT - 1)) / TEXTURE_PAGE_HEIGHT + 1) ∧
    RectangleVertexCount TEXTURE_PAGE_WIDTH TEXTURE_PAGE_HEIGHT u0 v0 width height ≤
      MAX_VERTICES_FOR_RECTANGLE MAX_PRIMITIVE_WIDTH MAX_PRIMITIVE_HEIGHT TEXTURE_PAGE_WIDTH
        TEXTURE_PAGE_HEIGHT := by
  obtain ⟨-, hsw, hmemw⟩ := cutAxis_spec hu hw1
  obtain ⟨-, hsh, hmemh⟩ := cutAxis_spec hv hh1
  have hcols := cutAxis_length_le hu hw1 hw
  have hrows := cutAxis_length_le hv hh1 hh
  have hlen : (RectangleTiles TEXTURE_PAGE_WIDTH TEXTURE_PAGE_HEIGHT u0 v0 width height).length ≤
      ((MAX_PRIMITIVE_WIDTH + (TEXTURE_PAGE_WIDTH - 1)) / TEXTURE_PAGE_WIDTH + 1) *
        ((MAX_PRIMITIVE_HEIGHT + (TEXTURE_PAGE_HEIGHT - 1)) / TEXTURE_PAGE_HEIGHT + 1) := by
    have hprod : (RectangleTiles TEXTURE_PAGE_WIDTH TEXTURE_PAGE_HEIGHT u0 v0 width height).length =
        (cutAxis TEXTURE_PAGE_HEIGHT v0 height).length *
          (cutAxis TEXTURE_PAGE_WIDTH u0 width).length :=
      List.length_product _ _
    rw [hprod, Nat.mul_comm]
    exact Nat.mul_le_mul hcols hrows
  refine ⟨hsw, hsh, ?_, hlen, ?_⟩
  · intro tile htile
    unfold RectangleTiles at htile
    obtain ⟨h1, h2⟩ := List.pair_mem_product.mp htile
    exact ⟨(hmemh _ h1).1, (hmemh _ h1).2, (hmemw _ h2).1, (hmemw _ h2).2⟩
  · rw [MAX_VERTICES_FOR_RECTANGLE_eq hmw hmh (by omega) hpw (by omega) hph]
    unfold RectangleVertexCount
    rw [Nat.mul_assoc]
    exact Nat.mul_le_mul_left 6 hlen

/-- C13 at the console's values and the worst case: a 1024×512 rectangle that
starts at the last texel of a 256×256 page is cut into 5 × 3 tiles and needs
exactly the 90 vertices of the bound. -/
theorem rectangle_tiling_bound_witness :
    RectangleVertexCount 256 256 255 255 1024 512 = 90 ∧
    RectangleVertexCount 256 256 255 255 1024 512 ≤ MAX_VERTICES_FOR_RECTANGLE 1024 512 256 256 :=
  ⟨by decide,
   (rectangle_tiling_bound 1024 512 256 256 255 255 1024 512 (by decide) (by decide) (by decide)
     (by decide) (by decide) (by decide) (by decide) (by decide) (by decide)
     (by decide)).2.2.2.2⟩

end GPU_HW

/-! ## Android host interface -/

namespace AndroidHostInterface

open HostInterface

/-- C11: `AcquireHostDisplay` returns true exactly when `CreateRenderDevice` and
`InitializeRenderDevice` both succeed, and then `m_display` is the newly
created display; when either fails it returns false, its last outside call is
`ReportError`, and `m_display` is left as it was (unset if it was unset).  The
display it creates, on which `CreateRenderDevice` is the first call, is a
`VulkanHostDisplay` exactly when the setting is `HardwareVulkan` and an
`OpenGLHostDisplay` for every other setting. -/
theorem AcquireHostDisplay_spec (env : Environment) (s : AndroidHostInterface) :
    ((AcquireHostDisplay env s).2 = true ↔
      env.CreateRenderDevice (displayClassFor s.gpu_renderer) (acquireWindowInfo env s)
          s.gpu_use_debug_device = true ∧
        env.InitializeRenderDevice (displayClassFor s.gpu_renderer) s.gpu_use_debug_device =
          true) ∧
    ((AcquireHostDisplay env s).2 = true →
      (AcquireHostDisplay env s).1.m_display = some (displayClassFor s.gpu_renderer)) ∧
    ((AcquireHostDisplay env s).2 = false →
      (AcquireHostDisplay env s).1.m_display = s.m_display ∧
      (s.m_display = none → (AcquireHostDisplay env s).1.m_display = none) ∧
      (AcquireHostDisplay env s).1.calls.getLast? = some HostCall.ReportError) ∧
    ((AcquireHostDisplay env s).1.calls.drop s.calls.length).head? =
      some (HostCall.CreateRenderDevice (displayClassFor s.gpu_renderer)
        (acquireWindowInfo env s) s.gpu_use_debug_device) ∧
    (displayClassFor s.gpu_renderer = DisplayClass.VulkanHostDisplay ↔
      s.gpu_renderer = GPURenderer.HardwareVulkan) ∧
    (displayClassFor s.gpu_renderer = DisplayClass.OpenGLHostDisplay ↔
      s.gpu_renderer ≠ GPURenderer.HardwareVulkan) := by
  have hclass : (displayClassFor s.gpu_renderer = DisplayClass.VulkanHostDisplay ↔
        s.gpu_renderer = GPURenderer.HardwareVulkan) ∧
      (displayClassFor s.gpu_renderer = DisplayClass.OpenGLHostDisplay ↔
        s.gpu_renderer ≠ GPURenderer.HardwareVulkan) := by
    cases s.gpu_renderer <;> simp [displayClassFor]
  refine ⟨?_, ?_, ?_, ?_, hclass.1, hclass.2⟩ <;>
    unfold AcquireHostDisplay <;>
    cases hc : env.CreateRenderDevice (displayClassFor s.gpu_renderer) (acquireWindowInfo env s)
      s.gpu_use_debug_device <;>
    cases hi : env.InitializeRenderDevice (displayClassFor s.gpu_renderer)
      s.gpu_use_debug_device <;>
    simp [hc, hi]

/-- C11 where the device of the Vulkan display is created but cannot be
initialised: the error is reported and no display is set. -/
theorem AcquireHostDisplay_spec_witness :
    (AcquireHostDisplay sampleEnvironment beforeAcquire).2 = false ∧
    (AcquireHostDisplay sampleEnvironment beforeAcquire).1.m_display = none ∧
    (AcquireHostDisplay sampleEnvironment beforeAcquire).1.calls.getLast? =
      some HostCall.ReportError :=
  have h := (AcquireHostDisplay_spec sampleEnvironment beforeAcquire).2.2.1 (by decide)
  ⟨by decide, h.2.1 rfl, h.2.2⟩

/-- C12, the claim as stated fails: with three unflushed vertices in the batch
of the running renderer, `SurfaceChanged` with the current surface hands the new
size to the display, and with another surface hands that surface to it; the
resize is the only call made and the renderer is left as it was, its batch not
flushed and no draw submitted. -/
theorem SurfaceChanged_resizes_unflushed :
    GPU_HW.IsFlushed GPU_HW.smallBatch = false ∧
    withPendingBatch.m_system_gpu = some GPU_HW.smallBatch ∧
    (SurfaceChanged withPendingBatch 4096 1 800 600).calls =
      [HostCall.ResizeRenderWindow 800 600] ∧
    (SurfaceChanged withPendingBatch 4096 1 800 600).m_system_gpu = some GPU_HW.smallBatch ∧
    (SurfaceChanged withPendingBatch 8192 1 800 600).calls =
      [HostCall.ChangeRenderWindow ⟨8192, 800, 600⟩] ∧
    (SurfaceChanged withPendingBatch 8192 1 800 600).m_system_gpu = some GPU_HW.smallBatch ∧
    GPU_HW.smallBatch.backend_calls = [] :=
  ⟨by decide, rfl, by decide, rfl, by decide, rfl, rfl⟩

/-- C12, amended: on every path `SurfaceChanged` hands the window size or the
new surface straight to the display, `ResizeRenderWindow` when the surface is
unchanged and `ChangeRenderWindow` when it differs, each only when a display
exists; that is the only call it makes.  It never flushes: the renderer of the
running system, with its batch, is left exactly as it was, and so is the
display; the surface becomes the one given. -/
theorem SurfaceChanged_spec (s : AndroidHostInterface) (surface : Nat) (format width height : Int) :
    (SurfaceChanged s surface format width height).m_system_gpu = s.m_system_gpu ∧
    (SurfaceChanged s surface format width height).m_display = s.m_display ∧
    (SurfaceChanged s surface format width height).m_surface = surface ∧
    (SurfaceChanged s surface format width height).calls =
      s.calls ++
        (if s.m_display.isSome then
          [if s.m_surface = surface then HostCall.ResizeRenderWindow width height
           else HostCall.ChangeRenderWindow ⟨surface, width, height⟩]
         else []) ∧
    (∀ gpu, s.m_system_gpu = some gpu →
      ∀ c ∈ (SurfaceChanged s surface format width height).calls.drop s.calls.length,
        c.isResize = true ∧
        (SurfaceChanged s surface format width height).m_system_gpu = some gpu) := by
  unfold SurfaceChanged
  by_cases h1 : s.m_surface = surface <;> cases hd : s.m_display <;>
    simp [h1, hd, HostCall.isResize]

end AndroidHostInterface

/-! ## Memory card -/

namespace MemoryCard

theorem TransferAll_append {c c₁ c₂ : MemoryCard} {xs ys : List ℕ}
    {r₁ r₂ : List (ℕ × Bool × State)} (h₁ : TransferAll c xs = Except.ok (c₁, r₁))
    (h₂ : TransferAll c₁ ys = Except.ok (c₂, r₂)) :
    TransferAll c (xs ++ ys) = Except.ok (c₂, r₁ ++ r₂) := by
  induction xs generalizing c r₁ with
  | nil =>
    simp only [TransferAll, Except.ok.injEq, Prod.mk.injEq] at h₁
    obtain ⟨rfl, rfl⟩ := h₁
    simpa using h₂
  | cons x xs ih =>
    simp only [TransferAll, List.cons_append] at h₁ ⊢
    cases hx : Transfer c x with
    | error f => simp [hx] at h₁
    | ok res =>
      obtain ⟨c', out, ack⟩ := res
      simp only [hx] at h₁ ⊢
      cases hxs : TransferAll c' xs with
      | error f => simp [hxs] at h₁
      | ok res' =>
        obtain ⟨c'', r'⟩ := res'
        simp only [hxs, Except.ok.injEq, Prod.mk.injEq] at h₁
        obtain ⟨rfl, rfl⟩ := h₁
        have hih := ih hxs
        simp only [List.append_eq, hih, List.cons_append]

/-- The address left by the two address states is the low ten bits of the two
address bytes, whatever the address was before. -/
theorem address_bytes (a hi lo : ℕ) :
    ((((a &&& 0x00FF) ||| (hi <<< 8)) &&& 0x3FF) &&& 0xFF00 ||| lo) &&& 0x3FF =
      sectorAddress hi lo := by
  unfold sectorAddress
  have e1 : (0x00FF : ℕ) = 2 ^ 8 - 1 := by norm_num
  have e2 : (0x3FF : ℕ) = 2 ^ 10 - 1 := by norm_num
  have e3 : (0xFF00 : ℕ) = (2 ^ 8 - 1) <<< 8 := by decide
  rw [e1, e2, e3]
  apply Nat.eq_of_testBit_eq
  intro i
  simp only [Nat.testBit_and, Nat.testBit_or, Nat.testBit_shiftLeft, Nat.testBit_two_pow_sub_one]
  rcases Nat.lt_or_ge i 8 with h | h
  · have h1 : ¬ 8 ≤ i := by omega
    have h2 : i < 10 := by omega
    simp [h, h1, h2]
  · rcases Nat.lt_or_ge i 10 with h' | h'
    · have h1 : ¬ i < 8 := by omega
      have h2 : i - 8 < 8 := by omega
      simp [h, h', h1, h2]
    · have h1 : ¬ i < 10 := by omega
      simp [h1]

theorem sectorAddress_le (hi lo : ℕ) : sectorAddress hi lo ≤ 1023 := by
  unfold sectorAddress
  exact Nat.and_le_right

end MemoryCard

namespace MemoryCard

theorem sectorChecksum_append (address : ℕ) (bytes : List ℕ) (x : ℕ) :
    sectorChecksum address (bytes ++ [x]) = sectorChecksum address bytes ^^^ x := by
  simp [sectorChecksum, List.foldl_append]

theorem readProgress_succ (c : MemoryCard) (n x : ℕ) :
    readProgress c (n + 1) x =
      { c with
        m_checksum :=
          sectorChecksum c.m_address
            ((List.range n).map fun i => c.m_data (c.m_address * SECTOR_SIZE + i)) ^^^
            c.m_data (c.m_address * SECTOR_SIZE + n)
        m_last_byte := x
        m_state := if n + 1 = SECTOR_SIZE then State.ReadChecksum else State.ReadData
        m_sector_offset := if n + 1 = SECTOR_SIZE then 0 else n + 1 } := by
  unfold readProgress
  rw [List.range_succ, List.map_append, List.map_singleton, sectorChecksum_append]

theorem readData_first (c : MemoryCard) (x : ℕ) (hstate : c.m_state = State.ReadData)
    (hoff : c.m_sector_offset = 0) (haddr : c.m_address ≤ 1023) :
    Transfer c x =
      Except.ok (readProgress c 1 x, c.m_data (c.m_address * SECTOR_SIZE + 0), true) := by
  have hidx : ¬ 1024 * 128 ≤ c.m_address * 128 := by omega
  rw [readProgress_succ c 0 x]
  simp [Transfer, hstate, hoff, hidx, finish, sectorChecksum, SECTOR_SIZE, DATA_SIZE]

theorem readData_next (c : MemoryCard) (n last x : ℕ) (hn0 : 0 < n) (hn : n < 128)
    (haddr : c.m_address ≤ 1023) :
    Transfer (readProgress c n last) x =
      Except.ok (readProgress c (n + 1) x, c.m_data (c.m_address * SECTOR_SIZE + n), true) := by
  have hidx : ¬ 1024 * 128 ≤ c.m_address * 128 + n := by omega
  have hne : n ≠ 128 := by omega
  have hn0' : n ≠ 0 := by omega
  have hmod : (n + 1) % 256 = n + 1 := Nat.mod_eq_of_lt (by omega)
  rw [readProgress_succ c n x]
  simp only [Transfer, readProgress, SECTOR_SIZE, DATA_SIZE, if_neg hne, if_neg hn0', if_neg hidx,
    hmod, finish]
  split_ifs <;> rfl

theorem readReplies_succ (c : MemoryCard) (n : ℕ) :
    readReplies c (n + 1) =
      readReplies c n ++
        [(c.m_data (c.m_address * SECTOR_SIZE + n), true,
          if n + 1 = SECTOR_SIZE then State.ReadChecksum else State.ReadData)] := by
  unfold readReplies
  rw [List.range_succ, List.map_append, List.map_singleton]

theorem readData_run (c : MemoryCard) (hstate : c.m_state = State.ReadData)
    (hoff : c.m_sector_offset = 0) (haddr : c.m_address ≤ 1023) :
    ∀ (ins : List ℕ) (x : ℕ), ins.length < 128 →
      TransferAll c (ins ++ [x]) =
        Except.ok (readProgress c (ins.length + 1) x, readReplies c (ins.length + 1)) := by
  intro ins
  induction ins using List.reverseRecOn with
  | nil =>
    intro x _
    have hstep := readData_first c x hstate hoff haddr
    have hs : (readProgress c 1 x).m_state = State.ReadData := by
      simp [readProgress, SECTOR_SIZE]
    simp only [List.nil_append, TransferAll, hstep, List.length_nil, Nat.zero_add, hs,
      readReplies_succ c 0]
    simp [readReplies, SECTOR_SIZE]
  | append_singleton xs y ih =>
    intro x hlen
    have hxs : xs.length < 127 := by
      simp only [List.length_append, List.length_singleton] at hlen
      omega
    have h1 := ih y (by omega)
    have hs : (readProgress c (xs.length + 1 + 1) x).m_state =
        if xs.length + 1 + 1 = SECTOR_SIZE then State.ReadChecksum else State.ReadData := rfl
    have hstep : TransferAll (readProgress c (xs.length + 1) y) [x] =
        Except.ok (readProgress c (xs.length + 1 + 1) x,
          [(c.m_data (c.m_address * SECTOR_SIZE + (xs.length + 1)), true,
            if xs.length + 1 + 1 = SECTOR_SIZE then State.ReadChecksum else State.ReadData)]) := by
      simp only [TransferAll, readData_next c (xs.length + 1) y x (by omega) (by omega) haddr, hs]
    have h := TransferAll_append h1 hstep
    rw [h, List.length_append, List.length_singleton, readReplies_succ c (xs.length + 1)]

end MemoryCard

namespace MemoryCard

theorem Truncate8_sectorAddress (hi lo : ℕ) :
    Truncate8 (sectorAddress hi lo >>> 8) = sectorAddress hi lo >>> 8 ∧
    Truncate8 (sectorAddress hi lo) = sectorAddress hi lo &&& 0xFF := by
  have hle := sectorAddress_le hi lo
  have hand : sectorAddress hi lo &&& 0xFF = sectorAddress hi lo % 256 :=
    Nat.and_pow_two_sub_one_eq_mod _ 8
  have hshift : sectorAddress hi lo >>> 8 = sectorAddress hi lo / 256 :=
    Nat.shiftRight_eq_div_pow _ 8
  unfold Truncate8
  rw [hand, hshift]
  constructor
  · omega
  · rfl

theorem split_last_three {l : List ℕ} {n : ℕ} (h : l.length = n + 3) :
    ∃ (ins : List ℕ) (x y z : ℕ), l = ins ++ [x] ++ [y, z] ∧ ins.length = n := by
  have hdrop : (l.drop n).length = 3 := by rw [List.length_drop]; omega
  obtain ⟨x, y, z, hxyz⟩ := List.length_eq_three.mp hdrop
  refine ⟨l.take n, x, y, z, ?_, by rw [List.length_take]; omega⟩
  rw [List.append_assoc, List.singleton_append, ← hxyz, List.take_append_drop]

theorem read_header (c : MemoryCard) (hidle : c.m_state = State.Idle)
    (id₁ id₂ hi lo p₁ p₂ p₃ p₄ : ℕ) :
    TransferAll c [0x52, id₁, id₂, hi, lo, p₁, p₂, p₃, p₄] =
      Except.ok
        ({ c with
           m_state := State.ReadData
           m_address := sectorAddress hi lo
           m_sector_offset := 0
           m_last_byte := p₄ },
         [(c.m_FLAG, true, State.ReadCardID1), (0x5A, true, State.ReadCardID2),
          (0x5D, true, State.ReadAddressMSB), (0x00, true, State.ReadAddressLSB),
          (hi, true, State.ReadACK1), (0x5C, true, State.ReadACK2),
          (0x5D, true, State.ReadConfirmAddressMSB),
          (sectorAddress hi lo >>> 8, true, State.ReadConfirmAddressLSB),
          (sectorAddress hi lo &&& 0xFF, true, State.ReadData)]) := by
  have haddr := address_bytes c.m_address hi lo
  obtain ⟨ht1, ht2⟩ := Truncate8_sectorAddress hi lo
  norm_num at haddr
  simp [TransferAll, Transfer, hidle, FIXED_REPLY_STATE, ADDRESS_STATE_MSB, ADDRESS_STATE_LSB,
    finish, haddr, ht1, ht2]

/-- A whole read transaction from `Idle`: the replies and the card afterwards. -/
theorem read_transaction (c : MemoryCard) (hidle : c.m_state = State.Idle)
    (id₁ id₂ hi lo : ℕ) (rest : List ℕ) (hrest : rest.length = 134) :
    TransferAll c (readCommand id₁ id₂ hi lo rest) =
      Except.ok
        ({ c with
           m_state := State.Idle
           m_address := sectorAddress hi lo
           m_sector_offset := 0
           m_checksum := sectorChecksum (sectorAddress hi lo) (sectorData c (sectorAddress hi lo))
           m_last_byte := rest.getLastD 0 },
         readTransactionReplies c hi lo) := by
  obtain ⟨p₁, p₂, p₃, p₄, tail, rfl⟩ : ∃ p₁ p₂ p₃ p₄ tail, rest = p₁ :: p₂ :: p₃ :: p₄ :: tail := by
    match rest, hrest with
    | p₁ :: p₂ :: p₃ :: p₄ :: tail, _ => exact ⟨p₁, p₂, p₃, p₄, tail, rfl⟩
  have htail : tail.length = 127 + 3 := by simpa using hrest
  obtain ⟨ins, x, y, z, rfl, hins⟩ := split_last_three htail
  have h1 := read_header c hidle id₁ id₂ hi lo p₁ p₂ p₃ p₄
  have h2 := readData_run
    { c with m_state := State.ReadData, m_address := sectorAddress hi lo, m_sector_offset := 0,
             m_last_byte := p₄ }
    rfl rfl (sectorAddress_le hi lo) ins x (by omega)
  have h3 : TransferAll
      (readProgress
        { c with m_state := State.ReadData, m_address := sectorAddress hi lo,
                 m_sector_offset := 0, m_last_byte := p₄ } (ins.length + 1) x) [y, z] =
      Except.ok
        ({ c with
           m_state := State.Idle
           m_address := sectorAddress hi lo
           m_sector_offset := 0
           m_checksum := sectorChecksum (sectorAddress hi lo) (sectorData c (sectorAddress hi lo))
           m_last_byte := z },
         [(sectorChecksum (sectorAddress hi lo) (sectorData c (sectorAddress hi lo)), true,
            State.ReadEnd),
          (0x47, false, State.Idle)]) := by
    simp [TransferAll, Transfer, readProgress, hins, SECTOR_SIZE, FIXED_REPLY_STATE, finish,
      sectorData]
  have h12 := TransferAll_append h1 h2
  have h123 := TransferAll_append h12 h3
  have hcmd : readCommand id₁ id₂ hi lo (p₁ :: p₂ :: p₃ :: p₄ :: (ins ++ [x] ++ [y, z])) =
      [0x52, id₁, id₂, hi, lo, p₁, p₂, p₃, p₄] ++ (ins ++ [x]) ++ [y, z] := by
    simp [readCommand]
  have hlast : (p₄ :: (ins ++ [x, y, z])).getLast?.getD 0 = z := by
    have e : p₄ :: (ins ++ [x, y, z]) = (p₄ :: (ins ++ [x, y])) ++ [z] := by simp
    rw [e, List.getLast?_concat]
    rfl
  rw [hcmd, h123]
  simp [readTransactionReplies, readReplies, hins, SECTOR_SIZE, hlast]

end MemoryCard

namespace MemoryCard

/-- C20: a read transaction.  From `Idle`, for every card contents and address
bytes, the bytes `0x52`, any two bytes, `hi`, `lo` and any 134 bytes (139
transfers) make the card reply, in order, the flag byte, `0x5A`, `0x5D`, `0x00`,
`hi`, `0x5C`, `0x5D`, `A >> 8`, `A & 0xFF`, the 128 bytes of sector
`A = ((hi << 8) | lo) & 0x3FF`, the exclusive or of the two address bytes and
the 128 data bytes, and `0x47`; every transfer but the last is acknowledged and
leaves the card in a state other than `Idle`, the last is not acknowledged and
leaves it in `Idle`. -/
theorem read_transaction_spec (c : MemoryCard) (id₁ id₂ hi lo : ℕ) (rest : List ℕ)
    (hidle : c.m_state = State.Idle) (hrest : rest.length = 134) :
    ∃ c' replies,
      TransferAll c ([0x52, id₁, id₂, hi, lo] ++ rest) = Except.ok (c', replies) ∧
      c'.m_state = State.Idle ∧
      ([0x52, id₁, id₂, hi, lo] ++ rest).length = 139 ∧ replies.length = 139 ∧
      replies.map (fun r => r.1) =
        [c.m_FLAG, 0x5A, 0x5D, 0x00, hi, 0x5C, 0x5D,
          (((hi <<< 8) ||| lo) &&& 0x3FF) >>> 8, (((hi <<< 8) ||| lo) &&& 0x3FF) &&& 0xFF] ++
        ((List.range 128).map fun i => c.m_data ((((hi <<< 8) ||| lo) &&& 0x3FF) * 128 + i)) ++
        [sectorChecksum (((hi <<< 8) ||| lo) &&& 0x3FF)
           ((List.range 128).map fun i => c.m_data ((((hi <<< 8) ||| lo) &&& 0x3FF) * 128 + i)),
         0x47] ∧
      (∀ r ∈ replies.dropLast, r.2.1 = true ∧ r.2.2 ≠ State.Idle) ∧
      replies.getLast? = some (0x47, false, State.Idle) := by
  refine ⟨_, _, read_transaction c hidle id₁ id₂ hi lo rest hrest, rfl, ?_, ?_, ?_, ?_, ?_⟩
  · simp [hrest]
  · simp [readTransactionReplies, SECTOR_SIZE]
  · simp [readTransactionReplies, sectorAddress, sectorData, SECTOR_SIZE, Function.comp_def]
  · intro r hr
    have hdrop : (readTransactionReplies c hi lo).dropLast =
        [(c.m_FLAG, true, State.ReadCardID1), (0x5A, true, State.ReadCardID2),
         (0x5D, true, State.ReadAddressMSB), (0x00, true, State.ReadAddressLSB),
         (hi, true, State.ReadACK1), (0x5C, true, State.ReadACK2),
         (0x5D, true, State.ReadConfirmAddressMSB),
         (sectorAddress hi lo >>> 8, true, State.ReadConfirmAddressLSB),
         (sectorAddress hi lo &&& 0xFF, true, State.ReadData)] ++
        ((List.range SECTOR_SIZE).map fun i =>
          (c.m_data (sectorAddress hi lo * SECTOR_SIZE + i), true,
            if i + 1 = SECTOR_SIZE then State.ReadChecksum else State.ReadData)) ++
        [(sectorChecksum (sectorAddress hi lo) (sectorData c (sectorAddress hi lo)), true,
           State.ReadEnd)] := by
      unfold readTransactionReplies
      rw [List.dropLast_append_of_ne_nil _ (by simp)]
      rfl
    rw [hdrop] at hr
    simp only [List.mem_append, List.mem_cons, List.mem_map, List.mem_range, List.mem_singleton,
      List.not_mem_nil, or_false] at hr
    rcases hr with ((h | h | h | h | h | h | h | h | h) | ⟨i, -, h⟩) | h
    all_goals
      subst h
      refine ⟨rfl, ?_⟩
      dsimp only
      first
        | (split <;> simp)
        | simp
  · unfold readTransactionReplies
    rw [List.getLast?_append_of_ne_nil _ (by simp)]
    rfl

/-- C20 at sector `0x102` of a card whose byte at index `i` is `i % 251`. -/
theorem read_transaction_spec_witness :
    ∃ c' replies,
      TransferAll sampleCard ([0x52, 0, 0, 0x01, 0x02] ++ List.replicate 134 0) =
        Except.ok (c', replies) ∧
      c'.m_state = State.Idle ∧ replies.length = 139 ∧
      replies.getLast? = some (0x47, false, State.Idle) := by
  obtain ⟨c', replies, h, hs, -, hl, -, -, hlast⟩ :=
    read_transaction_spec sampleCard 0 0 0x01 0x02 (List.replicate 134 0) rfl (by simp)
  exact ⟨c', replies, h, hs, hl, hlast⟩

end MemoryCard

namespace MemoryCard

theorem written_data_concat (c : MemoryCard) (data : List ℕ) (x : ℕ) :
    Function.update
        (fun i =>
          if c.m_address * SECTOR_SIZE ≤ i ∧ i < c.m_address * SECTOR_SIZE + data.length then
            data.getD (i - c.m_address * SECTOR_SIZE) 0
          else c.m_data i)
        (c.m_address * SECTOR_SIZE + data.length) x =
      fun i =>
        if c.m_address * SECTOR_SIZE ≤ i ∧
            i < c.m_address * SECTOR_SIZE + (data ++ [x]).length then
          (data ++ [x]).getD (i - c.m_address * SECTOR_SIZE) 0
        else c.m_data i := by
  funext i
  rw [List.length_append, List.length_singleton]
  by_cases hi : i = c.m_address * SECTOR_SIZE + data.length
  · subst hi
    rw [Function.update_same, if_pos ⟨by omega, by omega⟩,
      show c.m_address * SECTOR_SIZE + data.length - c.m_address * SECTOR_SIZE = data.length by
        omega,
      List.getD_append_right _ _ _ _ le_rfl]
    simp
  · rw [Function.update_noteq hi]
    by_cases hin : c.m_address * SECTOR_SIZE ≤ i ∧ i < c.m_address * SECTOR_SIZE + data.length
    · rw [if_pos hin, if_pos ⟨hin.1, by omega⟩, List.getD_append _ _ _ _ (by omega)]
    · rw [if_neg hin, if_neg (by omega)]

theorem writeProgress_concat (c : MemoryCard) (data : List ℕ) (x : ℕ) :
    writeProgress c (data ++ [x]) =
      { c with
        m_checksum := sectorChecksum c.m_address data ^^^ x
        m_data :=
          Function.update
            (fun i =>
              if c.m_address * SECTOR_SIZE ≤ i ∧
                  i < c.m_address * SECTOR_SIZE + data.length then
                data.getD (i - c.m_address * SECTOR_SIZE) 0
              else c.m_data i)
            (c.m_address * SECTOR_SIZE + data.length) x
        m_last_byte := x
        m_state := if data.length + 1 = SECTOR_SIZE then State.WriteChecksum else State.WriteData
        m_sector_offset := if data.length + 1 = SECTOR_SIZE then 0 else data.length + 1 } := by
  rw [written_data_concat]
  unfold writeProgress
  rw [sectorChecksum_append]
  simp

theorem writeData_first (c : MemoryCard) (x : ℕ) (hstate : c.m_state = State.WriteData)
    (hoff : c.m_sector_offset = 0) (haddr : c.m_address ≤ 1023) :
    Transfer c x = Except.ok (writeProgress c ([] ++ [x]), c.m_last_byte, true) := by
  have hidx : ¬ 1024 * 128 ≤ c.m_address * 128 := by omega
  have hdata : (fun i =>
      if c.m_address * SECTOR_SIZE ≤ i ∧ i < c.m_address * SECTOR_SIZE + ([] : List ℕ).length then
        ([] : List ℕ).getD (i - c.m_address * SECTOR_SIZE) 0
      else c.m_data i) = c.m_data := by
    funext i
    rw [if_neg]
    simp only [List.length_nil]
    omega
  rw [writeProgress_concat, hdata]
  simp [Transfer, hstate, hoff, hidx, finish, sectorChecksum, SECTOR_SIZE, DATA_SIZE]

theorem writeData_next (c : MemoryCard) (data : List ℕ) (x : ℕ) (hn0 : 0 < data.length)
    (hn : data.length < 128) (haddr : c.m_address ≤ 1023) :
    Transfer (writeProgress c data) x =
      Except.ok (writeProgress c (data ++ [x]), data.getLastD 0, true) := by
  have hidx : ¬ 1024 * 128 ≤ c.m_address * 128 + data.length := by omega
  have hne : data.length ≠ 128 := by omega
  have hn0' : data.length ≠ 0 := by omega
  have hmod : (data.length + 1) % 256 = data.length + 1 := Nat.mod_eq_of_lt (by omega)
  rw [writeProgress_concat]
  simp only [Transfer, writeProgress, SECTOR_SIZE, DATA_SIZE, if_neg hne, if_neg hn0',
    if_neg hidx, hmod, finish]
  split_ifs <;> rfl

theorem writeData_run (c : MemoryCard) (hstate : c.m_state = State.WriteData)
    (hoff : c.m_sector_offset = 0) (haddr : c.m_address ≤ 1023) :
    ∀ (data : List ℕ) (x : ℕ), data.length < 128 →
      ∃ replies, TransferAll c (data ++ [x]) = Except.ok (writeProgress c (data ++ [x]), replies) ∧
        replies.length = data.length + 1 := by
  intro data
  induction data using List.reverseRecOn with
  | nil =>
    intro x _
    have hstep := writeData_first c x hstate hoff haddr
    refine ⟨[(c.m_last_byte, true, (writeProgress c ([] ++ [x])).m_state)], ?_, rfl⟩
    rw [List.nil_append] at hstep ⊢
    simp only [TransferAll, hstep]
  | append_singleton xs y ih =>
    intro x hlen
    have hxs : xs.length < 127 := by
      simp only [List.length_append, List.length_singleton] at hlen
      omega
    obtain ⟨r₁, h1, hr₁⟩ := ih y (by omega)
    have hstep : TransferAll (writeProgress c (xs ++ [y])) [x] =
        Except.ok (writeProgress c (xs ++ [y] ++ [x]),
          [((xs ++ [y]).getLastD 0, true, (writeProgress c (xs ++ [y] ++ [x])).m_state)]) := by
      simp only [TransferAll,
        writeData_next c (xs ++ [y]) x (by simp) (by simpa using hlen) haddr]
    refine ⟨_, TransferAll_append h1 hstep, ?_⟩
    simp [hr₁]

theorem write_header (c : MemoryCard) (hidle : c.m_state = State.Idle) (id₁ id₂ hi lo : ℕ) :
    TransferAll c [0x57, id₁, id₂, hi, lo] =
      Except.ok
        ({ c with
           m_state := State.WriteData
           m_address := sectorAddress hi lo
           m_sector_offset := 0
           m_last_byte := lo },
         [(c.m_FLAG, true, State.WriteCardID1), (0x5A, true, State.WriteCardID2),
          (0x5D, true, State.WriteAddressMSB), (0x00, true, State.WriteAddressLSB),
          (hi, true, State.WriteData)]) := by
  have haddr := address_bytes c.m_address hi lo
  norm_num at haddr
  simp [TransferAll, Transfer, hidle, FIXED_REPLY_STATE, ADDRESS_STATE_MSB, ADDRESS_STATE_LSB,
    finish, haddr]

/-- A whole write transaction from `Idle`: the card afterwards and the replies;
the reply after the last data byte is the checksum of the address and the data
written. -/
theorem write_transaction (c : MemoryCard) (hidle : c.m_state = State.Idle)
    (id₁ id₂ hi lo : ℕ) (data rest : List ℕ) (hdata : data.length = 128)
    (hrest : rest.length = 4) :
    ∃ data_replies : List (ℕ × Bool × State),
      data_replies.length = 128 ∧
      TransferAll c (writeCommand id₁ id₂ hi lo data rest) =
        Except.ok
          ({ c with
             m_state := State.Idle
             m_address := sectorAddress hi lo
             m_sector_offset := 0
             m_checksum := sectorChecksum (sectorAddress hi lo) data
             m_last_byte := rest.getLastD 0
             m_data := fun i =>
               if sectorAddress hi lo * SECTOR_SIZE ≤ i ∧
                   i < sectorAddress hi lo * SECTOR_SIZE + 128 then
                 data.getD (i - sectorAddress hi lo * SECTOR_SIZE) 0
               else c.m_data i },
           [(c.m_FLAG, true, State.WriteCardID1), (0x5A, true, State.WriteCardID2),
            (0x5D, true, State.WriteAddressMSB), (0x00, true, State.WriteAddressLSB),
            (hi, true, State.WriteData)] ++ data_replies ++
           [(sectorChecksum (sectorAddress hi lo) data, true, State.WriteACK1),
            (0x5C, true, State.WriteACK2), (0x5D, true, State.WriteEnd),
            (0x47, false, State.Idle)]) := by
  obtain ⟨r₁, r₂, r₃, r₄, rfl⟩ : ∃ r₁ r₂ r₃ r₄, rest = [r₁, r₂, r₃, r₄] := by
    match rest, hrest with
    | [r₁, r₂, r₃, r₄], _ => exact ⟨r₁, r₂, r₃, r₄, rfl⟩
  obtain ⟨ins, x, rfl⟩ : ∃ ins x, data = ins ++ [x] := by
    rcases List.eq_nil_or_concat data with h | ⟨ins, x, h⟩
    · rw [h] at hdata; simp at hdata
    · exact ⟨ins, x, by rw [h, List.concat_eq_append]⟩
  have hins : ins.length = 127 := by simpa using hdata
  have h1 := write_header c hidle id₁ id₂ hi lo
  obtain ⟨replies, h2, hlen⟩ := writeData_run
    { c with m_state := State.WriteData, m_address := sectorAddress hi lo, m_sector_offset := 0,
             m_last_byte := lo }
    rfl rfl (sectorAddress_le hi lo) ins x (by omega)
  have h3 : TransferAll
      (writeProgress
        { c with m_state := State.WriteData, m_address := sectorAddress hi lo,
                 m_sector_offset := 0, m_last_byte := lo } (ins ++ [x])) [r₁, r₂, r₃, r₄] =
      Except.ok
        ({ c with
           m_state := State.Idle
           m_address := sectorAddress hi lo
           m_sector_offset := 0
           m_checksum := sectorChecksum (sectorAddress hi lo) (ins ++ [x])
           m_last_byte := r₄
           m_data := fun i =>
             if sectorAddress hi lo * SECTOR_SIZE ≤ i ∧
                 i < sectorAddress hi lo * SECTOR_SIZE + 128 then
               (ins ++ [x]).getD (i - sectorAddress hi lo * SECTOR_SIZE) 0
             else c.m_data i },
         [(sectorChecksum (sectorAddress hi lo) (ins ++ [x]), true, State.WriteACK1),
          (0x5C, true, State.WriteACK2), (0x5D, true, State.WriteEnd),
          (0x47, false, State.Idle)]) := by
    simp [TransferAll, Transfer, writeProgress, hins, SECTOR_SIZE, FIXED_REPLY_STATE, finish]
  have h123 := TransferAll_append (TransferAll_append h1 h2) h3
  refine ⟨replies, by omega, ?_⟩
  have hcmd : writeCommand id₁ id₂ hi lo (ins ++ [x]) [r₁, r₂, r₃, r₄] =
      [0x57, id₁, id₂, hi, lo] ++ (ins ++ [x]) ++ [r₁, r₂, r₃, r₄] := rfl
  rw [hcmd, h123]
  rfl

end MemoryCard

namespace MemoryCard

theorem map_getD_range (data : List ℕ) :
    ((List.range data.length).map fun i => data.getD i 0) = data := by
  apply List.ext_getElem
  · simp
  · intro i h₁ h₂
    simp [List.getElem?_eq_getElem h₂]

/-- The data bytes among the replies of a read transaction are the bytes of the
sector addressed. -/
theorem readTransactionReplies_data (c : MemoryCard) (hi lo : ℕ) :
    (((readTransactionReplies c hi lo).drop 9).take 128).map (fun r => r.1) =
      sectorData c (sectorAddress hi lo) := by
  unfold readTransactionReplies
  rw [List.append_assoc, List.drop_left' (by rfl), List.take_left' (by simp [SECTOR_SIZE])]
  simp [sectorData, Function.comp_def]

/-- C19: write/read round trip.  From `Idle`, for every card contents, address
bytes `hi`, `lo` and 128 data bytes `data`, a complete write transaction
(`0x57`, two bytes, `hi`, `lo`, the 128 bytes, four more bytes) succeeds and
leaves the card in `Idle`, and a complete read transaction with the same `hi`,
`lo` from there (`0x52`, two bytes, `hi`, `lo`, 134 more bytes) succeeds, leaves
the card in `Idle`, and its 128 data replies (those to transfers 10 to 137) are
exactly `data`. -/
theorem write_then_read (c : MemoryCard) (id₁ id₂ id₃ id₄ hi lo : ℕ)
    (data wrest rrest : List ℕ) (hidle : c.m_state = State.Idle)
    (hdata : data.length = 128) (hwrest : wrest.length = 4) (hrrest : rrest.length = 134) :
    ∃ c₁ w c₂ r,
      TransferAll c ([0x57, id₁, id₂, hi, lo] ++ data ++ wrest) = Except.ok (c₁, w) ∧
      c₁.m_state = State.Idle ∧ w.length = 137 ∧
      TransferAll c₁ ([0x52, id₃, id₄, hi, lo] ++ rrest) = Except.ok (c₂, r) ∧
      c₂.m_state = State.Idle ∧ r.length = 139 ∧
      ((r.drop 9).take 128).map (fun reply => reply.1) = data := by
  obtain ⟨dr, hdr, hw⟩ := write_transaction c hidle id₁ id₂ hi lo data wrest hdata hwrest
  refine ⟨_, _, _, _, hw, rfl, by simp [hdr],
    read_transaction _ rfl id₃ id₄ hi lo rrest hrrest, rfl,
    by simp [readTransactionReplies, SECTOR_SIZE], ?_⟩
  rw [readTransactionReplies_data]
  have hsector : ∀ i ∈ List.range 128,
      (if sectorAddress hi lo * SECTOR_SIZE ≤ sectorAddress hi lo * SECTOR_SIZE + i ∧
          sectorAddress hi lo * SECTOR_SIZE + i < sectorAddress hi lo * SECTOR_SIZE + 128 then
        data.getD (sectorAddress hi lo * SECTOR_SIZE + i - sectorAddress hi lo * SECTOR_SIZE) 0
      else c.m_data (sectorAddress hi lo * SECTOR_SIZE + i)) = data.getD i 0 := by
    intro i hi'
    rw [List.mem_range] at hi'
    rw [if_pos ⟨by omega, by omega⟩, Nat.add_sub_cancel_left]
  have hmap := map_getD_range data
  rw [hdata] at hmap
  unfold sectorData
  rw [show SECTOR_SIZE = 128 from rfl] at hsector ⊢
  exact (List.map_congr_left hsector).trans hmap

/-- C19 at sector `0x102` of a card whose byte at index `i` is `i % 251`,
writing the bytes `0, 1, .., 127`. -/
theorem write_then_read_witness :
    ∃ c₁ w c₂ r,
      TransferAll sampleCard ([0x57, 0, 0, 0x01, 0x02] ++ List.range 128 ++ [0, 0, 0, 0]) =
        Except.ok (c₁, w) ∧
      TransferAll c₁ ([0x52, 0, 0, 0x01, 0x02] ++ List.replicate 134 0) = Except.ok (c₂, r) ∧
      ((r.drop 9).take 128).map (fun reply => reply.1) = List.range 128 := by
  obtain ⟨c₁, w, c₂, r, hw, -, -, hr, -, -, hdata⟩ :=
    write_then_read sampleCard 0 0 0 0 0x01 0x02 (List.range 128) [0, 0, 0, 0]
      (List.replicate 134 0) rfl (by simp) rfl (by simp)
  exact ⟨c₁, w, c₂, r, hw, hr, hdata⟩

end MemoryCard

/-! ## Memory card: single transfers and runs -/

namespace MemoryCard

/-- A transfer leaves the flag byte alone and records its input byte. -/
theorem Transfer_frame {c c' : MemoryCard} {x out : ℕ} {ack : Bool}
    (h : Transfer c x = Except.ok (c', out, ack)) :
    c'.m_FLAG = c.m_FLAG ∧ c'.m_last_byte = x := by
  obtain ⟨st, flag, addr, off, chk, last, data⟩ := c
  cases st <;>
    simp only [Transfer, FIXED_REPLY_STATE, ADDRESS_STATE_MSB, ADDRESS_STATE_LSB, finish] at h <;>
    (try split_ifs at h) <;>
    (try cases h) <;>
    (try exact ⟨rfl, rfl⟩)

end MemoryCard

namespace MemoryCard

/-- A transfer changes the data of the card only in `WriteData`, and there only
the byte under the address and offset. -/
theorem Transfer_data {c c' : MemoryCard} {x out : ℕ} {ack : Bool}
    (h : Transfer c x = Except.ok (c', out, ack)) :
    c'.m_data =
      if c.m_state = State.WriteData then
        Function.update c.m_data (c.m_address * SECTOR_SIZE + c.m_sector_offset) x
      else c.m_data := by
  obtain ⟨st, flag, addr, off, chk, last, data⟩ := c
  cases st <;>
    simp only [Transfer, FIXED_REPLY_STATE, ADDRESS_STATE_MSB, ADDRESS_STATE_LSB, finish] at h <;>
    (try split_ifs at h) <;>
    (try cases h) <;>
    (try simp)

/-- A transfer keeps the address and the offset within their bounds. -/
theorem Transfer_InBounds {c c' : MemoryCard} {x out : ℕ} {ack : Bool} (hc : InBounds c)
    (h : Transfer c x = Except.ok (c', out, ack)) : InBounds c' := by
  obtain ⟨st, flag, addr, off, chk, last, data⟩ := c
  obtain ⟨haddr, hoff⟩ := hc
  simp only [SECTOR_SIZE] at hoff
  have hmod : (off + 1) % 256 = off + 1 := Nat.mod_eq_of_lt (by omega)
  cases st <;>
    simp only [Transfer, FIXED_REPLY_STATE, ADDRESS_STATE_MSB, ADDRESS_STATE_LSB, finish, hmod,
      SECTOR_SIZE] at h <;>
    (try split_ifs at h) <;>
    cases h <;>
    refine ⟨?_, ?_⟩ <;>
    first
      | exact haddr
      | exact Nat.and_le_right
      | exact hoff
      | (simp only [SECTOR_SIZE]; omega)

/-- Within the bounds a transfer returns, except for the command `0x53` in
`Idle`, where it stops in `Panic`. -/
theorem Transfer_returns (c : MemoryCard) (x : ℕ) (hc : InBounds c) :
    (c.m_state = State.Idle ∧ x = 0x53 ∧ Transfer c x = Except.error Fault.Panic) ∨
    (¬ (c.m_state = State.Idle ∧ x = 0x53) ∧
      ∃ c' out ack, Transfer c x = Except.ok (c', out, ack)) := by
  obtain ⟨st, flag, addr, off, chk, last, data⟩ := c
  obtain ⟨haddr, hoff⟩ := hc
  simp only [SECTOR_SIZE] at hoff
  dsimp only at haddr hoff
  have hidx : ¬ 1024 * 128 ≤ addr * 128 + off := by omega
  cases st <;>
    simp only [Transfer, FIXED_REPLY_STATE, ADDRESS_STATE_MSB, ADDRESS_STATE_LSB, finish,
      SECTOR_SIZE, DATA_SIZE, if_neg hidx] <;>
    (try split_ifs) <;>
    simp_all

end MemoryCard

namespace MemoryCard

/-- A run that returns is a first transfer that returns, followed by a run that
returns. -/
theorem TransferAll_cons {c c₂ : MemoryCard} {x : ℕ} {xs : List ℕ}
    {replies : List (ℕ × Bool × State)}
    (h : TransferAll c (x :: xs) = Except.ok (c₂, replies)) :
    ∃ c₁ out ack rs, Transfer c x = Except.ok (c₁, out, ack) ∧
      TransferAll c₁ xs = Except.ok (c₂, rs) ∧ replies = (out, ack, c₁.m_state) :: rs := by
  rw [TransferAll] at h
  cases h₁ : Transfer c x with
  | error fault => rw [h₁] at h; cases h
  | ok r₁ =>
    obtain ⟨c₁, out, ack⟩ := r₁
    rw [h₁] at h
    dsimp only at h
    cases h₂ : TransferAll c₁ xs with
    | error fault => rw [h₂] at h; cases h
    | ok r₂ =>
      obtain ⟨c₃, rs⟩ := r₂
      rw [h₂] at h
      dsimp only at h
      cases h
      exact ⟨c₁, out, ack, rs, rfl, h₂, rfl⟩

/-- A run of transfers leaves the flag byte alone, answers every byte sent, and
keeps the address and the offset within their bounds. -/
theorem TransferAll_frame :
    ∀ (xs : List ℕ) (c c' : MemoryCard) (replies : List (ℕ × Bool × State)),
      TransferAll c xs = Except.ok (c', replies) →
      c'.m_FLAG = c.m_FLAG ∧ replies.length = xs.length ∧ (InBounds c → InBounds c') := by
  intro xs
  induction xs with
  | nil =>
    intro c c' replies h
    rw [TransferAll] at h
    cases h
    exact ⟨rfl, rfl, id⟩
  | cons x xs ih =>
    intro c c' replies h
    obtain ⟨c₁, out, ack, rs, h₁, h₂, rfl⟩ := TransferAll_cons h
    obtain ⟨hflag, hlen, hin⟩ := ih c₁ c' rs h₂
    refine ⟨hflag.trans (Transfer_frame h₁).1, by simp [hlen], ?_⟩
    intro hc
    exact hin (Transfer_InBounds hc h₁)

/-- Within the bounds a run of transfers either returns or stops in `Panic` at
a command `0x53`; it never leaves the data of the card. -/
theorem TransferAll_returns :
    ∀ (xs : List ℕ) (c : MemoryCard), InBounds c →
      (0x53 ∈ xs ∧ TransferAll c xs = Except.error Fault.Panic) ∨
      ∃ c' replies, TransferAll c xs = Except.ok (c', replies) := by
  intro xs
  induction xs with
  | nil =>
    intro c _
    exact Or.inr ⟨c, [], rfl⟩
  | cons x xs ih =>
    intro c hc
    rcases Transfer_returns c x hc with ⟨-, hx, hpanic⟩ | ⟨-, c₁, out, ack, h₁⟩
    · left
      refine ⟨by simp [hx], ?_⟩
      rw [TransferAll, hpanic]
    · rcases ih c₁ (Transfer_InBounds hc h₁) with ⟨hmem, hpanic⟩ | ⟨c', rs, h₂⟩
      · left
        refine ⟨List.mem_cons_of_mem _ hmem, ?_⟩
        rw [TransferAll, h₁]
        dsimp only
        rw [hpanic]
      · right
        refine ⟨c', (out, ack, c₁.m_state) :: rs, ?_⟩
        rw [TransferAll, h₁]
        dsimp only
        rw [h₂]

theorem InBounds_ResetTransferState (c : MemoryCard) : InBounds (ResetTransferState c) := by
  constructor
  · exact Nat.zero_le _
  · show (0 : ℕ) < 128
    omega

/-- C22: the bounds invariant.  Starting from a reset transfer state, a
sequence of transfers either returns or stops in the `Panic` of a command
`0x53` (it returns whenever no byte sent is `0x53`); it never indexes `m_data`
out of range; and whenever it returns, `m_address <= 0x3FF` and
`m_sector_offset < SECTOR_SIZE = 128` hold afterwards, so the index
`m_address * 128 + m_sector_offset` that `ReadData` and `WriteData` would use
next is below `DATA_SIZE = 1024 * 128 = 131072`. -/
theorem bounds_invariant (c : MemoryCard) (inputs : List ℕ) :
    TransferAll (ResetTransferState c) inputs ≠ Except.error Fault.OutOfRange ∧
    (TransferAll (ResetTransferState c) inputs = Except.error Fault.Panic ∨
      ∃ c' replies, TransferAll (ResetTransferState c) inputs = Except.ok (c', replies)) ∧
    (0x53 ∉ inputs →
      ∃ c' replies, TransferAll (ResetTransferState c) inputs = Except.ok (c', replies)) ∧
    (∀ c' replies, TransferAll (ResetTransferState c) inputs = Except.ok (c', replies) →
      c'.m_address ≤ 0x3FF ∧ c'.m_sector_offset < SECTOR_SIZE ∧
      c'.m_address * SECTOR_SIZE + c'.m_sector_offset < DATA_SIZE ∧
      Transfer c' 0 ≠ Except.error Fault.OutOfRange) ∧
    SECTOR_SIZE = 128 ∧ DATA_SIZE = 131072 := by
  have hreset := InBounds_ResetTransferState c
  have hret := TransferAll_returns inputs (ResetTransferState c) hreset
  refine ⟨?_, ?_, ?_, ?_, rfl, rfl⟩
  · rcases hret with ⟨-, h⟩ | ⟨c', rs, h⟩ <;> rw [h] <;> simp
  · rcases hret with ⟨-, h⟩ | h
    · exact Or.inl h
    · exact Or.inr h
  · intro hmem
    rcases hret with ⟨h, -⟩ | h
    · exact absurd h hmem
    · exact h
  · intro c' replies h
    have hin := (TransferAll_frame inputs _ c' replies h).2.2 hreset
    obtain ⟨haddr, hoff⟩ := hin
    refine ⟨haddr, hoff, ?_, ?_⟩
    · simp only [SECTOR_SIZE, DATA_SIZE] at hoff ⊢
      omega
    · rcases Transfer_returns c' 0 ⟨haddr, hoff⟩ with ⟨-, -, h⟩ | ⟨-, c₁, out, ack, h⟩ <;>
        rw [h] <;> simp

end MemoryCard

namespace MemoryCard

theorem foldl_xor (bytes : List ℕ) (init : ℕ) :
    bytes.foldl (· ^^^ ·) init = init ^^^ bytes.foldl (· ^^^ ·) 0 := by
  induction bytes generalizing init with
  | nil => simp
  | cons b bs ih =>
    simp only [List.foldl_cons]
    rw [ih (init ^^^ b), ih (0 ^^^ b), Nat.zero_xor, Nat.xor_assoc]

/-- The checksum of a sector is the exclusive or of the high part of its
address, the low byte of its address and the data bytes. -/
theorem sectorChecksum_eq (hi lo : ℕ) (bytes : List ℕ) :
    sectorChecksum (sectorAddress hi lo) bytes =
      (sectorAddress hi lo >>> 8) ^^^ (sectorAddress hi lo &&& 0xFF) ^^^
        bytes.foldl (· ^^^ ·) 0 := by
  unfold sectorChecksum
  rw [foldl_xor, (Truncate8_sectorAddress hi lo).1, (Truncate8_sectorAddress hi lo).2]

theorem getElem?_after {α : Type} (l₁ l₂ : List α) (n : ℕ) (h : l₁.length = n) :
    (l₁ ++ l₂)[n]? = l₂[0]? := by
  subst h
  simp [List.getElem?_append_right]

/-- The reply bytes of a read transaction. -/
theorem readTransactionReplies_bytes (c : MemoryCard) (hi lo : ℕ) :
    (readTransactionReplies c hi lo).map (fun r => r.1) =
      [c.m_FLAG, 0x5A, 0x5D, 0x00, hi, 0x5C, 0x5D, sectorAddress hi lo >>> 8,
        sectorAddress hi lo &&& 0xFF] ++ sectorData c (sectorAddress hi lo) ++
      [sectorChecksum (sectorAddress hi lo) (sectorData c (sectorAddress hi lo)), 0x47] := by
  simp [readTransactionReplies, sectorData, SECTOR_SIZE, Function.comp_def]

/-- C21: the checksum.  In a read transaction and in a write transaction of
sector `A`, started in `Idle` with any checksum `leftover` from an earlier
transaction, the byte the card replies after the 128th data byte is
`(A >> 8) xor (A & 0xFF) xor` the exclusive or of the 128 data bytes of that
transaction: the bytes of sector `A` the card sent in the read, the bytes it was
sent in the write.  What `leftover` was does not matter. -/
theorem checksum_spec (c : MemoryCard) (leftover id₁ id₂ hi lo : ℕ) (rest data wrest : List ℕ)
    (hidle : c.m_state = State.Idle) (hrest : rest.length = 134) (hdata : data.length = 128)
    (hwrest : wrest.length = 4) :
    (∃ c' replies,
      TransferAll { c with m_checksum := leftover } ([0x52, id₁, id₂, hi, lo] ++ rest) =
        Except.ok (c', replies) ∧
      ((replies.drop 9).take 128).map (fun r => r.1) =
        ((List.range 128).map fun i => c.m_data (sectorAddress hi lo * 128 + i)) ∧
      (replies.map fun r => r.1)[9 + 128]? =
        some ((sectorAddress hi lo >>> 8) ^^^ (sectorAddress hi lo &&& 0xFF) ^^^
          (((replies.drop 9).take 128).map fun r => r.1).foldl (· ^^^ ·) 0)) ∧
    (∃ c' replies,
      TransferAll { c with m_checksum := leftover } ([0x57, id₁, id₂, hi, lo] ++ data ++ wrest) =
        Except.ok (c', replies) ∧
      (replies.map fun r => r.1)[5 + 128]? =
        some ((sectorAddress hi lo >>> 8) ^^^ (sectorAddress hi lo &&& 0xFF) ^^^
          data.foldl (· ^^^ ·) 0)) := by
  constructor
  · refine ⟨_, _, read_transaction { c with m_checksum := leftover } hidle id₁ id₂ hi lo rest hrest,
      ?_, ?_⟩
    · rw [readTransactionReplies_data]
      rfl
    · rw [readTransactionReplies_data, readTransactionReplies_bytes, ← sectorChecksum_eq,
        getElem?_after _ _ (9 + 128) (by simp [sectorData, SECTOR_SIZE])]
      rfl
  · obtain ⟨dr, hdr, hw⟩ :=
      write_transaction { c with m_checksum := leftover } hidle id₁ id₂ hi lo data wrest hdata
        hwrest
    refine ⟨_, _, hw, ?_⟩
    rw [List.map_append, ← sectorChecksum_eq,
      getElem?_after _ _ (5 + 128) (by simp [hdr])]
    rfl

/-- C21 at sector `0x102` of a card whose byte at index `i` is `i % 251`, with
the leftover checksum `0xAB`, writing the bytes `0, 1, .., 127`. -/
theorem checksum_spec_witness :
    ∃ c' replies,
      TransferAll { sampleCard with m_checksum := 0xAB }
          ([0x57, 0, 0, 0x01, 0x02] ++ List.range 128 ++ [0, 0, 0, 0]) =
        Except.ok (c', replies) ∧
      (replies.map fun r => r.1)[5 + 128]? =
        some ((sectorAddress 0x01 0x02 >>> 8) ^^^ (sectorAddress 0x01 0x02 &&& 0xFF) ^^^
          (List.range 128).foldl (· ^^^ ·) 0) :=
  (checksum_spec sampleCard 0xAB 0 0 0x01 0x02 (List.replicate 134 0) (List.range 128)
    [0, 0, 0, 0] rfl (by simp) (by simp) rfl).2

end MemoryCard

namespace MemoryCard

/-- A transfer returns unless it is the command `0x53` in `Idle` or its index
lies outside the data of the card. -/
theorem Transfer_returns_iff (c : MemoryCard) (x : ℕ) :
    (∃ c' out ack, Transfer c x = Except.ok (c', out, ack)) ↔
      ¬ (c.m_state = State.Idle ∧ x = 0x53) ∧
      ¬ ((c.m_state = State.ReadData ∨ c.m_state = State.WriteData) ∧
        DATA_SIZE ≤ c.m_address * SECTOR_SIZE + c.m_sector_offset) := by
  obtain ⟨st, flag, addr, off, chk, last, data⟩ := c
  cases st <;>
    simp only [Transfer, FIXED_REPLY_STATE, ADDRESS_STATE_MSB, ADDRESS_STATE_LSB, finish] <;>
    (try split_ifs) <;>
    simp_all

/-- C23: the data frame.  A transfer that returns changes the data of the card
only when the state is `WriteData`, and then only the byte at index
`m_address * 128 + m_sector_offset`, which becomes `data_in`; it returns unless
it is the command `0x53` in `Idle` or that index lies outside the data.
Consequently a complete read transaction from `Idle` returns with all data
unchanged, and a complete write transaction to sector `A` from `Idle` returns
with every byte outside `A*128 .. A*128+127` unchanged. -/
theorem data_frame (c : MemoryCard) (x : ℕ) :
    (∀ c' out ack, Transfer c x = Except.ok (c', out, ack) →
      (c.m_state ≠ State.WriteData → c'.m_data = c.m_data) ∧
      (c.m_state = State.WriteData →
        c'.m_data (c.m_address * 128 + c.m_sector_offset) = x ∧
        ∀ i, i ≠ c.m_address * 128 + c.m_sector_offset → c'.m_data i = c.m_data i)) ∧
    ((∃ c' out ack, Transfer c x = Except.ok (c', out, ack)) ↔
      ¬ (c.m_state = State.Idle ∧ x = 0x53) ∧
      ¬ ((c.m_state = State.ReadData ∨ c.m_state = State.WriteData) ∧
        DATA_SIZE ≤ c.m_address * SECTOR_SIZE + c.m_sector_offset)) ∧
    (∀ (id₁ id₂ hi lo : ℕ) (rest : List ℕ), c.m_state = State.Idle → rest.length = 134 →
      ∃ c' replies,
        TransferAll c ([0x52, id₁, id₂, hi, lo] ++ rest) = Except.ok (c', replies) ∧
        c'.m_data = c.m_data) ∧
    (∀ (id₁ id₂ hi lo : ℕ) (data rest : List ℕ), c.m_state = State.Idle →
      data.length = 128 → rest.length = 4 →
      ∃ c' replies,
        TransferAll c ([0x57, id₁, id₂, hi, lo] ++ data ++ rest) = Except.ok (c', replies) ∧
        ∀ i, ¬ (sectorAddress hi lo * 128 ≤ i ∧ i ≤ sectorAddress hi lo * 128 + 127) →
          c'.m_data i = c.m_data i) := by
  refine ⟨?_, Transfer_returns_iff c x, ?_, ?_⟩
  · intro c' out ack h
    have hdata := Transfer_data h
    constructor
    · intro hstate
      rw [hdata, if_neg hstate]
    · intro hstate
      rw [hdata, if_pos hstate]
      constructor
      · exact Function.update_same _ _ _
      · intro i hne
        exact Function.update_noteq hne _ _
  · intro id₁ id₂ hi lo rest hidle hrest
    exact ⟨_, _, read_transaction c hidle id₁ id₂ hi lo rest hrest, rfl⟩
  · intro id₁ id₂ hi lo data rest hidle hdata hrest
    obtain ⟨dr, -, hw⟩ := write_transaction c hidle id₁ id₂ hi lo data rest hdata hrest
    refine ⟨_, _, hw, ?_⟩
    intro i hout
    show (if sectorAddress hi lo * SECTOR_SIZE ≤ i ∧ i < sectorAddress hi lo * SECTOR_SIZE + 128
      then data.getD (i - sectorAddress hi lo * SECTOR_SIZE) 0 else c.m_data i) = c.m_data i
    rw [if_neg]
    simp only [SECTOR_SIZE]
    omega

/-- C24: the acknowledge rule.  For every state and input byte other than the
command `0x53` in `Idle`, with the index inside the data in `ReadData` and
`WriteData`, `Transfer` returns, and it returns `ack = false` exactly when the
state was `ReadEnd`, `WriteEnd`, or `Idle` with an input byte that is none of
`0x81`, `0x52`, `0x57`; in each of these cases the resulting state is `Idle`.
In `Idle` the byte `0x81` is answered with `0xFF` and `ack = true`, and the
state stays `Idle`. -/
theorem ack_rule (c : MemoryCard) (x : ℕ) (hcmd : ¬ (c.m_state = State.Idle ∧ x = 0x53))
    (hrange : c.m_state = State.ReadData ∨ c.m_state = State.WriteData →
      c.m_address * SECTOR_SIZE + c.m_sector_offset < DATA_SIZE) :
    ∃ c' out ack, Transfer c x = Except.ok (c', out, ack) ∧
      (ack = false ↔
        c.m_state = State.ReadEnd ∨ c.m_state = State.WriteEnd ∨
          (c.m_state = State.Idle ∧ x ≠ 0x81 ∧ x ≠ 0x52 ∧ x ≠ 0x57)) ∧
      (ack = false → c'.m_state = State.Idle) ∧
      (c.m_state = State.Idle → x = 0x81 →
        out = 0xFF ∧ ack = true ∧ c'.m_state = State.Idle) := by
  obtain ⟨c', out, ack, h⟩ := (Transfer_returns_iff c x).2
    ⟨hcmd, fun hdata => absurd hdata.2 (not_le.2 (hrange hdata.1))⟩
  refine ⟨c', out, ack, h, ?_⟩
  obtain ⟨st, flag, addr, off, chk, last, data⟩ := c
  cases st <;>
    simp only [Transfer, FIXED_REPLY_STATE, ADDRESS_STATE_MSB, ADDRESS_STATE_LSB, finish] at h <;>
    (try split_ifs at h) <;>
    cases h <;>
    simp_all

/-- C24 for the byte `0x81` sent to an idle card. -/
theorem ack_rule_witness :
    ∃ c' out ack, Transfer sampleCard 0x81 = Except.ok (c', out, ack) ∧
      out = 0xFF ∧ ack = true ∧ c'.m_state = State.Idle := by
  obtain ⟨c', out, ack, h, -, -, h81⟩ :=
    ack_rule sampleCard 0x81 (by decide) (by intro h; rcases h with h | h <;> cases h)
  exact ⟨c', out, ack, h, h81 rfl rfl⟩

end MemoryCard

namespace MemoryCard

/-- In `Idle` the commands `0x52` and `0x57` are answered with the flag byte and
acknowledged. -/
theorem Transfer_status (c : MemoryCard) (hidle : c.m_state = State.Idle) (cmd : ℕ)
    (hcmd : cmd = 0x52 ∨ cmd = 0x57) :
    ∃ c', Transfer c cmd = Except.ok (c', c.m_FLAG, true) := by
  rcases hcmd with rfl | rfl <;> simp [Transfer, hidle, finish]

theorem no_write_yet_Create (bit : ℕ) (members : MemoryCard) :
    no_write_yet bit (Create bit members).m_FLAG = true := by
  simp [no_write_yet, Create, Nat.testBit_or, Nat.one_shiftLeft, Nat.testBit_two_pow_self]

/-- C25: the status frame.  The constructor sets `no_write_yet` in the flag
byte.  No transfer that returns modifies the flag byte, and after it
`m_last_byte` is its `data_in`.  So after every sequence of transfers on a
constructed card that returns, the flag byte is the value set at construction,
with `no_write_yet` still set, and in `Idle` the commands `0x52` and `0x57` are
answered with that value; within the bounds such a sequence returns whenever no
byte sent is `0x53`.  In particular a complete write transaction from `Idle`
returns, to `Idle`, with the flag byte as constructed, and the next `0x52` or
`0x57` is answered with it. -/
theorem status_frame (bit : ℕ) (members : MemoryCard) (inputs : List ℕ) :
    no_write_yet bit (Create bit members).m_FLAG = true ∧
    (∀ (c : MemoryCard) (x : ℕ) c' out ack, Transfer c x = Except.ok (c', out, ack) →
      c'.m_FLAG = c.m_FLAG ∧ c'.m_last_byte = x) ∧
    (∀ c' replies, TransferAll (Create bit members) inputs = Except.ok (c', replies) →
      c'.m_FLAG = (Create bit members).m_FLAG ∧ no_write_yet bit c'.m_FLAG = true ∧
      (c'.m_state = State.Idle → ∀ cmd, cmd = 0x52 ∨ cmd = 0x57 →
        ∃ c'', Transfer c' cmd = Except.ok (c'', (Create bit members).m_FLAG, true))) ∧
    (InBounds (Create bit members) → 0x53 ∉ inputs →
      ∃ c' replies, TransferAll (Create bit members) inputs = Except.ok (c', replies)) ∧
    (∀ (id₁ id₂ hi lo : ℕ) (data rest : List ℕ), (Create bit members).m_state = State.Idle →
      data.length = 128 → rest.length = 4 →
      ∃ c' replies,
        TransferAll (Create bit members) ([0x57, id₁, id₂, hi, lo] ++ data ++ rest) =
          Except.ok (c', replies) ∧
        c'.m_state = State.Idle ∧ c'.m_FLAG = (Create bit members).m_FLAG ∧
        no_write_yet bit c'.m_FLAG = true ∧
        ∀ cmd, cmd = 0x52 ∨ cmd = 0x57 →
          ∃ c'', Transfer c' cmd = Except.ok (c'', (Create bit members).m_FLAG, true)) := by
  have hset := no_write_yet_Create bit members
  refine ⟨hset, ?_, ?_, ?_, ?_⟩
  · intro c x c' out ack h
    exact Transfer_frame h
  · intro c' replies h
    have hflag := (TransferAll_frame inputs _ c' replies h).1
    refine ⟨hflag, by rw [hflag]; exact hset, ?_⟩
    intro hidle cmd hcmd
    rw [← hflag]
    exact Transfer_status c' hidle cmd hcmd
  · intro hin hmem
    rcases TransferAll_returns inputs _ hin with ⟨h, -⟩ | h
    · exact absurd h hmem
    · exact h
  · intro id₁ id₂ hi lo data rest hidle hdata hrest
    obtain ⟨dr, -, hw⟩ :=
      write_transaction (Create bit members) hidle id₁ id₂ hi lo data rest hdata hrest
    refine ⟨_, _, hw, rfl, rfl, hset, ?_⟩
    intro cmd hcmd
    exact Transfer_status _ rfl cmd hcmd

/-- C25 for a card constructed with `no_write_yet` at bit 3 and no other flag:
after a write transaction to sector `0x102` the card still answers `0x52` with
the flag byte `0x08`. -/
theorem status_frame_witness :
    ∃ c' replies c'',
      TransferAll (Create 3 { sampleCard with m_FLAG := 0 })
          ([0x57, 0, 0, 0x01, 0x02] ++ List.range 128 ++ [0, 0, 0, 0]) =
        Except.ok (c', replies) ∧
      no_write_yet 3 c'.m_FLAG = true ∧
      Transfer c' 0x52 = Except.ok (c'', 0x08, true) := by
  obtain ⟨c', replies, h, -, -, hset, hcmd⟩ :=
    (status_frame 3 { sampleCard with m_FLAG := 0 } []).2.2.2.2 0 0 0x01 0x02 (List.range 128)
      [0, 0, 0, 0] rfl (by simp) rfl
  obtain ⟨c'', h52⟩ := hcmd 0x52 (Or.inl rfl)
  exact ⟨c', replies, c'', h, hset, h52⟩

end MemoryCard
